import Mathlib

/-! # Region layout and redraw tagging of `source/blender/editors/screen/area.c`

A shallow embedding of the region redraw tags (`ED_region_tag_redraw` and
friends), of the region layout pass (`region_rect_recursive`,
`region_overlap_fix`, `ED_region_is_overlap`, `rct_fits`), of the action
zones (`area_azone_initialize`, `region_azones_add`, `region_draw_azones`,
`ED_area_azones_update`) and of the area functions built on them
(`ED_area_initialize`, `ED_area_newspace`, `region_toggle_hidden`), followed
by the properties established about them.

Conventions of the embedding.

* `int` values are unbounded `Int` (signed overflow is undefined in C and
  screen coordinates stay far away from it); values stored into a `short`
  field from an `int` expression go through `short_of_int`.
* Flag words (`do_draw`, `flag`, `alignment`) are `Nat` bit patterns;
  `a & m`, `a | m`, `a ^ m` are `&&&`, `|||`, `^^^` and `a & ~m` is
  `flag_clear a m`.
* A non-NULL `ARegion *` is a value of `ARegion`; the linked list
  `ar->prev` / `ar->next` is a pair of lists (see `LayoutState`).
* Floating point (the DPI factor) is kept abstract: the conversions that
  multiply or divide by `UI_DPI_FAC` are fields of `LayoutEnv`, those of the
  action zone sizes are fields of `UIEnv`.
* A member of a region list or of the space data carries an `id` that stands
  for its address; callbacks, event handlers and drawing calls are outside
  the embedding.
-/

namespace ScreenArea

/-! ## Rectangles (`DNA_vec_types.h`, `BLI_rect.h`) -/

/-- Integer rectangle `rcti`, fields in the order of the C struct. -/
structure rcti where
  xmin : Int
  xmax : Int
  ymin : Int
  ymax : Int
deriving DecidableEq, Repr

/-- Modelled from the spec: `BLI_rcti_init` of blenlib (not under src/), which
stores the bounds given in the argument order `xmin, xmax, ymin, ymax`, each
pair in ascending order: a pair given with its first value above the second
is stored swapped, so that `xmin <= xmax` and `ymin <= ymax` hold in the
result. -/
def BLI_rcti_init (xmin xmax ymin ymax : Int) : rcti :=
  { xmin := if xmin ≤ xmax then xmin else xmax
    xmax := if xmin ≤ xmax then xmax else xmin
    ymin := if ymin ≤ ymax then ymin else ymax
    ymax := if ymin ≤ ymax then ymax else ymin }

/-- Modelled from the spec: `BLI_rcti_size_x` of blenlib (not under src/),
the extent `xmax - xmin`. -/
def BLI_rcti_size_x (r : rcti) : Int := r.xmax - r.xmin

/-- Modelled from the spec: `BLI_rcti_size_y` of blenlib (not under src/),
the extent `ymax - ymin`. -/
def BLI_rcti_size_y (r : rcti) : Int := r.ymax - r.ymin

/-- Modelled from the spec: `BLI_rcti_cent_x` of blenlib (not under src/),
the center coordinate `(xmin + xmax) / 2` with C integer division. -/
def BLI_rcti_cent_x (r : rcti) : Int := Int.tdiv (r.xmin + r.xmax) 2

/-- Modelled from the spec: `BLI_rcti_cent_y` of blenlib (not under src/),
the center coordinate `(ymin + ymax) / 2` with C integer division. -/
def BLI_rcti_cent_y (r : rcti) : Int := Int.tdiv (r.ymin + r.ymax) 2

/-- Modelled from the spec: `BLI_rcti_union` of blenlib (not under src/), the
bounding union: componentwise minimum of the minima and maximum of the
maxima, written as the four conditional stores of the C function. -/
def BLI_rcti_union (rct1 rct2 : rcti) : rcti :=
  { xmin := if rct1.xmin > rct2.xmin then rct2.xmin else rct1.xmin
    xmax := if rct1.xmax < rct2.xmax then rct2.xmax else rct1.xmax
    ymin := if rct1.ymin > rct2.ymin then rct2.ymin else rct1.ymin
    ymax := if rct1.ymax < rct2.ymax then rct2.ymax else rct1.ymax }

/-- Modelled from the spec: `BLI_rcti_isect` of blenlib (not under src/) with
a NULL destination: whether the two rectangles intersect. -/
def BLI_rcti_isect (src1 src2 : rcti) : Bool :=
  let xmin := if src1.xmin > src2.xmin then src1.xmin else src2.xmin
  let xmax := if src1.xmax < src2.xmax then src1.xmax else src2.xmax
  let ymin := if src1.ymin > src2.ymin then src1.ymin else src2.ymin
  let ymax := if src1.ymax < src2.ymax then src1.ymax else src2.ymax
  decide (xmax ≥ xmin ∧ ymax ≥ ymin)

/-- Modelled from the spec: `BLI_rcti_translate` of blenlib (not under src/),
the rectangle moved by `(x, y)`. -/
def BLI_rcti_translate (r : rcti) (x y : Int) : rcti :=
  { xmin := r.xmin + x, xmax := r.xmax + x, ymin := r.ymin + y, ymax := r.ymax + y }

/-- The all-zero rectangle written by `memset(&r, 0, sizeof(r))` and by
`BLI_rcti_init(&r, 0, 0, 0, 0)`. -/
def rcti_zero : rcti := BLI_rcti_init 0 0 0 0

/-- Pixel `(x, y)` lies in the rectangle, bounds inclusive (the convention of
the layout code, where a region next to `xmax` starts at `xmax + 1`). -/
def rcti_mem (x y : Int) (r : rcti) : Prop :=
  r.xmin ≤ x ∧ x ≤ r.xmax ∧ r.ymin ≤ y ∧ y ≤ r.ymax

/-- Conversion of an `int` value stored into a `short` field (two's
complement wrap-around). -/
def short_of_int (v : Int) : Int := (v + 32768) % 65536 - 32768

/-- The C expression `a & ~m` on flag words: the bits of `a` outside `m`. -/
def flag_clear (a m : Nat) : Nat := a ^^^ (a &&& m)

/-! ## Constants of `DNA_screen_types.h` and `DNA_space_types.h` -/

/-- Modelled from the spec: region `do_draw` bit of `DNA_screen_types.h` (not
under src/): a full redraw is pending. -/
def RGN_DRAW : Nat := 1
/-- Modelled from the spec: region `do_draw` bit of `DNA_screen_types.h` (not
under src/): a redraw of the sub-rectangle `drawrct` is pending. -/
def RGN_DRAW_PARTIAL : Nat := 2
/-- Modelled from the spec: region `do_draw` bit of `DNA_screen_types.h` (not
under src/): the region is being drawn. -/
def RGN_DRAWING : Nat := 4
/-- Modelled from the spec: region `do_draw` bit of `DNA_screen_types.h` (not
under src/): the UI blocks are to be re-created. -/
def RGN_DRAW_REFRESH_UI : Nat := 8
/-- Modelled from the spec: region `do_draw` bit of `DNA_screen_types.h` (not
under src/): a redraw without layout rebuild is pending. -/
def RGN_DRAW_NO_REBUILD : Nat := 16

/-- Modelled from the spec: region type `window` of `DNA_screen_types.h` (not
under src/). -/
def RGN_TYPE_WINDOW : Nat := 0
/-- Modelled from the spec: region type `header` of `DNA_screen_types.h`. -/
def RGN_TYPE_HEADER : Nat := 1
/-- Modelled from the spec: region type `channels` of `DNA_screen_types.h`. -/
def RGN_TYPE_CHANNELS : Nat := 2
/-- Modelled from the spec: region type `UI panel` of `DNA_screen_types.h`. -/
def RGN_TYPE_UI : Nat := 4
/-- Modelled from the spec: region type `tool panel` of `DNA_screen_types.h`. -/
def RGN_TYPE_TOOLS : Nat := 5
/-- Modelled from the spec: region type `tool properties` of
`DNA_screen_types.h`. -/
def RGN_TYPE_TOOL_PROPS : Nat := 6
/-- Modelled from the spec: region type `preview` of `DNA_screen_types.h`. -/
def RGN_TYPE_PREVIEW : Nat := 7

/-- Modelled from the spec: alignment `none` of `DNA_screen_types.h` (not
under src/). -/
def RGN_ALIGN_NONE : Nat := 0
/-- Modelled from the spec: alignment `top` of `DNA_screen_types.h`. -/
def RGN_ALIGN_TOP : Nat := 1
/-- Modelled from the spec: alignment `bottom` of `DNA_screen_types.h`. -/
def RGN_ALIGN_BOTTOM : Nat := 2
/-- Modelled from the spec: alignment `left` of `DNA_screen_types.h`. -/
def RGN_ALIGN_LEFT : Nat := 3
/-- Modelled from the spec: alignment `right` of `DNA_screen_types.h`. -/
def RGN_ALIGN_RIGHT : Nat := 4
/-- Modelled from the spec: alignment `horizontal-split` of
`DNA_screen_types.h`. -/
def RGN_ALIGN_HSPLIT : Nat := 5
/-- Modelled from the spec: alignment `vertical-split` of
`DNA_screen_types.h`. -/
def RGN_ALIGN_VSPLIT : Nat := 6
/-- Modelled from the spec: alignment `float` of `DNA_screen_types.h`. -/
def RGN_ALIGN_FLOAT : Nat := 7
/-- Modelled from the spec: alignment `quad-split` of `DNA_screen_types.h`. -/
def RGN_ALIGN_QSPLIT : Nat := 8
/-- Modelled from the spec: the independent `split-from-previous` modifier
bit of the alignment word, `DNA_screen_types.h` (not under src/). -/
def RGN_SPLIT_PREV : Nat := 32

/-- Modelled from the spec: region flag `hidden` of `DNA_screen_types.h` (not
under src/). -/
def RGN_FLAG_HIDDEN : Nat := 1
/-- Modelled from the spec: region flag `too-small` of `DNA_screen_types.h`
(not under src/). -/
def RGN_FLAG_TOO_SMALL : Nat := 2

/-- Modelled from the spec: space type `3D viewport` of `DNA_space_types.h`
(not under src/). -/
def SPACE_VIEW3D : Nat := 1
/-- Modelled from the spec: space type `file browser` of `DNA_space_types.h`. -/
def SPACE_FILE : Nat := 5
/-- Modelled from the spec: space type `image editor` of `DNA_space_types.h`. -/
def SPACE_IMAGE : Nat := 6
/-- Modelled from the spec: space type `sequencer` of `DNA_space_types.h`. -/
def SPACE_SEQ : Nat := 8

/-! ## Regions -/

/-- The fields of `ARegion` read or written by the embedded functions. -/
structure ARegion where
  winrct : rcti
  drawrct : rcti
  winx : Int
  winy : Int
  regiontype : Nat
  alignment : Nat
  flag : Nat
  sizex : Int
  sizey : Int
  do_draw : Nat
  overlap : Bool
deriving DecidableEq, Repr

/-! ## Redraw tags (area.c, lines 548-600) -/

/-- `ED_region_tag_redraw` for a non-NULL region. -/
def ED_region_tag_redraw (ar : ARegion) : ARegion :=
  if ar.do_draw &&& RGN_DRAWING = 0 then
    { ar with
      do_draw := flag_clear ar.do_draw (RGN_DRAW_PARTIAL ||| RGN_DRAW_NO_REBUILD) ||| RGN_DRAW
      drawrct := rcti_zero }
  else ar

/-- `ED_region_tag_redraw_no_rebuild` for a non-NULL region. -/
def ED_region_tag_redraw_no_rebuild (ar : ARegion) : ARegion :=
  if ar.do_draw &&& (RGN_DRAWING ||| RGN_DRAW) = 0 then
    { ar with
      do_draw := flag_clear ar.do_draw RGN_DRAW_PARTIAL ||| RGN_DRAW_NO_REBUILD
      drawrct := rcti_zero }
  else ar

/-- `ED_region_tag_refresh_ui` for a non-NULL region. -/
def ED_region_tag_refresh_ui (ar : ARegion) : ARegion :=
  { ar with do_draw := ar.do_draw ||| RGN_DRAW_REFRESH_UI }

/-- `ED_region_tag_redraw_partial` for a non-NULL region; the two
`BLI_assert` lines have no effect on the state. -/
def ED_region_tag_redraw_partial (ar : ARegion) (rct : rcti) : ARegion :=
  if ar.do_draw &&& RGN_DRAWING = 0 then
    if ar.do_draw &&& (RGN_DRAW ||| RGN_DRAW_NO_REBUILD ||| RGN_DRAW_PARTIAL) = 0 then
      { ar with do_draw := ar.do_draw ||| RGN_DRAW_PARTIAL, drawrct := rct }
    else if ar.drawrct.xmin ≠ ar.drawrct.xmax then
      { ar with drawrct := BLI_rcti_union ar.drawrct rct }
    else ar
  else ar

/-! ## Region layout (area.c, lines 929-1260) -/

/-- What the layout pass reads from outside the region list: the area, the
user preferences and the DPI conversions (floating point, kept abstract). -/
structure LayoutEnv where
  /-- The field `sa->spacetype`. -/
  spacetype : Nat
  /-- Whether `U.uiflag2 & USER_REGION_OVERLAP` is non-zero. -/
  user_region_overlap : Bool
  /-- The field `sa->winx`. -/
  area_winx : Int
  /-- The preference `U.widget_unit`, also the value of `UI_UNIT_Y`. -/
  widget_unit : Int
  /-- Whether `sa->global` is non-NULL. -/
  area_global : Bool
  /-- The macro constant `HEADERY`. -/
  headery : Int
  /-- The conversion `(int)(UI_DPI_FAC * v)` of an integer `v`. -/
  dpi_mul : Int → Int
  /-- The conversion `(int)(UI_DPI_FAC * (v + 0.5f))`. -/
  dpi_mul_half : Int → Int
  /-- The conversion `(short)((v + 0.5f) / UI_DPI_FAC)`. -/
  dpi_div_half : Int → Int

/-- A region of the list together with the two fields of `ar->type` that the
layout reads. -/
structure LRegion where
  ar : ARegion
  /-- The field `ar->type->prefsizex`. -/
  type_prefsizex : Int
  /-- The field `ar->type->prefsizey`. -/
  type_prefsizey : Int
deriving DecidableEq, Repr

/-- `rct_fits`: room left in `rect` along `dir` after taking `size`. -/
def rct_fits (rect : rcti) (dir : Char) (size : Int) : Int :=
  if dir = 'h' then BLI_rcti_size_x rect + 1 - size
  else BLI_rcti_size_y rect + 1 - size

/-- `ED_region_is_overlap`, with `U.uiflag2 & USER_REGION_OVERLAP` passed as
a boolean. -/
def ED_region_is_overlap (user_region_overlap : Bool) (spacetype regiontype : Nat) : Bool :=
  if user_region_overlap then
    if spacetype = SPACE_VIEW3D ∨ spacetype = SPACE_SEQ ∨ spacetype = SPACE_IMAGE then
      if regiontype = RGN_TYPE_TOOLS ∨ regiontype = RGN_TYPE_UI ∨ regiontype = RGN_TYPE_TOOL_PROPS then
        true
      else if spacetype = SPACE_VIEW3D ∨ spacetype = SPACE_IMAGE then
        if regiontype = RGN_TYPE_HEADER then true else false
      else if spacetype = SPACE_SEQ then
        if regiontype = RGN_TYPE_PREVIEW then true else false
      else false
    else false
  else false

/-- `ED_area_headersize`: `(int)(HEADERY * UI_DPI_FAC)`. -/
def ED_area_headersize (env : LayoutEnv) : Int := env.dpi_mul env.headery

/-- `ED_region_global_size_y`: the same size as a header. -/
def ED_region_global_size_y (env : LayoutEnv) : Int := ED_area_headersize env

/-- `ED_area_is_global`. -/
def ED_area_is_global (env : LayoutEnv) : Bool := env.area_global

/-- Outcome of the first loop of `region_overlap_fix`. -/
inductive OverlapScan where
  /-- An intersecting earlier overlapping region with another alignment. -/
  | conflict : OverlapScan
  /-- The loop left by `break` at `ar1`, on the same side. -/
  | same_side (ar1 : ARegion) : OverlapScan
  /-- The loop ran to the head of the list (`ar1 == NULL`). -/
  | none : OverlapScan
deriving DecidableEq, Repr

/-- First loop of `region_overlap_fix` (lines 950-967) over `ar->prev`,
`ar->prev->prev`, ... -/
def region_overlap_scan (winrct : rcti) (align : Nat) : List LRegion → OverlapScan
  | [] => OverlapScan.none
  | r1 :: prevs =>
    if r1.ar.flag &&& RGN_FLAG_HIDDEN ≠ 0 then region_overlap_scan winrct align prevs
    else if r1.ar.overlap = true ∧ r1.ar.alignment &&& RGN_SPLIT_PREV = 0 then
      if BLI_rcti_isect r1.ar.winrct winrct = true then
        if r1.ar.alignment ≠ align then OverlapScan.conflict
        else OverlapScan.same_side r1.ar
      else region_overlap_scan winrct align prevs
    else region_overlap_scan winrct align prevs

/-- Last loop of `region_overlap_fix` (lines 993-1005): whether an earlier
overlapping region of another alignment intersects `winrct`. -/
def region_overlap_other_side (winrct : rcti) (align : Nat) : List LRegion → Bool
  | [] => false
  | r1 :: prevs =>
    if r1.ar.flag &&& RGN_FLAG_HIDDEN ≠ 0 then region_overlap_other_side winrct align prevs
    else if r1.ar.overlap = true ∧ r1.ar.alignment &&& RGN_SPLIT_PREV = 0 then
      if r1.ar.alignment ≠ align ∧ BLI_rcti_isect r1.ar.winrct winrct = true then true
      else region_overlap_other_side winrct align prevs
    else region_overlap_other_side winrct align prevs

/-- Lines 991-1005 of `region_overlap_fix`: the final other-side check. -/
def region_overlap_final (prevs : List LRegion) (align : Nat) (ar : ARegion) : ARegion :=
  if region_overlap_other_side ar.winrct align prevs = true then
    { ar with flag := ar.flag ||| RGN_FLAG_TOO_SMALL }
  else ar

/-- `region_overlap_fix`; `prevs` is the chain `ar->prev`, `ar->prev->prev`,
... -/
def region_overlap_fix (env : LayoutEnv) (prevs : List LRegion) (ar : ARegion) : ARegion :=
  let align := flag_clear ar.alignment RGN_SPLIT_PREV
  match region_overlap_scan ar.winrct align prevs with
  | OverlapScan.conflict => { ar with flag := ar.flag ||| RGN_FLAG_TOO_SMALL }
  | OverlapScan.none => region_overlap_final prevs align ar
  | OverlapScan.same_side ar1 =>
    let align1 := ar1.alignment
    if align1 = RGN_ALIGN_LEFT then
      if ar.winrct.xmax + ar1.winx > env.area_winx - env.widget_unit then
        { ar with flag := ar.flag ||| RGN_FLAG_TOO_SMALL }
      else
        region_overlap_final prevs align { ar with winrct := BLI_rcti_translate ar.winrct ar1.winx 0 }
    else if align1 = RGN_ALIGN_RIGHT then
      if ar.winrct.xmin - ar1.winx < env.widget_unit then
        { ar with flag := ar.flag ||| RGN_FLAG_TOO_SMALL }
      else
        region_overlap_final prevs align { ar with winrct := BLI_rcti_translate ar.winrct (-ar1.winx) 0 }
    else region_overlap_final prevs align ar

/-- The live variables of `region_rect_recursive` at one activation. -/
structure LayoutState where
  /-- Regions before the current one, nearest first: `ar->prev`,
  `ar->prev->prev`, ... -/
  done : List LRegion
  /-- The current region and its successors: `ar`, `ar->next`, ... -/
  todo : List LRegion
  /-- The rect `*remainder` of the caller. -/
  remainder : rcti
  /-- The rect `*overlap_remainder`. -/
  overlap_remainder : rcti
  /-- The argument `quad`. -/
  quad : Nat
deriving DecidableEq, Repr

/-- What the alignment chain (lines 1075-1206) leaves behind: the region, its
successors (quad-split rewrites their alignment), the rect that `remainder`
points to, `*overlap_remainder` and `quad`. -/
structure Placed where
  ar : ARegion
  next : List LRegion
  remainder : rcti
  overlap_remainder : rcti
  quad : Nat
deriving DecidableEq, Repr

/-- The store through `rcti *winrct = (ar->overlap) ? overlap_remainder :
remainder` of the aligned branches. -/
def store_winrct (overlap : Bool) (w remainder overlap_remainder : rcti) : rcti × rcti :=
  if overlap then (remainder, w) else (w, overlap_remainder)

/-- Lines 1090-1113: top or bottom alignment. -/
def place_top_bottom (alignment : Nat) (prefsizey : Int) (ar : ARegion) (next : List LRegion)
    (remainder overlap_remainder : rcti) (quad : Nat) : Placed :=
  let winrct := if ar.overlap then overlap_remainder else remainder
  if rct_fits winrct 'v' prefsizey < 0 then
    { ar := { ar with flag := ar.flag ||| RGN_FLAG_TOO_SMALL }, next := next,
      remainder := remainder, overlap_remainder := overlap_remainder, quad := quad }
  else
    let fac := rct_fits winrct 'v' prefsizey
    let prefsizey := if fac < 0 then prefsizey + fac else prefsizey
    if alignment = RGN_ALIGN_TOP then
      let ymin := winrct.ymax - prefsizey + 1
      let rems := store_winrct ar.overlap { winrct with ymax := ymin - 1 } remainder overlap_remainder
      { ar := { ar with winrct := { winrct with ymin := ymin } }, next := next,
        remainder := rems.1, overlap_remainder := rems.2, quad := quad }
    else
      let ymax := winrct.ymin + prefsizey - 1
      let rems := store_winrct ar.overlap { winrct with ymin := ymax + 1 } remainder overlap_remainder
      { ar := { ar with winrct := { winrct with ymax := ymax } }, next := next,
        remainder := rems.1, overlap_remainder := rems.2, quad := quad }

/-- Lines 1114-1137: left or right alignment. -/
def place_left_right (alignment : Nat) (prefsizex : Int) (ar : ARegion) (next : List LRegion)
    (remainder overlap_remainder : rcti) (quad : Nat) : Placed :=
  let winrct := if ar.overlap then overlap_remainder else remainder
  if rct_fits winrct 'h' prefsizex < 0 then
    { ar := { ar with flag := ar.flag ||| RGN_FLAG_TOO_SMALL }, next := next,
      remainder := remainder, overlap_remainder := overlap_remainder, quad := quad }
  else
    let fac := rct_fits winrct 'h' prefsizex
    let prefsizex := if fac < 0 then prefsizex + fac else prefsizex
    if alignment = RGN_ALIGN_RIGHT then
      let xmin := winrct.xmax - prefsizex + 1
      let rems := store_winrct ar.overlap { winrct with xmax := xmin - 1 } remainder overlap_remainder
      { ar := { ar with winrct := { winrct with xmin := xmin } }, next := next,
        remainder := rems.1, overlap_remainder := rems.2, quad := quad }
    else
      let xmax := winrct.xmin + prefsizex - 1
      let rems := store_winrct ar.overlap { winrct with xmin := xmax + 1 } remainder overlap_remainder
      { ar := { ar with winrct := { winrct with xmax := xmax } }, next := next,
        remainder := rems.1, overlap_remainder := rems.2, quad := quad }

/-- Lines 1138-1160: horizontal or vertical split. -/
def place_split (alignment : Nat) (prefsizex prefsizey : Int) (ar : ARegion) (next : List LRegion)
    (remainder overlap_remainder : rcti) (quad : Nat) : Placed :=
  if alignment = RGN_ALIGN_HSPLIT then
    if rct_fits remainder 'h' prefsizex > 4 then
      let xmax := BLI_rcti_cent_x remainder
      { ar := { ar with winrct := { remainder with xmax := xmax } }, next := next,
        remainder := { remainder with xmin := xmax + 1 },
        overlap_remainder := overlap_remainder, quad := quad }
    else
      { ar := { ar with winrct := remainder }, next := next, remainder := rcti_zero,
        overlap_remainder := overlap_remainder, quad := quad }
  else
    if rct_fits remainder 'v' prefsizey > 4 then
      let ymax := BLI_rcti_cent_y remainder
      { ar := { ar with winrct := { remainder with ymax := ymax } }, next := next,
        remainder := { remainder with ymin := ymax + 1 },
        overlap_remainder := overlap_remainder, quad := quad }
    else
      { ar := { ar with winrct := remainder }, next := next, remainder := rcti_zero,
        overlap_remainder := overlap_remainder, quad := quad }

/-- The store `artest->alignment = RGN_ALIGN_QSPLIT` of line 1170. -/
def set_qsplit (r : LRegion) : LRegion :=
  { r with ar := { r.ar with alignment := RGN_ALIGN_QSPLIT } }

/-- The loop of lines 1169-1173: every later region becomes quad-split. -/
def mark_qsplit (next : List LRegion) : List LRegion :=
  next.map set_qsplit

/-- Lines 1186-1202: the quadrant of `remainder` taken by the region for a
non-zero `quad`: left bottom, left top, right bottom, right top. -/
def quad_winrct (quad : Nat) (winrct remainder : rcti) : rcti :=
  if quad = 1 then
    { winrct with xmax := BLI_rcti_cent_x remainder, ymax := BLI_rcti_cent_y remainder }
  else if quad = 2 then
    { winrct with xmax := BLI_rcti_cent_x remainder, ymin := BLI_rcti_cent_y remainder + 1 }
  else if quad = 3 then
    { winrct with xmin := BLI_rcti_cent_x remainder + 1, ymax := BLI_rcti_cent_y remainder }
  else
    { winrct with xmin := BLI_rcti_cent_x remainder + 1, ymin := BLI_rcti_cent_y remainder + 1 }

/-- Lines 1161-1206: quad split. -/
def place_qsplit (ar : ARegion) (next : List LRegion)
    (remainder overlap_remainder : rcti) (quad : Nat) : Placed :=
  let winrct := remainder
  -- test if there's still 4 regions left
  let next1 := if quad = 0 then mark_qsplit next else next
  let count := 1 + next.length
  -- let's stop adding regions
  let remainder1 := if quad = 0 ∧ count ≠ 4 then rcti_zero else remainder
  let quad1 := if quad = 0 ∧ count = 4 then 1 else quad
  if quad1 ≠ 0 then
    { ar := { ar with winrct := quad_winrct quad1 winrct remainder1 }, next := next1,
      remainder := if quad1 = 1 ∨ quad1 = 2 ∨ quad1 = 3 then remainder1 else rcti_zero,
      overlap_remainder := overlap_remainder, quad := quad1 + 1 }
  else
    { ar := { ar with winrct := winrct }, next := next1, remainder := remainder1,
      overlap_remainder := overlap_remainder, quad := quad1 }

/-- The alignment chain of lines 1075-1206. `remainder` is the rect the
pointer `remainder` refers to at that point (the predecessor's `winrct` for a
split-from-previous region). -/
def region_rect_place (alignment : Nat) (prefsizex prefsizey : Int) (ar : ARegion)
    (next : List LRegion) (remainder overlap_remainder : rcti) (quad : Nat) : Placed :=
  if ar.flag &&& RGN_FLAG_HIDDEN ≠ 0 then
    -- hidden is user flag
    { ar := ar, next := next, remainder := remainder,
      overlap_remainder := overlap_remainder, quad := quad }
  else if alignment = RGN_ALIGN_FLOAT then
    { ar := ar, next := next, remainder := remainder,
      overlap_remainder := overlap_remainder, quad := quad }
  else if rct_fits remainder 'v' 1 < 0 ∨ rct_fits remainder 'h' 1 < 0 then
    -- remainder is too small for any usage
    { ar := { ar with flag := ar.flag ||| RGN_FLAG_TOO_SMALL }, next := next,
      remainder := remainder, overlap_remainder := overlap_remainder, quad := quad }
  else if alignment = RGN_ALIGN_NONE then
    -- typically last region
    { ar := { ar with winrct := remainder }, next := next, remainder := rcti_zero,
      overlap_remainder := overlap_remainder, quad := quad }
  else if alignment = RGN_ALIGN_TOP ∨ alignment = RGN_ALIGN_BOTTOM then
    place_top_bottom alignment prefsizey ar next remainder overlap_remainder quad
  else if alignment = RGN_ALIGN_LEFT ∨ alignment = RGN_ALIGN_RIGHT then
    place_left_right alignment prefsizex ar next remainder overlap_remainder quad
  else if alignment = RGN_ALIGN_VSPLIT ∨ alignment = RGN_ALIGN_HSPLIT then
    place_split alignment prefsizex prefsizey ar next remainder overlap_remainder quad
  else if alignment = RGN_ALIGN_QSPLIT then
    place_qsplit ar next remainder overlap_remainder quad
  else
    { ar := ar, next := next, remainder := remainder,
      overlap_remainder := overlap_remainder, quad := quad }

/-- Lines 1222-1242: the window rect of a hidden or too-small region, kept
for the action zones. -/
def region_rect_collapse (alignment : Nat) (ar : ARegion)
    (remainder overlap_remainder : rcti) : ARegion :=
  if ar.flag &&& (RGN_FLAG_HIDDEN ||| RGN_FLAG_TOO_SMALL) ≠ 0 then
    let w := if ar.overlap then overlap_remainder else remainder
    if alignment = RGN_ALIGN_TOP then { ar with winrct := { w with ymin := w.ymax } }
    else if alignment = RGN_ALIGN_BOTTOM then { ar with winrct := { w with ymax := w.ymin } }
    else if alignment = RGN_ALIGN_RIGHT then { ar with winrct := { w with xmin := w.xmax } }
    else { ar with winrct := { w with xmax := w.xmin } }
  else ar

/-- Lines 1058-1072: the preferred sizes in pixels. -/
def region_prefsizex (env : LayoutEnv) (r : LRegion) : Int :=
  if r.ar.sizex > 1 then env.dpi_mul_half r.ar.sizex else env.dpi_mul r.type_prefsizex

/-- Lines 1061-1072: the preferred height in pixels. -/
def region_prefsizey (env : LayoutEnv) (r : LRegion) : Int :=
  if r.ar.regiontype = RGN_TYPE_HEADER then ED_area_headersize env
  else if ED_area_is_global env = true then ED_region_global_size_y env
  else if r.ar.regiontype = RGN_TYPE_UI ∧ env.spacetype = SPACE_FILE then
    env.widget_unit * 2 + Int.tdiv env.widget_unit 2
  else if r.ar.sizey > 1 then env.dpi_mul_half r.ar.sizey else env.dpi_mul r.type_prefsizey

/-- Lines 1208-1215: `winx`, `winy` and the stored sizes. -/
def region_store_size (env : LayoutEnv) (ar : ARegion) : ARegion :=
  let winx := short_of_int (BLI_rcti_size_x ar.winrct + 1)
  let winy := short_of_int (BLI_rcti_size_y ar.winrct + 1)
  { ar with
    winx := winx
    winy := winy
    sizex := if winx > 1 then env.dpi_div_half winx else ar.sizex
    sizey := if winy > 1 then env.dpi_div_half winy else ar.sizey }

/-- Whether `remainder` is redirected to `ar->prev->winrct` (lines
1043-1045 and 1245-1246). -/
def splits_prev (r : LRegion) (done : List LRegion) : Bool :=
  decide (r.ar.alignment &&& RGN_SPLIT_PREV ≠ 0) && !done.isEmpty

/-- The chain `ar->prev`, ... after a store of `w` into `ar->prev->winrct`. -/
def set_prev_winrct (w : rcti) : List LRegion → List LRegion
  | [] => []
  | p :: ps => { p with ar := { p.ar with winrct := w } } :: ps

/-- Lines 1248-1249: `winx` and `winy` of `ar->prev` recomputed from its
rect. -/
def update_prev_size : List LRegion → List LRegion
  | [] => []
  | p :: ps =>
    { p with ar := { p.ar with winx := short_of_int (BLI_rcti_size_x p.ar.winrct + 1)
                               winy := short_of_int (BLI_rcti_size_y p.ar.winrct + 1) } } :: ps

/-- The rect of `ar->prev`, for a non-empty chain. -/
def prev_winrct (fallback : rcti) : List LRegion → rcti
  | [] => fallback
  | p :: _ => p.ar.winrct

/-- Lines 1039-1053: the stores into `ar` before the alignment chain: the
rect is zeroed, `overlap` is set from the region type and the too-small flag
is cleared. -/
def region_rect_enter (env : LayoutEnv) (ar : ARegion) : ARegion :=
  { ar with
    -- no returns in function, winrct gets set in the end again
    winrct := rcti_zero
    -- set here, assuming userpref switching forces to call this again
    overlap := ED_region_is_overlap env.user_region_overlap env.spacetype ar.regiontype
    -- clear state flags first
    flag := flag_clear ar.flag RGN_FLAG_TOO_SMALL }

/-- Lines 1047-1056: the local `alignment`: the alignment word without the
split-from-previous bit, replaced by `none` for the last region of the list
unless it is quad-split. -/
def region_alignment (r : LRegion) (next : List LRegion) : Nat :=
  let alignment := flag_clear r.ar.alignment RGN_SPLIT_PREV
  -- user errors
  if next.isEmpty ∧ alignment ≠ RGN_ALIGN_QSPLIT then RGN_ALIGN_NONE else alignment

/-- One activation of `region_rect_recursive` up to its tail call, for
`ar = s.todo.head`; the state is returned as the tail call receives it. -/
def region_rect_body (env : LayoutEnv) (s : LayoutState) : LayoutState :=
  match s.todo with
  | [] => s
  | r :: next =>
    let remainder_prev := s.remainder
    let ar1 := region_rect_enter env r.ar
    -- for test; allow split of previously defined region
    let split := splits_prev r s.done
    let remainder := if split then prev_winrct s.remainder s.done else s.remainder
    let alignment := region_alignment r next
    -- prefsize, taking into account DPI
    let prefsizex := region_prefsizex env r
    let prefsizey := region_prefsizey env r
    let p := region_rect_place alignment prefsizex prefsizey ar1 next remainder
      s.overlap_remainder s.quad
    let done1 := if split then set_prev_winrct p.remainder s.done else s.done
    -- for speedup
    let ar2 := region_store_size env p.ar
    -- exception for multiple overlapping regions on same spot
    let ar3 := if ar2.overlap then region_overlap_fix env done1 ar2 else ar2
    -- set winrect for azones
    let ar4 := region_rect_collapse alignment ar3 p.remainder p.overlap_remainder
    -- restore prev-split exception
    let remainder2 := if split then remainder_prev else p.remainder
    let done2 := if split then update_prev_size done1 else done1
    -- After non-overlapping region, all following overlapping regions
    -- fit within the remaining space again.
    let overlap_remainder2 := if ar4.overlap then p.overlap_remainder else remainder2
    { done := { r with ar := ar4 } :: done2, todo := p.next, remainder := remainder2,
      overlap_remainder := overlap_remainder2, quad := p.quad }

/-- `region_rect_recursive`: the activation for `s.todo.head` followed by the
tail call on `ar->next`; it returns at `ar == NULL`. -/
def region_rect_recursive (env : LayoutEnv) (s : LayoutState) : LayoutState :=
  if h : s.todo = [] then s
  else region_rect_recursive env (region_rect_body env s)
termination_by s.todo.length
decreasing_by
  obtain ⟨r, next, hs⟩ := List.exists_cons_of_ne_nil h
  have hq : ∀ (a : ARegion) (n : List LRegion) (rm om : rcti) (q : Nat),
      (place_qsplit a n rm om q).next.length = n.length := by
    intro a n rm om q
    simp only [place_qsplit, mark_qsplit, apply_ite Placed.next, apply_ite List.length,
      List.length_map, ite_self]
  have hp : ∀ (al : Nat) (px py : Int) (a : ARegion) (n : List LRegion) (rm om : rcti)
      (q : Nat), (region_rect_place al px py a n rm om q).next.length = n.length := by
    intro al px py a n rm om q
    simp only [region_rect_place, place_top_bottom, place_left_right, place_split,
      apply_ite Placed.next, apply_ite List.length, hq, ite_self]
  simp only [region_rect_body, hs, hp, List.length_cons]
  exact Nat.lt_succ_self _

/-- The call made by `ED_area_initialize` and `ED_area_update_region_sizes`
(lines 1387-1389 and 1433-1435): both rects start as `sa->totrct`, `quad` is
0 and the first region has no predecessor. -/
def layout_start (totrct : rcti) (regions : List LRegion) : LayoutState :=
  { done := [], todo := regions, remainder := totrct, overlap_remainder := totrct, quad := 0 }

/-- The regions of the area after the layout pass, in list order. -/
def layout_regions (env : LayoutEnv) (totrct : rcti) (regions : List LRegion) : List ARegion :=
  ((region_rect_recursive env (layout_start totrct regions)).done.reverse).map LRegion.ar

/-! ## Message-bus redraw notification (area.c, lines 394-413) -/

/-- The body of the loop of lines 407-411: a window or channels region is
tagged for redraw. -/
def notify_tag_sibling (ar : ARegion) : ARegion :=
  if ar.regiontype = RGN_TYPE_WINDOW ∨ ar.regiontype = RGN_TYPE_CHANNELS then
    ED_region_tag_redraw ar
  else ar

/-- `ED_region_do_msg_notify_tag_redraw` for the owner `ar` of the message
subscription: `prevs` is the chain `ar->prev`, `ar->prev->prev`, ..., `nexts`
the chain `ar->next`, ...; the result is the region list from its head. -/
def ED_region_do_msg_notify_tag_redraw (prevs : List ARegion) (ar : ARegion)
    (nexts : List ARegion) : List ARegion :=
  let ar1 := ED_region_tag_redraw ar
  -- This avoids _many_ situations where header/properties control display settings.
  if ar1.regiontype = RGN_TYPE_HEADER ∨ ar1.regiontype = RGN_TYPE_UI then
    -- rewind to the head of the list, then walk it to the end
    (prevs.reverse ++ ar1 :: nexts).map notify_tag_sibling
  else prevs.reverse ++ ar1 :: nexts

/-! ## Areas, space data and action zones (`DNA_screen_types.h`, `ED_screen_types.h`) -/

/-- Modelled from the spec: zone kind of `ED_screen_types.h` (not under
src/): corner widget for splitting areas. -/
def AZONE_AREA : Nat := 1
/-- Modelled from the spec: zone kind of `ED_screen_types.h`: edge or tab of a
region. -/
def AZONE_REGION : Nat := 2
/-- Modelled from the spec: zone kind of `ED_screen_types.h`: corner to leave
the fullscreen editor. -/
def AZONE_FULLSCREEN : Nat := 3
/-- Modelled from the spec: zone kind of `ED_screen_types.h`: hotspot around a
scrollbar. -/
def AZONE_REGION_SCROLL : Nat := 4

/-- Modelled from the spec: `AZEdge` of `ED_screen_types.h` (not under src/):
region on the left, its right edge is the action zone. -/
def AE_RIGHT_TO_TOPLEFT : Nat := 0
/-- Modelled from the spec: `AZEdge`: region on the right, its left edge is
the action zone. -/
def AE_LEFT_TO_TOPRIGHT : Nat := 1
/-- Modelled from the spec: `AZEdge`: region at the bottom, its top edge is
the action zone. -/
def AE_TOP_TO_BOTTOMRIGHT : Nat := 2
/-- Modelled from the spec: `AZEdge`: region at the top, its bottom edge is
the action zone. -/
def AE_BOTTOM_TO_TOPLEFT : Nat := 3

/-- Modelled from the spec: `AZScrollDirection` of `ED_screen_types.h` (not
under src/). -/
def AZ_SCROLL_VERT : Nat := 0
/-- Modelled from the spec: `AZScrollDirection` of `ED_screen_types.h`. -/
def AZ_SCROLL_HOR : Nat := 1

/-- Modelled from the spec: screen state of `DNA_screen_types.h` (not under
src/): the normal layout. -/
def SCREENNORMAL : Nat := 0
/-- Modelled from the spec: screen state of `DNA_screen_types.h`: one area
maximized. -/
def SCREENMAXIMIZED : Nat := 1
/-- Modelled from the spec: screen state of `DNA_screen_types.h`: one area
fullscreen, without the user interface. -/
def SCREENFULL : Nat := 2

/-- Modelled from the spec: area flag of `DNA_screen_types.h` (not under
src/): the region sizes are to be updated. -/
def AREA_FLAG_REGION_SIZE_UPDATE : Nat := 8
/-- Modelled from the spec: area flag of `DNA_screen_types.h`: the action
zones are to be re-evaluated. -/
def AREA_FLAG_ACTIONZONES_UPDATE : Nat := 16
/-- Modelled from the spec: flag of `ScrGlobalAreaData` in
`DNA_screen_types.h` (not under src/). -/
def GLOBAL_AREA_IS_HIDDEN : Nat := 1

/-- Modelled from the spec: `View2D.scroll` bits of `DNA_view2d_types.h` (not
under src/): a vertical scrollbar, left or right. -/
def V2D_SCROLL_VERTICAL : Nat := 3
/-- Modelled from the spec: `View2D.scroll` bits of `DNA_view2d_types.h`: a
horizontal scrollbar, top or bottom. -/
def V2D_SCROLL_HORIZONTAL : Nat := 12
/-- Modelled from the spec: `View2D.scroll` bit of `DNA_view2d_types.h`:
scale markings on the vertical scrollbar. -/
def V2D_SCROLL_SCALE_VERTICAL : Nat := 32
/-- Modelled from the spec: `View2D.scroll` bit of `DNA_view2d_types.h`:
scale markings on the horizontal scrollbar. -/
def V2D_SCROLL_SCALE_HORIZONTAL : Nat := 64

/-- The fields of `View2D` read or written by the embedded functions. -/
structure View2D where
  scroll : Nat
  vert : rcti
  hor : rcti
  alpha_vert : Nat
  alpha_hor : Nat
deriving DecidableEq, Repr

/-- An `ARegion` as a member of a region list: `id` stands for its address,
`ar` holds the fields of the layout and of the redraw tags, `v2d` the
embedded `View2D`. -/
structure AreaRegion where
  id : Nat
  ar : ARegion
  v2d : View2D
deriving DecidableEq, Repr

/-- The struct `AZone`. The union of `edge` and `direction` is the one field
`edge`. Of the float `alpha` the embedded code only stores `0.0f` and tests
`alpha != 0.0f`, so the field records whether the value is non-zero. -/
structure AZone where
  /-- The owner `az->ar`: the address of a region, `none` for NULL. -/
  ar : Option Nat
  type : Nat
  edge : Nat
  x1 : Int
  y1 : Int
  x2 : Int
  y2 : Int
  rect : rcti
  /-- Whether `az->alpha != 0.0f`. -/
  alpha_nonzero : Bool
deriving DecidableEq, Repr

/-- A `SpaceLink` of `sa->spacedata`: `id` stands for its address. -/
structure SpaceLink where
  id : Nat
  spacetype : Nat
  regionbase : List AreaRegion
deriving DecidableEq, Repr

/-- The fields of `ScrArea` read or written by the embedded functions. -/
structure ScrArea where
  spacetype : Nat
  flag : Nat
  /-- The coordinate `sa->v1->vec.x`. -/
  v1x : Int
  /-- The coordinate `sa->v1->vec.y`. -/
  v1y : Int
  /-- The coordinate `sa->v4->vec.x`. -/
  v4x : Int
  /-- The coordinate `sa->v2->vec.y`. -/
  v2y : Int
  totrct : rcti
  winx : Int
  winy : Int
  /-- The flag word `sa->global->flag`, `none` for a NULL `sa->global`. -/
  global : Option Nat
  do_refresh : Bool
  spacedata : List SpaceLink
  regionbase : List AreaRegion
  actionzones : List AZone
deriving DecidableEq, Repr

/-- What the area code reads from outside the area: the window, the screen,
the user preferences `U`, the registry of space and region types, and the
conversions that go through floating point, kept abstract. -/
structure UIEnv where
  /-- The user preferences and DPI conversions of the layout pass; its fields
  `spacetype`, `area_winx` and `area_global` are replaced by those of the
  area. -/
  layout : LayoutEnv
  /-- The field `screen->state`. -/
  screen_state : Nat
  /-- Whether `U.app_flag & USER_APP_LOCK_UI_LAYOUT` is non-zero. -/
  lock_ui_layout : Bool
  /-- The value `(short)U.pixelsize`. -/
  pixelsize : Int
  /-- The rect computed by `WM_window_rect_calc`. -/
  window_rect : rcti
  /-- Whether the build defines `__APPLE__`. -/
  apple_build : Bool
  /-- The result of `WM_window_is_fullscreen(win)`. -/
  window_fullscreen : Bool
  /-- The result of `WM_window_pixels_x(win)`. -/
  window_pixels_x : Int
  /-- Whether `BKE_spacetype_from_id` finds the space type. -/
  spacetype_registered : Nat → Bool
  /-- The payload returned by the callback `st->new` of a space type. -/
  spacetype_new : Nat → SpaceLink
  /-- The field `prefsizex` of `BKE_regiontype_from_id(sa->type, regiontype)`. -/
  regiontype_prefsizex : Nat → Nat → Int
  /-- The field `prefsizey` of `BKE_regiontype_from_id(sa->type, regiontype)`. -/
  regiontype_prefsizey : Nat → Nat → Int
  /-- The conversion `(short)(v + (AZONESPOT - 1))`. -/
  azonespot_add : Int → Int
  /-- The conversion `(short)(v - (AZONESPOT - 1))`. -/
  azonespot_sub : Int → Int
  /-- The conversion `(short)(v - (AZONEFADEOUT - 1))`. -/
  azonefadeout_sub : Int → Int
  /-- The conversion `(short)(v + AZONEFADEIN)`. -/
  azonefadein_add : Int → Int
  /-- The conversion `(short)(v - AZONEFADEIN)`. -/
  azonefadein_sub : Int → Int
  /-- The conversion `(short)(v + AZONEPAD_EDGE)`. -/
  azonepad_edge_add : Int → Int
  /-- The conversion `(short)(v - AZONEPAD_EDGE)`. -/
  azonepad_edge_sub : Int → Int
  /-- The conversion `(short)(v - 2.5f * AZONEPAD_TAB_PLUSW)`. -/
  azonepad_tab_sub25 : Int → Int
  /-- The conversion `(short)(v - 1.5f * AZONEPAD_TAB_PLUSW)`. -/
  azonepad_tab_sub15 : Int → Int
  /-- The conversion `(short)(v + AZONEPAD_TAB_PLUSH)`. -/
  azonepad_tab_addh : Int → Int
  /-- The conversion `(short)(v - AZONEPAD_TAB_PLUSH)`. -/
  azonepad_tab_subh : Int → Int

/-- The environment of the layout pass for an area. -/
def layout_env (env : UIEnv) (sa : ScrArea) : LayoutEnv :=
  { env.layout with
    spacetype := sa.spacetype
    area_winx := sa.winx
    area_global := sa.global.isSome }

/-! ## Action zones (area.c, lines 337-392 and 668-926) -/

/-- `area_azone_tag_update`. -/
def area_azone_tag_update (sa : ScrArea) : ScrArea :=
  { sa with flag := sa.flag ||| AREA_FLAG_ACTIONZONES_UPDATE }

/-- The body of the loop of `region_draw_azones` for the zone `az`; the
drawing calls leave the area and the region as they are. -/
def region_draw_azone (ar : ARegion) (sa : ScrArea) (az : AZone) : ScrArea :=
  -- test if action zone is over this region
  let azrct := BLI_rcti_init az.x1 az.x2 az.y1 az.y2
  if BLI_rcti_isect ar.drawrct azrct = true then
    if az.type = AZONE_AREA then sa
    else if az.type = AZONE_REGION then sa
    else if az.type = AZONE_FULLSCREEN then
      if az.alpha_nonzero = true then area_azone_tag_update sa else sa
    else if az.type = AZONE_REGION_SCROLL then
      if az.alpha_nonzero = true then area_azone_tag_update sa else sa
    else sa
  else sa

/-- `region_draw_azones`; `none` is the NULL area, for which the function
returns at once. -/
def region_draw_azones (sa : Option ScrArea) (ar : ARegion) : Option ScrArea :=
  match sa with
  | none => none
  | some sa => some (sa.actionzones.foldl (region_draw_azone ar) sa)

/-- The zeroed zone returned by `MEM_callocN`. -/
def azone_calloc : AZone :=
  { ar := none, type := 0, edge := 0, x1 := 0, y1 := 0, x2 := 0, y2 := 0, rect := rcti_zero,
    alpha_nonzero := false }

/-- The store `BLI_rcti_init(&az->rect, az->x1, az->x2, az->y1, az->y2)` that
ends the functions filling a zone. -/
def azone_init_rect (az : AZone) : AZone :=
  { az with rect := BLI_rcti_init az.x1 az.x2 az.y1 az.y2 }

/-- The rows of the array `coords` of `area_azone_initialize`: bottom-left,
bottom-right, top-left, top-right. The first two entries of a row are
integers stored as floats, the last two are float sums, given here as the
`short` they are stored into. -/
def area_azone_coords (env : UIEnv) (totrct : rcti) : List (Int × Int × Int × Int) :=
  [ (totrct.xmin, totrct.ymin, env.azonespot_add totrct.xmin, env.azonespot_add totrct.ymin),
    (totrct.xmax, totrct.ymin, env.azonespot_sub totrct.xmax, env.azonespot_add totrct.ymin),
    (totrct.xmin, totrct.ymax, env.azonespot_add totrct.xmin, env.azonespot_sub totrct.ymax),
    (totrct.xmax, totrct.ymax, env.azonespot_sub totrct.xmax, env.azonespot_sub totrct.ymax) ]

/-- The body of the loop of `area_azone_initialize` for one row of `coords`:
the zone added, none for a bottom corner skipped on OS X. -/
def area_azone_corner (env : UIEnv) (c : Int × Int × Int × Int) : Option AZone :=
  -- can't click on bottom corners on OS X, already used for resizing
  if env.apple_build = true ∧ env.window_fullscreen = false ∧
      ((c.1 = 0 ∧ c.2.1 = 0) ∨ (c.1 = env.window_pixels_x ∧ c.2.1 = 0)) then
    none
  else
    -- set area action zones
    some (azone_init_rect
      { azone_calloc with
        type := AZONE_AREA
        x1 := short_of_int c.1
        y1 := short_of_int c.2.1
        x2 := c.2.2.1
        y2 := c.2.2.2 })

/-- `area_azone_initialize`. -/
def area_azone_initialize (env : UIEnv) (sa : ScrArea) : ScrArea :=
  -- reinitalize entirely, regions and fullscreen add azones too
  let sa1 := { sa with actionzones := [] }
  if env.screen_state ≠ SCREENNORMAL then sa1
  else if env.lock_ui_layout = true then sa1
  else if ED_area_is_global (layout_env env sa1) = true then sa1
  else
    { sa1 with
      actionzones :=
        sa1.actionzones ++ (area_azone_coords env sa1.totrct).filterMap (area_azone_corner env) }

/-- `fullscreen_azone_initialize`. -/
def fullscreen_azone_initialize (env : UIEnv) (sa : ScrArea) (ar : AreaRegion) : ScrArea :=
  if ED_area_is_global (layout_env env sa) = true ∨ ar.ar.regiontype ≠ RGN_TYPE_WINDOW then sa
  else
    { sa with
      actionzones := sa.actionzones ++ [azone_init_rect
        { azone_calloc with
          type := AZONE_FULLSCREEN
          ar := some ar.id
          alpha_nonzero := false
          x1 := env.azonefadeout_sub ar.ar.winrct.xmax
          y1 := env.azonefadeout_sub ar.ar.winrct.ymax
          x2 := short_of_int ar.ar.winrct.xmax
          y2 := short_of_int ar.ar.winrct.ymax }] }

/-- `region_azone_edge`. -/
def region_azone_edge (env : UIEnv) (az : AZone) (ar : ARegion) : AZone :=
  azone_init_rect
    (if az.edge = AE_TOP_TO_BOTTOMRIGHT then
      { az with
        x1 := short_of_int ar.winrct.xmin
        y1 := env.azonepad_edge_sub ar.winrct.ymax
        x2 := short_of_int ar.winrct.xmax
        y2 := env.azonepad_edge_add ar.winrct.ymax }
    else if az.edge = AE_BOTTOM_TO_TOPLEFT then
      { az with
        x1 := short_of_int ar.winrct.xmin
        y1 := env.azonepad_edge_add ar.winrct.ymin
        x2 := short_of_int ar.winrct.xmax
        y2 := env.azonepad_edge_sub ar.winrct.ymin }
    else if az.edge = AE_LEFT_TO_TOPRIGHT then
      { az with
        x1 := env.azonepad_edge_sub ar.winrct.xmin
        y1 := short_of_int ar.winrct.ymin
        x2 := env.azonepad_edge_add ar.winrct.xmin
        y2 := short_of_int ar.winrct.ymax }
    else if az.edge = AE_RIGHT_TO_TOPLEFT then
      { az with
        x1 := env.azonepad_edge_add ar.winrct.xmax
        y1 := short_of_int ar.winrct.ymin
        x2 := env.azonepad_edge_sub ar.winrct.xmax
        y2 := short_of_int ar.winrct.ymax }
    else az)

/-- `region_azone_tab_plus`: the region is already zero sized, in the shape
of an edge. The count `tot` of the zones on the same edge is computed by the
C function and never read. -/
def region_azone_tab_plus (env : UIEnv) (sa : ScrArea) (az : AZone) (ar : ARegion) : AZone :=
  azone_init_rect
    (if az.edge = AE_TOP_TO_BOTTOMRIGHT then
      let add : Int := if ar.winrct.ymax = sa.totrct.ymin then 1 else 0
      { az with
        x1 := env.azonepad_tab_sub25 ar.winrct.xmax
        y1 := short_of_int (ar.winrct.ymax - add)
        x2 := env.azonepad_tab_sub15 ar.winrct.xmax
        y2 := env.azonepad_tab_addh (ar.winrct.ymax - add) }
    else if az.edge = AE_BOTTOM_TO_TOPLEFT then
      { az with
        x1 := env.azonepad_tab_sub25 ar.winrct.xmax
        y1 := env.azonepad_tab_subh ar.winrct.ymin
        x2 := env.azonepad_tab_sub15 ar.winrct.xmax
        y2 := short_of_int ar.winrct.ymin }
    else if az.edge = AE_LEFT_TO_TOPRIGHT then
      { az with
        x1 := env.azonepad_tab_subh ar.winrct.xmin
        y1 := env.azonepad_tab_sub25 ar.winrct.ymax
        x2 := short_of_int ar.winrct.xmin
        y2 := env.azonepad_tab_sub15 ar.winrct.ymax }
    else if az.edge = AE_RIGHT_TO_TOPLEFT then
      { az with
        x1 := short_of_int (ar.winrct.xmax - 1)
        y1 := env.azonepad_tab_sub25 ar.winrct.ymax
        x2 := env.azonepad_tab_addh (ar.winrct.xmax - 1)
        y2 := env.azonepad_tab_sub15 ar.winrct.ymax }
    else az)

/-- `region_azone_edge_initialize`. -/
def region_azone_edge_initialize (env : UIEnv) (sa : ScrArea) (ar : AreaRegion) (edge : Nat)
    (is_fullscreen : Bool) : ScrArea :=
  let is_hidden : Bool := decide (ar.ar.flag &&& (RGN_FLAG_HIDDEN ||| RGN_FLAG_TOO_SMALL) ≠ 0)
  if is_hidden = true ∧ is_fullscreen = true then sa
  else
    let az := { azone_calloc with type := AZONE_REGION, ar := some ar.id, edge := edge }
    let az1 :=
      if is_hidden = true then region_azone_tab_plus env sa az ar.ar
      else if ar.ar.regiontype ≠ RGN_TYPE_HEADER then region_azone_edge env az ar.ar
      else az
    { sa with actionzones := sa.actionzones ++ [az1] }

/-- `region_azone_scrollbar_initialize`: the area with the zone added and the
region with the alpha of its scrollbar reset. -/
def region_azone_scrollbar_initialize (env : UIEnv) (sa : ScrArea) (ar : AreaRegion)
    (direction : Nat) : ScrArea × AreaRegion :=
  let scroller_vert := if direction = AZ_SCROLL_VERT then ar.v2d.vert else ar.v2d.hor
  let ar1 :=
    if direction = AZ_SCROLL_VERT then { ar with v2d := { ar.v2d with alpha_vert := 0 } }
    else if direction = AZ_SCROLL_HOR then { ar with v2d := { ar.v2d with alpha_hor := 0 } }
    else ar
  let scroller := BLI_rcti_translate scroller_vert ar.ar.winrct.xmin ar.ar.winrct.ymin
  let az := azone_init_rect
    { azone_calloc with
      type := AZONE_REGION_SCROLL
      ar := some ar.id
      edge := direction
      x1 := env.azonefadein_sub scroller.xmin
      y1 := env.azonefadein_sub scroller.ymin
      x2 := env.azonefadein_add scroller.xmax
      y2 := env.azonefadein_add scroller.ymax }
  ({ sa with actionzones := sa.actionzones ++ [az] }, ar1)

/-- `region_azones_scrollbars_initialize`. -/
def region_azones_scrollbars_initialize (env : UIEnv) (sa : ScrArea) (ar : AreaRegion) :
    ScrArea × AreaRegion :=
  let r1 :=
    if ar.v2d.scroll &&& V2D_SCROLL_VERTICAL ≠ 0 ∧
        ar.v2d.scroll &&& V2D_SCROLL_SCALE_VERTICAL = 0 then
      region_azone_scrollbar_initialize env sa ar AZ_SCROLL_VERT
    else (sa, ar)
  if ar.v2d.scroll &&& V2D_SCROLL_HORIZONTAL ≠ 0 ∧
      ar.v2d.scroll &&& V2D_SCROLL_SCALE_HORIZONTAL = 0 then
    region_azone_scrollbar_initialize env r1.1 r1.2 AZ_SCROLL_HOR
  else r1

/-- `region_azones_add`: the area with the zones of the region added and the
region as the scrollbar zones leave it. -/
def region_azones_add (env : UIEnv) (sa : ScrArea) (ar : AreaRegion) (alignment : Nat) :
    ScrArea × AreaRegion :=
  let is_fullscreen : Bool := decide (env.screen_state = SCREENFULL)
  -- edge code (t b l r) is along which area edge azone will be drawn
  let sa1 :=
    if ar.ar.regiontype = RGN_TYPE_HEADER ∧ ar.ar.winy + 6 > sa.winy then
      -- when the header takes up the full area, disallow hiding it
      sa
    else if alignment = RGN_ALIGN_TOP then
      region_azone_edge_initialize env sa ar AE_BOTTOM_TO_TOPLEFT is_fullscreen
    else if alignment = RGN_ALIGN_BOTTOM then
      region_azone_edge_initialize env sa ar AE_TOP_TO_BOTTOMRIGHT is_fullscreen
    else if alignment = RGN_ALIGN_RIGHT then
      region_azone_edge_initialize env sa ar AE_LEFT_TO_TOPRIGHT is_fullscreen
    else if alignment = RGN_ALIGN_LEFT then
      region_azone_edge_initialize env sa ar AE_RIGHT_TO_TOPLEFT is_fullscreen
    else sa
  let sa2 := if is_fullscreen = true then fullscreen_azone_initialize env sa1 ar else sa1
  region_azones_scrollbars_initialize env sa2 ar

/-- The loop of lines 1447-1466 of `ED_area_initialize` over the region
list: `region_azones_add` for each region, with its alignment without the
split-from-previous bit. The handlers and the callbacks `ar->type->init` of
the loop are outside the embedding. -/
def area_regions_azones_add (env : UIEnv) : ScrArea → List AreaRegion → ScrArea × List AreaRegion
  | sa, [] => (sa, [])
  | sa, ar :: rest =>
    let r1 := region_azones_add env sa ar (flag_clear ar.ar.alignment RGN_SPLIT_PREV)
    let r2 := area_regions_azones_add env r1.1 rest
    (r2.1, r1.2 :: r2.2)

/-- The zone regeneration of `ED_area_initialize` (lines 1444-1466): clear
all zones and add the corner widgets, then add the zones of each region. -/
def area_azones_regenerate (env : UIEnv) (sa : ScrArea) : ScrArea :=
  let sa1 := area_azone_initialize env sa
  let r := area_regions_azones_add env sa1 sa1.regionbase
  { r.1 with regionbase := r.2 }

/-! ## Area initialisation and space switching (area.c, lines 602-637, 1262-1297, 1404-1536, 1621-1719, 2167-2176) -/

/-- `ED_area_tag_redraw` for a non-NULL area. -/
def ED_area_tag_redraw (sa : ScrArea) : ScrArea :=
  { sa with regionbase := sa.regionbase.map fun r => { r with ar := ED_region_tag_redraw r.ar } }

/-- `ED_area_tag_refresh` for a non-NULL area. -/
def ED_area_tag_refresh (sa : ScrArea) : ScrArea :=
  { sa with do_refresh := true }

/-- `area_calc_totrct`. -/
def area_calc_totrct (env : UIEnv) (sa : ScrArea) : ScrArea :=
  let px := env.pixelsize
  -- scale down totrct by 1 pixel on all sides not matching window borders
  let totrct : rcti :=
    { xmin := if sa.v1x > env.window_rect.xmin then sa.v1x + px else sa.v1x
      xmax := if sa.v4x < env.window_rect.xmax - 1 then sa.v4x - px else sa.v4x
      ymin := if sa.v1y > env.window_rect.ymin then sa.v1y + px else sa.v1y
      ymax := if sa.v2y < env.window_rect.ymax - 1 then sa.v2y - px else sa.v2y }
  { sa with
    totrct := totrct
    -- for speedup
    winx := short_of_int (BLI_rcti_size_x totrct + 1)
    winy := short_of_int (BLI_rcti_size_y totrct + 1) }

/-- The region as the layout pass of `ED_area_initialize` reads it, with the
preferred sizes of the region type found by `BKE_regiontype_from_id`. -/
def area_layout_region (env : UIEnv) (sa : ScrArea) (r : AreaRegion) : LRegion :=
  { ar := r.ar
    type_prefsizex := env.regiontype_prefsizex sa.spacetype r.ar.regiontype
    type_prefsizey := env.regiontype_prefsizey sa.spacetype r.ar.regiontype }

/-- The test `ED_area_is_global(sa) && (sa->global->flag &
GLOBAL_AREA_IS_HIDDEN)` of `ED_area_initialize`. -/
def area_global_hidden (sa : ScrArea) : Bool :=
  match sa.global with
  | some f => decide (f &&& GLOBAL_AREA_IS_HIDDEN ≠ 0)
  | none => false

/-- `ED_area_initialize`. The event handlers, the callbacks `sa->type->init`
and `ar->type->init`, `region_subwindow` and the tool system refresh are
outside the embedding. -/
def ED_area_initialize (env : UIEnv) (sa : ScrArea) : ScrArea :=
  if area_global_hidden sa = true then sa
  else
    -- set typedefinitions
    let sa1 :=
      if env.spacetype_registered sa.spacetype = true then sa
      else { sa with spacetype := SPACE_VIEW3D }
    -- area sizes
    let sa2 := area_calc_totrct env sa1
    -- region rect sizes
    let ars := layout_regions (layout_env env sa2) sa2.totrct
      (sa2.regionbase.map (area_layout_region env sa2))
    let sa3 :=
      { sa2 with
        regionbase := List.zipWith (fun r a => { r with ar := a }) sa2.regionbase ars
        flag := flag_clear sa2.flag AREA_FLAG_REGION_SIZE_UPDATE }
    -- clear all azones, add the area triange widgets; region windows
    area_azones_regenerate env sa3

/-- `ED_area_header_alignment`. -/
def ED_area_header_alignment (sa : ScrArea) : Nat :=
  match sa.regionbase.find? fun r => decide (r.ar.regiontype = RGN_TYPE_HEADER) with
  | some r => r.ar.alignment
  | none => RGN_ALIGN_TOP

/-- The loop `Sync header alignment` of `ED_area_newspace` (lines 1686-1691):
the first header region of the list gets the alignment. -/
def sync_header_alignment (header_alignment : Nat) : List AreaRegion → List AreaRegion
  | [] => []
  | r :: rest =>
    if r.ar.regiontype = RGN_TYPE_HEADER then
      { r with ar := { r.ar with alignment := header_alignment } } :: rest
    else r :: sync_header_alignment header_alignment rest

/-- The loop `check previously stored space` of `ED_area_newspace` (lines
1659-1661): the list cut at the first payload of the type, as the payloads
before it, the payload and those after it; `none` for `sl == NULL`. -/
def find_spacedata (type : Nat) :
    List SpaceLink → Option (List SpaceLink × SpaceLink × List SpaceLink)
  | [] => none
  | sl :: rest =>
    if sl.spacetype = type then some ([], sl, rest)
    else
      match find_spacedata type rest with
      | some (before, found, after) => some (sl :: before, found, after)
      | none => none

/-- The store `slold->regionbase = sa->regionbase` for `slold` the head of the
list. -/
def set_head_regionbase (regionbase : List AreaRegion) : List SpaceLink → List SpaceLink
  | [] => []
  | slold :: rest => { slold with regionbase := regionbase } :: rest

/-- The branch `new space` of `ED_area_newspace` (lines 1693-1706);
`slold_set` tells whether `slold` is non-NULL, in which case it is the head of
`spacedata`. -/
def newspace_create (env : UIEnv) (sa : ScrArea) (type : Nat) (spacedata : List SpaceLink)
    (slold_set : Bool) : ScrArea :=
  if env.spacetype_registered type = true then
    let sl := env.spacetype_new type
    -- swap regions
    let spacedata1 := if slold_set = true then set_head_regionbase sa.regionbase spacedata
      else spacedata
    { sa with
      spacedata := { sl with regionbase := [] } :: spacedata1
      regionbase := sl.regionbase }
  else { sa with spacedata := spacedata }

/-- `ED_area_newspace`. The call `ED_area_exit`, the mouse-move event and the
notifier are outside the embedding. The result is `none` where the C
function calls `st->free` through a NULL `st`. -/
def ED_area_newspace (env : UIEnv) (sa : ScrArea) (type : Nat) : Option ScrArea :=
  if sa.spacetype ≠ type then
    let header_alignment := ED_area_header_alignment sa
    let sa1 := { sa with spacetype := type }
    -- check previously stored space
    let switched : Option ScrArea :=
      match find_spacedata type sa1.spacedata with
      | none => some (newspace_create env sa1 type sa1.spacedata (!sa1.spacedata.isEmpty))
      | some (before, sl, after) =>
        if sl.regionbase.isEmpty = true then
          -- old spacedata... happened during work on 2.50, remove
          if env.spacetype_registered type = true then
            some (newspace_create env sa1 type (before ++ after) (!before.isEmpty))
          else none
        else
          match before with
          | [] =>
            -- slold == sl: the regions stored into it come straight back
            some { sa1 with
              spacedata := { sl with regionbase := [] } :: after
              regionbase := sync_header_alignment header_alignment sa1.regionbase }
          | slold :: mid =>
            -- swap regions, put in front of list
            some { sa1 with
              spacedata := { sl with regionbase := [] } ::
                { slold with regionbase := sa1.regionbase } :: (mid ++ after)
              regionbase := sync_header_alignment header_alignment sl.regionbase }
    match switched with
    | none => none
    | some sa2 =>
      -- also redraw when re-used
      some (ED_area_tag_redraw (ED_area_tag_refresh ( ED_area_initialize env sa2)))
  else some (ED_area_tag_redraw sa)

/-- `ED_region_visibility_change_update` for the area of the context; the
removal of the event handlers of a hidden region is outside the embedding. -/
def ED_region_visibility_change_update (env : UIEnv) (sa : ScrArea) : ScrArea :=
  ED_area_tag_redraw ( ED_area_initialize env sa)

/-- What `region_toggle_hidden` leaves behind: the area, and whether
`region_blend_start` was called for the region. -/
structure ToggleHidden where
  area : ScrArea
  blend_started : Bool
deriving DecidableEq, Repr

/-- The store `ar->flag ^= RGN_FLAG_HIDDEN`. -/
def toggle_hidden_flag (ar : AreaRegion) : AreaRegion :=
  { ar with ar := { ar.ar with flag := ar.ar.flag ^^^ RGN_FLAG_HIDDEN } }

/-- `region_toggle_hidden` for the region `ar` of the area `sa` of the
context: the store through the pointer `ar` replaces the member of the region
list with the address of `ar`. Of `region_blend_start` (not under src/),
which starts a timer, only the call is recorded. -/
def region_toggle_hidden (env : UIEnv) (sa : ScrArea) (ar : AreaRegion) (do_fade : Bool) :
    ToggleHidden :=
  let ar1 := toggle_hidden_flag ar
  let sa1 := { sa with regionbase := sa.regionbase.map fun r => if r.id = ar.id then ar1 else r }
  if do_fade = true ∧ ar1.ar.overlap = true then
    -- starts a timer, and in end calls the stuff below itself
    { area := sa1, blend_started := true }
  else
    { area := ED_region_visibility_change_update env sa1, blend_started := false }

/-- `ED_region_toggle_hidden`: uses fading by default. -/
def ED_region_toggle_hidden (env : UIEnv) (sa : ScrArea) (ar : AreaRegion) : ToggleHidden :=
  region_toggle_hidden env sa ar true

/-! ## Assertions of the partial tag (area.c, lines 591 and 596) -/

/-- The conditions of the two `BLI_assert` lines of
` ED_region_tag_redraw_partial` (lines 591 and 596) at a call for the region
`ar`: the condition of the assertion in the branch that the call takes,
`True` in the branches without an assertion. -/
def tag_redraw_partial_asserts (ar : ARegion) : Prop :=
  if ar.do_draw &&& RGN_DRAWING = 0 then
    if ar.do_draw &&& (RGN_DRAW ||| RGN_DRAW_NO_REBUILD ||| RGN_DRAW_PARTIAL) = 0 then True
    else if ar.drawrct.xmin ≠ ar.drawrct.xmax then ar.do_draw &&& RGN_DRAW_PARTIAL ≠ 0
    else ar.do_draw &&& (RGN_DRAW ||| RGN_DRAW_NO_REBUILD) ≠ 0
  else True

instance tag_redraw_partial_asserts_decidable (ar : ARegion) :
    Decidable (tag_redraw_partial_asserts ar) := by
  unfold tag_redraw_partial_asserts; infer_instance

/-! ## Zone update on mouse move (area.c, lines 187-231 and 611-618) -/

/-- Modelled from the spec: `BLI_rcti_isect_pt_v` of blenlib (not under
src/): whether the point lies in the rectangle, bounds included. -/
def BLI_rcti_isect_pt_v (rect : rcti) (x y : Int) : Bool :=
  if x < rect.xmin then false
  else if x > rect.xmax then false
  else if y < rect.ymin then false
  else if y > rect.ymax then false
  else true

/-- `ED_area_tag_redraw_no_rebuild` for a non-NULL area. -/
def ED_area_tag_redraw_no_rebuild (sa : ScrArea) : ScrArea :=
  { sa with
    regionbase := sa.regionbase.map fun r => { r with ar := ED_region_tag_redraw_no_rebuild r.ar } }

/-- The store `v2d->alpha_vert = 0` (`vert` true) or `v2d->alpha_hor = 0`
through `az->ar`, for the regions of the area: `none` for a NULL `az->ar`. A
region outside the list is outside the embedding. -/
def azone_v2d_alpha_clear (owner : Option Nat) (vert : Bool) (regions : List AreaRegion) :
    Option (List AreaRegion) :=
  match owner with
  | none => none
  | some id =>
    some (regions.map fun r =>
      if r.id = id then
        if vert then { r with v2d := { r.v2d with alpha_vert := 0 } }
        else { r with v2d := { r.v2d with alpha_hor := 0 } }
      else r)

/-- The loop of `ED_area_azones_update` from the zone at the head of `zones`
on: the zones, the regions and `changed` when the loop is left; `none` when a
NULL `az->ar` is dereferenced. -/
def azones_update_loop (mouse_x mouse_y : Int) :
    List AZone → List AreaRegion → Bool → Option (List AZone × List AreaRegion × Bool)
  | [], regions, changed => some ([], regions, changed)
  | az :: rest, regions, changed =>
    if az.type = AZONE_FULLSCREEN then
      -- only if mouse is not hovering the azone
      if BLI_rcti_isect_pt_v az.rect mouse_x mouse_y = false then
        -- can break since currently only this is handled here
        some ({ az with alpha_nonzero := false } :: rest, regions, true)
      else
        (azones_update_loop mouse_x mouse_y rest regions changed).map
          fun out => (az :: out.1, out.2.1, out.2.2)
    else if az.type = AZONE_REGION_SCROLL then
      -- only if mouse is not hovering the azone
      if BLI_rcti_isect_pt_v az.rect mouse_x mouse_y = false then
        if az.edge = AZ_SCROLL_VERT then
          match azone_v2d_alpha_clear az.ar true regions with
          | none => none
          | some regions1 =>
            (azones_update_loop mouse_x mouse_y rest regions1 true).map
              fun out => ({ az with alpha_nonzero := false } :: out.1, out.2.1, out.2.2)
        else if az.edge = AZ_SCROLL_HOR then
          match azone_v2d_alpha_clear az.ar false regions with
          | none => none
          | some regions1 =>
            (azones_update_loop mouse_x mouse_y rest regions1 true).map
              fun out => ({ az with alpha_nonzero := false } :: out.1, out.2.1, out.2.2)
        else
          (azones_update_loop mouse_x mouse_y rest regions changed).map
            fun out => (az :: out.1, out.2.1, out.2.2)
      else
        (azones_update_loop mouse_x mouse_y rest regions changed).map
          fun out => (az :: out.1, out.2.1, out.2.2)
    else
      (azones_update_loop mouse_x mouse_y rest regions changed).map
        fun out => (az :: out.1, out.2.1, out.2.2)

/-- `ED_area_azones_update` for the mouse position `(mouse_x, mouse_y)`;
`none` when a NULL `az->ar` is dereferenced. -/
def ED_area_azones_update (sa : ScrArea) (mouse_x mouse_y : Int) : Option ScrArea :=
  match azones_update_loop mouse_x mouse_y sa.actionzones sa.regionbase false with
  | none => none
  | some (zones, regions, changed) =>
    let sa1 := { sa with actionzones := zones, regionbase := regions }
    if changed then
      some (ED_area_tag_redraw_no_rebuild
        { sa1 with flag := flag_clear sa1.flag AREA_FLAG_ACTIONZONES_UPDATE })
    else some sa1

/-! ## Vocabulary of the statements -/

/-- The alignment of a region without the split-from-previous bit, the value
`ar->alignment & ~RGN_SPLIT_PREV` that the layout and the action zones use. -/
def region_align (a : ARegion) : Nat := flag_clear a.alignment RGN_SPLIT_PREV

/-- Height claimed by a region laid out as a top or bottom slice and not
flagged too-small: the height `ymax - ymin + 1` of its window rect; 0 for
any other region. -/
def slice_height (a : ARegion) : Int :=
  if (region_align a = RGN_ALIGN_TOP ∨ region_align a = RGN_ALIGN_BOTTOM) ∧
      a.flag &&& RGN_FLAG_TOO_SMALL = 0 then
    BLI_rcti_size_y a.winrct + 1
  else 0

/-- Width claimed by a region laid out as a left or right slice and not
flagged too-small: the width `xmax - xmin + 1` of its window rect; 0 for any
other region. -/
def slice_width (a : ARegion) : Int :=
  if (region_align a = RGN_ALIGN_LEFT ∨ region_align a = RGN_ALIGN_RIGHT) ∧
      a.flag &&& RGN_FLAG_TOO_SMALL = 0 then
    BLI_rcti_size_x a.winrct + 1
  else 0

/-- Sum of the heights claimed by the top and bottom slices of a list. -/
def slice_heights (rs : List ARegion) : Int := (rs.map slice_height).sum

/-- Sum of the widths claimed by the left and right slices of a list. -/
def slice_widths (rs : List ARegion) : Int := (rs.map slice_width).sum

/-- A visible region that is not overlap-eligible, whose alignment is top,
bottom, left or right. -/
def slice_region (env : LayoutEnv) (r : LRegion) : Prop :=
  r.ar.flag &&& RGN_FLAG_HIDDEN = 0 ∧
  ED_region_is_overlap env.user_region_overlap env.spacetype r.ar.regiontype = false ∧
  (region_align r.ar = RGN_ALIGN_TOP ∨ region_align r.ar = RGN_ALIGN_BOTTOM ∨
    region_align r.ar = RGN_ALIGN_LEFT ∨ region_align r.ar = RGN_ALIGN_RIGHT)

/-- A `slice_region` without the split-from-previous bit. -/
def plain_slice_region (env : LayoutEnv) (r : LRegion) : Prop :=
  slice_region env r ∧ r.ar.alignment &&& RGN_SPLIT_PREV = 0

/-- The state in which the activation for region number `k` (from 0) of the
list starts, in the call made for an area: the variables after the
activations for the regions before it. -/
def layout_state_at (env : LayoutEnv) (totrct : rcti) (regions : List LRegion) (k : Nat) :
    LayoutState :=
  (region_rect_body env)^[k] (layout_start totrct regions)

/-- The two rectangles share no pixel. -/
def rcti_disjoint (a b : rcti) : Prop := ∀ x y : Int, ¬(rcti_mem x y a ∧ rcti_mem x y b)

/-- The rectangle covers no pixel other than `(0, 0)`: it lies inside the
zero rect `(0,0,0,0)`. -/
def rcti_inside_zero (r : rcti) : Prop := ∀ x y : Int, rcti_mem x y r → x = 0 ∧ y = 0

/-- The quadrant `[xmin..cx] x [ymin..cy]` of `r` cut at its center. -/
def quadrant_left_bottom (r : rcti) : rcti :=
  { xmin := r.xmin, xmax := BLI_rcti_cent_x r, ymin := r.ymin, ymax := BLI_rcti_cent_y r }

/-- The quadrant `[xmin..cx] x [cy+1..ymax]` of `r` cut at its center. -/
def quadrant_left_top (r : rcti) : rcti :=
  { xmin := r.xmin, xmax := BLI_rcti_cent_x r, ymin := BLI_rcti_cent_y r + 1, ymax := r.ymax }

/-- The quadrant `[cx+1..xmax] x [ymin..cy]` of `r` cut at its center. -/
def quadrant_right_bottom (r : rcti) : rcti :=
  { xmin := BLI_rcti_cent_x r + 1, xmax := r.xmax, ymin := r.ymin, ymax := BLI_rcti_cent_y r }

/-- The quadrant `[cx+1..xmax] x [cy+1..ymax]` of `r` cut at its center. -/
def quadrant_right_top (r : rcti) : rcti :=
  { xmin := BLI_rcti_cent_x r + 1, xmax := r.xmax, ymin := BLI_rcti_cent_y r + 1,
    ymax := r.ymax }


/-- The rect left of `r` once a strip of `px` columns (left, right) or `py`
rows (top, bottom) has been cut off on the side given by `alignment`. -/
def rcti_without_strip (alignment : Nat) (px py : Int) (r : rcti) : rcti :=
  if alignment = RGN_ALIGN_TOP then { r with ymax := r.ymax - py }
  else if alignment = RGN_ALIGN_BOTTOM then { r with ymin := r.ymin + py }
  else if alignment = RGN_ALIGN_RIGHT then { r with xmax := r.xmax - px }
  else { r with xmin := r.xmin + px }

/-- Whether a strip of `px` columns (left, right) or `py` rows (top, bottom)
fits in `r`: the test `rct_fits(winrct, dir, prefsize) >= 0`. -/
def strip_fits (alignment : Nat) (px py : Int) (r : rcti) : Prop :=
  if alignment = RGN_ALIGN_TOP ∨ alignment = RGN_ALIGN_BOTTOM then 0 ≤ rct_fits r 'v' py
  else 0 ≤ rct_fits r 'h' px

instance strip_fits_decidable (alignment : Nat) (px py : Int) (r : rcti) :
    Decidable (strip_fits alignment px py r) := by
  unfold strip_fits; infer_instance

/-- The regions of the area after the layout pass, with the fields of their
region types, in list order. -/
def layout_pass (env : LayoutEnv) (totrct : rcti) (regions : List LRegion) : List LRegion :=
  (region_rect_recursive env (layout_start totrct regions)).done.reverse

/-- The preferred sizes that the alignment chain reads for the alignment
`al` are the same for `r` and `r2`: the preferred height for top, bottom and
vertical split, the preferred width for left, right and horizontal split. -/
def consulted_prefs_agree (env : LayoutEnv) (al : Nat) (r r2 : LRegion) : Prop :=
  ((al = RGN_ALIGN_TOP ∨ al = RGN_ALIGN_BOTTOM ∨ al = RGN_ALIGN_VSPLIT) →
    region_prefsizey env r2 = region_prefsizey env r) ∧
  ((al = RGN_ALIGN_LEFT ∨ al = RGN_ALIGN_RIGHT ∨ al = RGN_ALIGN_HSPLIT) →
    region_prefsizex env r2 = region_prefsizex env r)

/-- Region by region, the preferred sizes that a layout pass over `rs2` reads
are those that it reads from `rs`. -/
def same_consulted_prefs (env : LayoutEnv) : List LRegion → List LRegion → Prop
  | r :: rs, r2 :: rs2 =>
    consulted_prefs_agree env (region_alignment r2 rs2) r r2 ∧ same_consulted_prefs env rs rs2
  | _, _ => True

/-- The region `ar` with other values in `winx`, `winy`, `sizex` and
`sizey`. -/
def with_sizes (winx winy sizex sizey : Int) (ar : ARegion) : ARegion :=
  { ar with winx := winx, winy := winy, sizex := sizex, sizey := sizey }

/-- The region `y` is `x` with other values in `winrct`, `winx` and `winy`,
as after the stores of a split-from-previous successor. -/
def resized (x y : LRegion) : Prop :=
  ∃ (w : rcti) (a b : Int), y = { x with ar := { x.ar with winrct := w, winx := a, winy := b } }

/-- The chain `d2` is `d` with its head `resized`. -/
def head_resized : List LRegion → List LRegion → Prop
  | [], d2 => d2 = []
  | p :: ps, d2 => ∃ p2, d2 = p2 :: ps ∧ resized p p2

/-- What the layout pass keeps of a region from one activation to the next
pass: the region without its rect, `winx`, `winy`, the overlap mark and the
too-small flag, all of which the pass writes before it reads them. -/
def region_core (ar : ARegion) : ARegion :=
  { ar with
    winrct := rcti_zero
    winx := 0
    winy := 0
    overlap := false
    flag := flag_clear ar.flag RGN_FLAG_TOO_SMALL }

/-- The activation of `region_rect_recursive` after the alignment chain
(lines 1208-1259), as a function of what the chain and
`region_store_size` left: `ar2` is the region with its sizes stored, `tx` and
`ty` the preferred sizes of its type, `next`, `remainder`,
`overlap_remainder` and `quad` the other fields of `Placed`; `done` is the
chain of the predecessors, `remainder_prev` the rect of the caller and
`split` tells whether `remainder` is the rect of the predecessor. -/
def region_rect_finish (env : LayoutEnv) (done : List LRegion) (remainder_prev : rcti)
    (split : Bool) (alignment : Nat) (tx ty : Int) (ar2 : ARegion) (next : List LRegion)
    (remainder overlap_remainder : rcti) (quad : Nat) : LayoutState :=
  let done1 := if split then set_prev_winrct remainder done else done
  let ar3 := if ar2.overlap then region_overlap_fix env done1 ar2 else ar2
  let ar4 := region_rect_collapse alignment ar3 remainder overlap_remainder
  let remainder2 := if split then remainder_prev else remainder
  let done2 := if split then update_prev_size done1 else done1
  let overlap_remainder2 := if ar4.overlap then overlap_remainder else remainder2
  { done := { ar := ar4, type_prefsizex := tx, type_prefsizey := ty } :: done2, todo := next,
    remainder := remainder2, overlap_remainder := overlap_remainder2, quad := quad }

instance consulted_prefs_agree_decidable (env : LayoutEnv) (al : Nat) (r r2 : LRegion) :
    Decidable (consulted_prefs_agree env al r r2) := by
  unfold consulted_prefs_agree; infer_instance

instance same_consulted_prefs_decidable (env : LayoutEnv) :
    (l l2 : List LRegion) → Decidable (same_consulted_prefs env l l2)
  | [], _ => isTrue (by simp [same_consulted_prefs])
  | _ :: _, [] => isTrue (by simp [same_consulted_prefs])
  | r :: rs, r2 :: rs2 =>
    have : Decidable (same_consulted_prefs env rs rs2) := same_consulted_prefs_decidable env rs rs2
    by unfold same_consulted_prefs; infer_instance

/-- The strip of `px` columns (left, right) or `py` rows (top, bottom) of `r`
on the side given by `alignment`: the rect stored into `ar->winrct` by lines
1103-1111 and 1127-1135. -/
def rcti_strip (alignment : Nat) (px py : Int) (r : rcti) : rcti :=
  if alignment = RGN_ALIGN_TOP then { r with ymin := r.ymax - py + 1 }
  else if alignment = RGN_ALIGN_BOTTOM then { r with ymax := r.ymin + py - 1 }
  else if alignment = RGN_ALIGN_RIGHT then { r with xmin := r.xmax - px + 1 }
  else { r with xmax := r.xmin + px - 1 }

/-- The rects `a` and `b` share no pixel and cover together exactly the
pixels of `w`. -/
def rcti_tiled_by (w a b : rcti) : Prop :=
  (∀ x y : Int, rcti_mem x y w ↔ (rcti_mem x y a ∨ rcti_mem x y b)) ∧ rcti_disjoint a b

/-- The thickness of `r` along the axis of `alignment`: its height
`ymax - ymin + 1` for top and bottom, its width `xmax - xmin + 1` otherwise. -/
def rcti_thickness (alignment : Nat) (r : rcti) : Int :=
  if alignment = RGN_ALIGN_TOP ∨ alignment = RGN_ALIGN_BOTTOM then BLI_rcti_size_y r + 1
  else BLI_rcti_size_x r + 1

/-- The preferred size along the axis of `alignment`: the height for top and
bottom, the width otherwise. -/
def pref_along (alignment : Nat) (px py : Int) : Int :=
  if alignment = RGN_ALIGN_TOP ∨ alignment = RGN_ALIGN_BOTTOM then py else px

/-- The alignment chain (lines 1075-1206) of the activation for `r` in the
state `s`, with the successors `next`, sets the too-small flag: the flag is
set before `region_overlap_fix` is called. -/
def flagged_by_chain (env : LayoutEnv) (s : LayoutState) (r : LRegion)
    (next : List LRegion) : Prop :=
  (region_rect_place (region_alignment r next) (region_prefsizex env r)
    (region_prefsizey env r) (region_rect_enter env r.ar) next
    (if splits_prev r s.done then prev_winrct s.remainder s.done else s.remainder)
    s.overlap_remainder s.quad).ar.flag &&& RGN_FLAG_TOO_SMALL ≠ 0

instance flagged_by_chain_decidable (env : LayoutEnv) (s : LayoutState) (r : LRegion)
    (next : List LRegion) : Decidable (flagged_by_chain env s r next) := by
  unfold flagged_by_chain; infer_instance

/-- The rect `a` lies inside the rect `b`. -/
def rcti_inside (a b : rcti) : Prop :=
  b.xmin ≤ a.xmin ∧ a.xmax ≤ b.xmax ∧ b.ymin ≤ a.ymin ∧ a.ymax ≤ b.ymax

instance rcti_inside_decidable (a b : rcti) : Decidable (rcti_inside a b) := by
  unfold rcti_inside; infer_instance

/-- One call of a region tagging function: `ED_region_tag_redraw`,
`ED_region_tag_redraw_no_rebuild`, ` ED_region_tag_redraw_partial` with a
rect, or `ED_region_tag_refresh_ui`. -/
inductive TagCall where
  | redraw : TagCall
  | no_rebuild : TagCall
  | rect (rct : rcti) : TagCall
  | refresh_ui : TagCall
deriving DecidableEq, Repr

/-- The region after the call. -/
def tag_call (ar : ARegion) : TagCall → ARegion
  | TagCall.redraw => ED_region_tag_redraw ar
  | TagCall.no_rebuild => ED_region_tag_redraw_no_rebuild ar
  | TagCall.rect rct => ED_region_tag_redraw_partial ar rct
  | TagCall.refresh_ui => ED_region_tag_refresh_ui ar

/-- The region after a sequence of calls, first call first. -/
def tag_calls (ar : ARegion) (calls : List TagCall) : ARegion := calls.foldl tag_call ar

/-- At most one of `RGN_DRAW`, `RGN_DRAW_NO_REBUILD` and `RGN_DRAW_PARTIAL`
is set, and the draw rect is all zeros whenever `RGN_DRAW` or
`RGN_DRAW_NO_REBUILD` is set. -/
def redraw_tags_ok (ar : ARegion) : Prop :=
  ¬(ar.do_draw &&& RGN_DRAW ≠ 0 ∧ ar.do_draw &&& RGN_DRAW_NO_REBUILD ≠ 0) ∧
  ¬(ar.do_draw &&& RGN_DRAW ≠ 0 ∧ ar.do_draw &&& RGN_DRAW_PARTIAL ≠ 0) ∧
  ¬(ar.do_draw &&& RGN_DRAW_NO_REBUILD ≠ 0 ∧ ar.do_draw &&& RGN_DRAW_PARTIAL ≠ 0) ∧
  (ar.do_draw &&& RGN_DRAW ≠ 0 ∨ ar.do_draw &&& RGN_DRAW_NO_REBUILD ≠ 0 →
    ar.drawrct = rcti_zero)

instance redraw_tags_ok_decidable (ar : ARegion) : Decidable (redraw_tags_ok ar) := by
  unfold redraw_tags_ok; infer_instance


/-- A region with nothing pending: every field zero. -/
def clean_region : ARegion :=
  { winrct := rcti_zero, drawrct := rcti_zero, winx := 0, winy := 0, regiontype := 0,
    alignment := 0, flag := 0, sizex := 0, sizey := 0, do_draw := 0, overlap := false }

/-- A non-drawing region with a partial redraw of `(1,2)-(5,7)` pending. -/
def partial_pending_region : ARegion :=
  { clean_region with do_draw := RGN_DRAW_PARTIAL, drawrct := ⟨1, 5, 2, 7⟩ }

/-- A non-drawing region with a partial redraw pending whose rect has
`xmin = xmax`, as left by `ED_region_tag_redraw_partial` on a clean region
with the rect `xmin = 5, xmax = 5, ymin = 0, ymax = 10`. -/
def degenerate_pending_region : ARegion :=
  { clean_region with do_draw := RGN_DRAW_PARTIAL, drawrct := ⟨5, 5, 0, 10⟩ }

/-- A layout environment at 1x DPI (the DPI conversions are the identity)
with region overlap switched off and a header height of 30 pixels. -/
def example_env : LayoutEnv :=
  { spacetype := SPACE_VIEW3D, user_region_overlap := false, area_winx := 1001,
    widget_unit := 20, area_global := false, headery := 30, dpi_mul := fun v => v,
    dpi_mul_half := fun v => v, dpi_div_half := fun v => v }

/-- A visible header region with top alignment. -/
def example_header : LRegion :=
  { ar := { clean_region with regiontype := RGN_TYPE_HEADER, alignment := RGN_ALIGN_TOP },
    type_prefsizex := 0, type_prefsizey := 30 }

/-- A visible window region with alignment none. -/
def example_window : LRegion :=
  { ar := { clean_region with regiontype := RGN_TYPE_WINDOW, alignment := RGN_ALIGN_NONE },
    type_prefsizex := 0, type_prefsizey := 0 }

/-- A visible tool region of preferred width 200 with left alignment. -/
def example_tools : LRegion :=
  { ar := { clean_region with regiontype := RGN_TYPE_TOOLS, alignment := RGN_ALIGN_LEFT },
    type_prefsizex := 200, type_prefsizey := 0 }

/-- A visible channels region of preferred height 10 with top alignment. -/
def example_channels : LRegion :=
  { ar := { clean_region with regiontype := RGN_TYPE_CHANNELS, alignment := RGN_ALIGN_TOP },
    type_prefsizex := 0, type_prefsizey := 10 }

/-- A visible tool region with left alignment and the split-from-previous
bit. -/
def example_split_tools : LRegion :=
  { ar := { clean_region with regiontype := RGN_TYPE_TOOLS,
                              alignment := RGN_ALIGN_LEFT ||| RGN_SPLIT_PREV },
    type_prefsizex := 200, type_prefsizey := 0 }

/-- A visible window region with quad-split alignment. -/
def example_quad : LRegion :=
  { ar := { clean_region with regiontype := RGN_TYPE_WINDOW, alignment := RGN_ALIGN_QSPLIT },
    type_prefsizex := 0, type_prefsizey := 0 }

/-- A visible window region with quad-split alignment and the
split-from-previous bit. -/
def example_split_quad : LRegion :=
  { ar := { clean_region with regiontype := RGN_TYPE_WINDOW,
                              alignment := RGN_ALIGN_QSPLIT ||| RGN_SPLIT_PREV },
    type_prefsizex := 0, type_prefsizey := 0 }

/-- A layout environment like `example_env` with region overlap switched
on. -/
def example_overlap_env : LayoutEnv := { example_env with user_region_overlap := true }

/-- A UI environment on top of `example_env`: a normal screen on a window of
1921 x 1081 pixels, every space type registered, and sample values for the
conversions that go through floating point. -/
def example_ui_env : UIEnv :=
  { layout := example_env, screen_state := SCREENNORMAL, lock_ui_layout := false,
    pixelsize := 1, window_rect := ⟨0, 1920, 0, 1080⟩, apple_build := false,
    window_fullscreen := false, window_pixels_x := 1920,
    spacetype_registered := fun _ => true,
    spacetype_new := fun t => { id := 1000 + t, spacetype := t, regionbase := [] },
    regiontype_prefsizex := fun _ _ => 200, regiontype_prefsizey := fun _ _ => 30,
    azonespot_add := fun v => v + 11, azonespot_sub := fun v => v - 11,
    azonefadeout_sub := fun v => v - 129, azonefadein_add := fun v => v + 100,
    azonefadein_sub := fun v => v - 100, azonepad_edge_add := fun v => v + 2,
    azonepad_edge_sub := fun v => v - 2, azonepad_tab_sub25 := fun v => v - 35,
    azonepad_tab_sub15 := fun v => v - 21, azonepad_tab_addh := fun v => v + 14,
    azonepad_tab_subh := fun v => v - 14 }

/-- The environment `example_ui_env` with the screen in the fullscreen
state. -/
def example_fullscreen_env : UIEnv := { example_ui_env with screen_state := SCREENFULL }

/-- A view without scrollbars. -/
def example_v2d : View2D :=
  { scroll := 0, vert := rcti_zero, hor := rcti_zero, alpha_vert := 0, alpha_hor := 0 }

/-- A 3D viewport area of 1001 x 801 pixels without regions, space data or
action zones. -/
def example_area : ScrArea :=
  { spacetype := SPACE_VIEW3D, flag := 0, v1x := 0, v1y := 0, v4x := 1000, v2y := 800,
    totrct := ⟨0, 1000, 0, 800⟩, winx := 1001, winy := 801, global := none,
    do_refresh := false, spacedata := [], regionbase := [], actionzones := [] }

/-- A hidden tool region with left alignment, collapsed onto the left edge
of `example_area`. -/
def example_hidden_tools : AreaRegion :=
  { id := 7
    ar := { clean_region with regiontype := RGN_TYPE_TOOLS, alignment := RGN_ALIGN_LEFT,
                              flag := RGN_FLAG_HIDDEN, winrct := ⟨0, 0, 0, 800⟩, winx := 1,
                              winy := 801 }
    v2d := example_v2d }

/-- A header region with top alignment flagged too-small, as tall as
`example_area`. -/
def example_tall_header : AreaRegion :=
  { id := 8
    ar := { clean_region with regiontype := RGN_TYPE_HEADER, alignment := RGN_ALIGN_TOP,
                              flag := RGN_FLAG_TOO_SMALL, winrct := ⟨0, 1000, 0, 800⟩,
                              winx := 1001, winy := 801 }
    v2d := example_v2d }

/-- A fullscreen zone with non-zero alpha in the top right corner of
`example_area`. -/
def example_fullscreen_zone : AZone :=
  { azone_calloc with type := AZONE_FULLSCREEN, ar := some 3, x1 := 871, y1 := 671, x2 := 1000,
                      y2 := 800, rect := ⟨871, 1000, 671, 800⟩, alpha_nonzero := true }

/-- A region whose draw rect is the strip `(0,0)-(200,800)` at the left of
`example_area`. -/
def example_drawn_tools : ARegion :=
  { clean_region with regiontype := RGN_TYPE_TOOLS, alignment := RGN_ALIGN_LEFT,
                      winrct := ⟨0, 200, 0, 800⟩, drawrct := ⟨0, 200, 0, 800⟩ }

/-- A visible tool region with left alignment that does not overlap, as a
member of a region list. -/
def example_shown_tools : AreaRegion :=
  { id := 7
    ar := { clean_region with regiontype := RGN_TYPE_TOOLS, alignment := RGN_ALIGN_LEFT,
                              winrct := ⟨0, 199, 0, 800⟩, winx := 200, winy := 801 }
    v2d := example_v2d }

/-- A visible tool region like `example_shown_tools` drawn over the main
region (`ar->overlap` set). -/
def example_overlapping_tools : AreaRegion :=
  { example_shown_tools with ar := { example_shown_tools.ar with overlap := true } }

/-- A visible window region with alignment none, as a member of a region
list. -/
def example_main : AreaRegion :=
  { id := 3
    ar := { clean_region with regiontype := RGN_TYPE_WINDOW, alignment := RGN_ALIGN_NONE,
                              winrct := ⟨200, 1000, 0, 800⟩, winx := 801, winy := 801 }
    v2d := example_v2d }

/-- The payload of the 3D viewport, active: it holds no saved regions. -/
def example_payload_view3d : SpaceLink :=
  { id := 100, spacetype := SPACE_VIEW3D, regionbase := [] }

/-- The payload of an image editor visited before, with one saved window
region. -/
def example_payload_image : SpaceLink :=
  { id := 101, spacetype := SPACE_IMAGE, regionbase := [{ example_main with id := 11 }] }

/-- The area `example_area` showing a 3D viewport with a tool region and a
window region, its space data holding the payloads of the viewport and of an
image editor. -/
def example_switch_area : ScrArea :=
  { example_area with
    spacedata := [example_payload_view3d, example_payload_image]
    regionbase := [example_shown_tools, example_main] }

/-- A visible window region with horizontal-split alignment. -/
def example_hsplit : LRegion :=
  { ar := { clean_region with regiontype := RGN_TYPE_WINDOW, alignment := RGN_ALIGN_HSPLIT },
    type_prefsizex := 0, type_prefsizey := 0 }

/-- The layout environment `example_env` at a DPI factor of 2. For an integer
`v` in the range of a `short` the float values `2 * v`, `2 * (v + 0.5)` and
`(v + 0.5) / 2` are exact, and the conversions to `int` and `short` truncate
toward zero. -/
def example_env_2x : LayoutEnv :=
  { example_env with
    dpi_mul := fun v => 2 * v
    dpi_mul_half := fun v => 2 * v + 1
    dpi_div_half := fun v => Int.tdiv (2 * v + 1) 4 }

/-- The header `example_header` as the layout pass leaves it on the area
`(0,0)-(1000,800)`: the top 30 rows. -/
def example_placed_header : LRegion :=
  { example_header with ar := { example_header.ar with
      winrct := ⟨0, 1000, 771, 800⟩, winx := 1001, winy := 30, sizex := 1001, sizey := 30 } }

/-- The variables of the layout pass over `example_header`,
`example_split_tools`, `example_window` on the area `(0,0)-(1000,800)` after
the activation for the header. -/
def example_split_state : LayoutState :=
  { done := [example_placed_header], todo := [example_split_tools, example_window],
    remainder := ⟨0, 1000, 0, 770⟩, overlap_remainder := ⟨0, 1000, 0, 770⟩, quad := 0 }

/-- A layout environment with region overlap switched on for an area that is
201 pixels wide. -/
def example_narrow_overlap_env : LayoutEnv := { example_overlap_env with area_winx := 201 }

/-- A visible properties region of preferred width 150 with right
alignment. -/
def example_right_ui : LRegion :=
  { ar := { clean_region with regiontype := RGN_TYPE_UI, alignment := RGN_ALIGN_RIGHT },
    type_prefsizex := 150, type_prefsizey := 0 }

/-- A visible tool region of preferred width 150 with left alignment. -/
def example_left_tools : LRegion :=
  { ar := { clean_region with regiontype := RGN_TYPE_TOOLS, alignment := RGN_ALIGN_LEFT },
    type_prefsizex := 150, type_prefsizey := 0 }

/-- An overlapping properties region with right alignment at the right of
the area `(0,0)-(1000,800)`, 150 pixels wide. -/
def example_far_right_ui : LRegion :=
  { ar := { clean_region with regiontype := RGN_TYPE_UI, alignment := RGN_ALIGN_RIGHT,
                              winrct := ⟨851, 1000, 0, 800⟩, winx := 150, winy := 801,
                              overlap := true },
    type_prefsizex := 150, type_prefsizey := 0 }

/-- An overlapping properties region with left alignment at the left of the
area `(0,0)-(1000,800)`, 150 pixels wide. -/
def example_placed_left_ui : LRegion :=
  { ar := { clean_region with regiontype := RGN_TYPE_UI, alignment := RGN_ALIGN_LEFT,
                              winrct := ⟨0, 149, 0, 800⟩, winx := 150, winy := 801,
                              overlap := true },
    type_prefsizex := 150, type_prefsizey := 0 }

/-- The environment `example_ui_env` with region overlap switched on. -/
def example_overlap_ui_env : UIEnv := { example_ui_env with layout := example_overlap_env }

/-- A 3D viewport area between the screen vertices `x = 499` and `x = 701`,
`y = 0` and `y = 101`, away from the left border of the window. -/
def example_offset_area : ScrArea :=
  { example_area with v1x := 499, v1y := 0, v4x := 701, v2y := 101 }

/-- A visible properties region of preferred width 50 with right
alignment. -/
def example_thin_right_ui : LRegion :=
  { ar := { clean_region with regiontype := RGN_TYPE_UI, alignment := RGN_ALIGN_RIGHT },
    type_prefsizex := 50, type_prefsizey := 0 }

/-- A visible tool region of preferred width 180 with right alignment. -/
def example_right_tools : LRegion :=
  { ar := { clean_region with regiontype := RGN_TYPE_TOOLS, alignment := RGN_ALIGN_RIGHT },
    type_prefsizex := 180, type_prefsizey := 0 }

/-- The region `example_thin_right_ui` as placed at the right of the area
`(500,0)-(700,100)`, overlapping. -/
def example_placed_right_ui : LRegion :=
  { example_thin_right_ui with ar := { example_thin_right_ui.ar with
      winrct := ⟨651, 700, 0, 100⟩, winx := 50, winy := 101, sizex := 50, sizey := 101,
      overlap := true } }

/-- The region of `example_right_tools` as the alignment chain places it in
the overlap remainder `(500,0)-(700,90)`, before `region_overlap_fix`. -/
def example_placed_right_tools : ARegion :=
  { example_right_tools.ar with
      winrct := ⟨521, 700, 0, 90⟩, winx := 180, winy := 91, sizex := 180, sizey := 91,
      overlap := true }

/-- The window region `example_main` with a vertical scrollbar at its right,
drawn with alpha 255. -/
def example_scrolled_main : AreaRegion :=
  { example_main with
    v2d := { example_v2d with scroll := V2D_SCROLL_VERTICAL, vert := ⟨780, 800, 0, 800⟩,
                              alpha_vert := 255 } }

/-- The area `example_area` on a fullscreen screen with the region
`example_scrolled_main` and the zones that `region_azones_add` makes for it,
all with non-zero alpha, as after the mouse went over them. -/
def example_zone_area : ScrArea :=
  { example_area with
    flag := AREA_FLAG_ACTIONZONES_UPDATE
    regionbase := [example_scrolled_main]
    actionzones :=
      (region_azones_add example_fullscreen_env example_area example_scrolled_main
        RGN_ALIGN_NONE).1.actionzones.map fun az => { az with alpha_nonzero := true } }

theorem testBit_flag_clear (a m i : Nat) :
    (flag_clear a m).testBit i = (a.testBit i && !m.testBit i) := by
  simp only [flag_clear, Nat.testBit_xor, Nat.testBit_and]
  cases a.testBit i <;> cases m.testBit i <;> rfl

theorem and_eq_zero_iff_testBit (a m : Nat) :
    a &&& m = 0 ↔ ∀ i, (a.testBit i && m.testBit i) = false := by
  constructor
  · intro h i
    rw [← Nat.testBit_and, h, Nat.zero_testBit]
  · intro h
    apply Nat.eq_of_testBit_eq
    intro i
    rw [Nat.testBit_and, h i, Nat.zero_testBit]

theorem and_or_eq_zero_iff (a m k : Nat) :
    a &&& (m ||| k) = 0 ↔ a &&& m = 0 ∧ a &&& k = 0 := by
  simp only [and_eq_zero_iff_testBit, Nat.testBit_or]
  constructor
  · intro h
    refine ⟨fun i => ?_, fun i => ?_⟩ <;> have hi := h i <;> revert hi <;>
      cases a.testBit i <;> cases m.testBit i <;> cases k.testBit i <;> simp
  · rintro ⟨h1, h2⟩ i
    have hi1 := h1 i
    have hi2 := h2 i
    revert hi1 hi2
    cases a.testBit i <;> cases m.testBit i <;> cases k.testBit i <;> simp

theorem flag_clear_and_of_disjoint (f m k : Nat) (h : m &&& k = 0) :
    flag_clear f m &&& k = f &&& k := by
  apply Nat.eq_of_testBit_eq
  intro i
  have hi := (and_eq_zero_iff_testBit m k).1 h i
  simp only [Nat.testBit_and, testBit_flag_clear]
  revert hi
  cases f.testBit i <;> cases m.testBit i <;> cases k.testBit i <;> simp

theorem flag_clear_and_self (f m : Nat) : flag_clear f m &&& m = 0 := by
  rw [and_eq_zero_iff_testBit]
  intro i
  rw [testBit_flag_clear]
  cases f.testBit i <;> cases m.testBit i <;> rfl

theorem flag_clear_of_and_eq_zero (f m : Nat) (h : f &&& m = 0) : flag_clear f m = f := by
  simp [flag_clear, h]

theorem or_and_of_disjoint (f m k : Nat) (h : m &&& k = 0) : (f ||| m) &&& k = f &&& k := by
  apply Nat.eq_of_testBit_eq
  intro i
  have hi := (and_eq_zero_iff_testBit m k).1 h i
  simp only [Nat.testBit_and, Nat.testBit_or]
  revert hi
  cases f.testBit i <;> cases m.testBit i <;> cases k.testBit i <;> simp

theorem or_and_self (f m : Nat) : (f ||| m) &&& m = m := by
  apply Nat.eq_of_testBit_eq
  intro i
  simp only [Nat.testBit_and, Nat.testBit_or]
  cases f.testBit i <;> cases m.testBit i <;> rfl

theorem and_eq_zero_of_and_or_eq_zero_left (a m k : Nat) (h : a &&& (m ||| k) = 0) :
    a &&& m = 0 := ((and_or_eq_zero_iff a m k).1 h).1

/-! ## Rectangles -/

/-- The C quotient `(a + b) / 2` of two ordered bounds lies between them. -/
theorem tdiv_two_bounds (a b : Int) (h : a ≤ b) :
    a ≤ Int.tdiv (a + b) 2 ∧ Int.tdiv (a + b) 2 ≤ b := by
  rcases le_or_lt 0 (a + b) with h0 | h0
  · rw [Int.tdiv_eq_ediv h0 (by decide)]
    omega
  · have h1 : Int.tdiv (a + b) 2 = -((-(a + b)) / 2) := by
      rw [← Int.tdiv_eq_ediv (by omega) (by decide), Int.neg_tdiv, neg_neg]
    rw [h1]
    omega

/-! ## Redraw tags -/

/-- C6: for every region whose `do_draw` has `RGN_DRAWING` set, each of
`ED_region_tag_redraw`, `ED_region_tag_redraw_no_rebuild` and
` ED_region_tag_redraw_partial` (with any rect) leaves both `do_draw` and the
draw rect exactly as they were. -/
theorem tag_redraw_while_drawing (ar : ARegion) (rct : rcti)
    (hdrawing : ar.do_draw &&& RGN_DRAWING ≠ 0) :
    ((ED_region_tag_redraw ar).do_draw = ar.do_draw ∧
      (ED_region_tag_redraw ar).drawrct = ar.drawrct) ∧
    ((ED_region_tag_redraw_no_rebuild ar).do_draw = ar.do_draw ∧
      (ED_region_tag_redraw_no_rebuild ar).drawrct = ar.drawrct) ∧
    (( ED_region_tag_redraw_partial ar rct).do_draw = ar.do_draw ∧
      ( ED_region_tag_redraw_partial ar rct).drawrct = ar.drawrct) := by
  have h2 : ar.do_draw &&& (RGN_DRAWING ||| RGN_DRAW) ≠ 0 := by
    intro h
    exact hdrawing ((and_or_eq_zero_iff _ _ _).1 h).1
  simp [ED_region_tag_redraw, ED_region_tag_redraw_no_rebuild, ED_region_tag_redraw_partial,
    hdrawing, h2]

theorem tag_redraw_while_drawing_witness :
    (4 : Nat) &&& RGN_DRAWING ≠ 0 ∧
    (( ED_region_tag_redraw_partial
        { winrct := rcti_zero, drawrct := ⟨1, 5, 2, 7⟩, winx := 0, winy := 0, regiontype := 0,
          alignment := 0, flag := 0, sizex := 0, sizey := 0, do_draw := 4, overlap := false }
        ⟨0, 9, 0, 9⟩).drawrct = ⟨1, 5, 2, 7⟩) :=
  ⟨by decide, (tag_redraw_while_drawing
        { winrct := rcti_zero, drawrct := ⟨1, 5, 2, 7⟩, winx := 0, winy := 0, regiontype := 0,
          alignment := 0, flag := 0, sizex := 0, sizey := 0, do_draw := 4, overlap := false }
        ⟨0, 9, 0, 9⟩ (by decide)).2.2.2⟩

/-- C7: for every region that is not drawing (`RGN_DRAWING` clear), whatever
redraw was pending before, `ED_region_tag_redraw` sets `RGN_DRAW`, clears
`RGN_DRAW_PARTIAL` and `RGN_DRAW_NO_REBUILD`, leaves every other `do_draw` bit
unchanged (any mask `m` disjoint from the three bits reads the same before and
after), and resets the draw rect to all zeros. -/
theorem tag_redraw_sets_full (ar : ARegion) (hidle : ar.do_draw &&& RGN_DRAWING = 0) :
    (ED_region_tag_redraw ar).do_draw &&& RGN_DRAW ≠ 0 ∧
    (ED_region_tag_redraw ar).do_draw &&& RGN_DRAW_PARTIAL = 0 ∧
    (ED_region_tag_redraw ar).do_draw &&& RGN_DRAW_NO_REBUILD = 0 ∧
    (∀ m : Nat, m &&& (RGN_DRAW ||| RGN_DRAW_PARTIAL ||| RGN_DRAW_NO_REBUILD) = 0 →
      (ED_region_tag_redraw ar).do_draw &&& m = ar.do_draw &&& m) ∧
    (ED_region_tag_redraw ar).drawrct = rcti_zero := by
  have hc := flag_clear_and_self ar.do_draw (RGN_DRAW_PARTIAL ||| RGN_DRAW_NO_REBUILD)
  rw [and_or_eq_zero_iff] at hc
  simp only [ED_region_tag_redraw, hidle, if_true]
  refine ⟨?_, ?_, ?_, ?_, trivial⟩
  · rw [or_and_self]; decide
  · rw [or_and_of_disjoint _ _ _ (by decide)]; exact hc.1
  · rw [or_and_of_disjoint _ _ _ (by decide)]; exact hc.2
  · intro m hm
    apply Nat.eq_of_testBit_eq
    intro i
    have h := (and_eq_zero_iff_testBit _ _).1 hm i
    simp only [Nat.testBit_or] at h
    simp only [Nat.testBit_and, Nat.testBit_or, testBit_flag_clear]
    revert h
    cases ar.do_draw.testBit i <;> cases m.testBit i <;> cases RGN_DRAW.testBit i <;>
      cases RGN_DRAW_PARTIAL.testBit i <;> cases RGN_DRAW_NO_REBUILD.testBit i <;> simp

theorem tag_redraw_sets_full_witness :
    (2 : Nat) &&& RGN_DRAWING = 0 ∧
    (ED_region_tag_redraw
        { winrct := rcti_zero, drawrct := ⟨1, 5, 2, 7⟩, winx := 0, winy := 0, regiontype := 0,
          alignment := 0, flag := 0, sizex := 0, sizey := 0, do_draw := 2,
          overlap := false }).drawrct = rcti_zero :=
  ⟨by decide, (tag_redraw_sets_full
        { winrct := rcti_zero, drawrct := ⟨1, 5, 2, 7⟩, winx := 0, winy := 0, regiontype := 0,
          alignment := 0, flag := 0, sizex := 0, sizey := 0, do_draw := 2, overlap := false }
        (by decide)).2.2.2.2⟩

/-- C8, as stated, fails for a pending partial redraw: on a non-drawing region
with `RGN_DRAW_PARTIAL` set and the draw rect `(1,2)-(5,7)`,
`ED_region_tag_redraw_no_rebuild` changes `do_draw` and the draw rect. -/
theorem tag_redraw_no_rebuild_drops_partial :
    partial_pending_region.do_draw &&& RGN_DRAWING = 0 ∧
    partial_pending_region.do_draw &&& RGN_DRAW_PARTIAL ≠ 0 ∧
    ¬((ED_region_tag_redraw_no_rebuild partial_pending_region).do_draw
          = partial_pending_region.do_draw ∧
      (ED_region_tag_redraw_no_rebuild partial_pending_region).drawrct
          = partial_pending_region.drawrct) := by
  decide

/-- C8, amended: `ED_region_tag_redraw_no_rebuild` never escalates an
existing full request: for every non-drawing region that already has a full
redraw pending (`RGN_DRAW` set), `do_draw` and the draw rect are the same
after the call as before it. A pending partial redraw (`RGN_DRAW` clear) is
replaced instead: `RGN_DRAW_PARTIAL` is cleared, `RGN_DRAW_NO_REBUILD` is set,
the other bits are unchanged and the draw rect is reset to all zeros. -/
theorem tag_redraw_no_rebuild_effect (ar : ARegion) (hidle : ar.do_draw &&& RGN_DRAWING = 0) :
    (ar.do_draw &&& RGN_DRAW ≠ 0 →
      (ED_region_tag_redraw_no_rebuild ar).do_draw = ar.do_draw ∧
      (ED_region_tag_redraw_no_rebuild ar).drawrct = ar.drawrct) ∧
    (ar.do_draw &&& RGN_DRAW = 0 →
      (ED_region_tag_redraw_no_rebuild ar).do_draw &&& RGN_DRAW_PARTIAL = 0 ∧
      (ED_region_tag_redraw_no_rebuild ar).do_draw &&& RGN_DRAW_NO_REBUILD ≠ 0 ∧
      (∀ m : Nat, m &&& (RGN_DRAW_PARTIAL ||| RGN_DRAW_NO_REBUILD) = 0 →
        (ED_region_tag_redraw_no_rebuild ar).do_draw &&& m = ar.do_draw &&& m) ∧
      (ED_region_tag_redraw_no_rebuild ar).drawrct = rcti_zero) := by
  constructor
  · intro hfull
    have h2 : ar.do_draw &&& (RGN_DRAWING ||| RGN_DRAW) ≠ 0 := by
      intro h
      exact hfull ((and_or_eq_zero_iff _ _ _).1 h).2
    simp [ED_region_tag_redraw_no_rebuild, h2]
  · intro hnofull
    have h2 : ar.do_draw &&& (RGN_DRAWING ||| RGN_DRAW) = 0 :=
      (and_or_eq_zero_iff _ _ _).2 ⟨hidle, hnofull⟩
    simp only [ED_region_tag_redraw_no_rebuild, h2, if_true]
    refine ⟨?_, ?_, ?_, trivial⟩
    · rw [or_and_of_disjoint _ _ _ (by decide)]; exact flag_clear_and_self _ _
    · rw [or_and_self]; decide
    · intro m hm
      apply Nat.eq_of_testBit_eq
      intro i
      have h := (and_eq_zero_iff_testBit _ _).1 hm i
      simp only [Nat.testBit_or] at h
      simp only [Nat.testBit_and, Nat.testBit_or, testBit_flag_clear]
      revert h
      cases ar.do_draw.testBit i <;> cases m.testBit i <;>
        cases RGN_DRAW_PARTIAL.testBit i <;> cases RGN_DRAW_NO_REBUILD.testBit i <;> simp

theorem tag_redraw_no_rebuild_effect_witness :
    partial_pending_region.do_draw &&& RGN_DRAWING = 0 ∧
    (partial_pending_region.do_draw &&& RGN_DRAW = 0 →
      (ED_region_tag_redraw_no_rebuild partial_pending_region).do_draw &&& RGN_DRAW_PARTIAL = 0 ∧
      (ED_region_tag_redraw_no_rebuild partial_pending_region).do_draw
        &&& RGN_DRAW_NO_REBUILD ≠ 0 ∧
      (∀ m : Nat, m &&& (RGN_DRAW_PARTIAL ||| RGN_DRAW_NO_REBUILD) = 0 →
        (ED_region_tag_redraw_no_rebuild partial_pending_region).do_draw &&& m
          = partial_pending_region.do_draw &&& m) ∧
      (ED_region_tag_redraw_no_rebuild partial_pending_region).drawrct = rcti_zero) :=
  ⟨by decide, (tag_redraw_no_rebuild_effect partial_pending_region (by decide)).2⟩

/-- C9 fails on the code at a pending partial redraw whose rect has
`xmin = xmax`: the region is not drawing, `RGN_DRAW_PARTIAL` is set, `RGN_DRAW`
and `RGN_DRAW_NO_REBUILD` are clear and the draw rect is
`xmin = 5, xmax = 5, ymin = 0, ymax = 10`; tagging the rect `(0,0)-(10,10)`
leaves the draw rect as it was, while the bounding union is `(0,0)-(10,10)`.
The call runs into the branch guarded by
`BLI_assert((ar->do_draw & (RGN_DRAW | RGN_DRAW_NO_REBUILD)) != 0)`, which
does not hold there. -/
theorem tag_redraw_partial_degenerate_pending :
    degenerate_pending_region.do_draw &&& RGN_DRAWING = 0 ∧
    degenerate_pending_region.do_draw &&& RGN_DRAW_PARTIAL ≠ 0 ∧
    degenerate_pending_region.do_draw &&& (RGN_DRAW ||| RGN_DRAW_NO_REBUILD) = 0 ∧
    ( ED_region_tag_redraw_partial degenerate_pending_region ⟨0, 10, 0, 10⟩).do_draw
      = RGN_DRAW_PARTIAL ∧
    ( ED_region_tag_redraw_partial degenerate_pending_region ⟨0, 10, 0, 10⟩).drawrct
      = ⟨5, 5, 0, 10⟩ ∧
    BLI_rcti_union degenerate_pending_region.drawrct ⟨0, 10, 0, 10⟩ = ⟨0, 10, 0, 10⟩ ∧
    ( ED_region_tag_redraw_partial degenerate_pending_region ⟨0, 10, 0, 10⟩).drawrct
      ≠ BLI_rcti_union degenerate_pending_region.drawrct ⟨0, 10, 0, 10⟩ := by
  decide

/-- With a redraw pending and a draw rect whose `xmin` and `xmax` differ,
` ED_region_tag_redraw_partial` unions the rect into the draw rect and leaves
`do_draw` alone. -/
theorem tag_redraw_partial_union (ar : ARegion) (rct : rcti)
    (hidle : ar.do_draw &&& RGN_DRAWING = 0)
    (hpending : ar.do_draw &&& (RGN_DRAW ||| RGN_DRAW_NO_REBUILD ||| RGN_DRAW_PARTIAL) ≠ 0)
    (hrect : ar.drawrct.xmin ≠ ar.drawrct.xmax) :
    ED_region_tag_redraw_partial ar rct
      = { ar with drawrct := BLI_rcti_union ar.drawrct rct } := by
  simp [ ED_region_tag_redraw_partial, hidle, hpending, hrect]

/-- C10 fails on the code: from a clean, non-drawing region, tagging
`A = (xmin 5, xmax 5, ymin 0, ymax 10)` and then `B = (0,0)-(10,10)` leaves the
draw rect `A`, while tagging `B` and then `A` leaves `(0,0)-(10,10)`: a first
rect with `xmin = xmax` is taken for the all-zero rect of a full redraw and
the second tag is dropped. -/
theorem tag_redraw_partial_order_matters :
    clean_region.do_draw = 0 ∧ clean_region.drawrct = rcti_zero ∧
    ( ED_region_tag_redraw_partial
        ( ED_region_tag_redraw_partial clean_region ⟨5, 5, 0, 10⟩) ⟨0, 10, 0, 10⟩).drawrct
      = ⟨5, 5, 0, 10⟩ ∧
    ( ED_region_tag_redraw_partial
        ( ED_region_tag_redraw_partial clean_region ⟨0, 10, 0, 10⟩) ⟨5, 5, 0, 10⟩).drawrct
      = ⟨0, 10, 0, 10⟩ ∧
    ( ED_region_tag_redraw_partial
        ( ED_region_tag_redraw_partial clean_region ⟨5, 5, 0, 10⟩) ⟨0, 10, 0, 10⟩).drawrct
      ≠ ( ED_region_tag_redraw_partial
          ( ED_region_tag_redraw_partial clean_region ⟨0, 10, 0, 10⟩) ⟨5, 5, 0, 10⟩).drawrct := by
  decide

/-! ## Region layout: unfolding the recursion -/

theorem region_rect_recursive_nil (env : LayoutEnv) (s : LayoutState) (h : s.todo = []) :
    region_rect_recursive env s = s := by
  rw [region_rect_recursive, dif_pos h]

theorem region_rect_recursive_cons (env : LayoutEnv) (s : LayoutState) (h : s.todo ≠ []) :
    region_rect_recursive env s = region_rect_recursive env (region_rect_body env s) := by
  rw [region_rect_recursive, dif_neg h]

theorem place_qsplit_overlap (ar : ARegion) (next : List LRegion) (rm om : rcti) (q : Nat) :
    (place_qsplit ar next rm om q).ar.overlap = ar.overlap := by
  simp only [place_qsplit, apply_ite Placed.ar, apply_ite ARegion.overlap, ite_self]

theorem region_rect_place_overlap (al : Nat) (px py : Int) (ar : ARegion) (next : List LRegion)
    (rm om : rcti) (q : Nat) :
    (region_rect_place al px py ar next rm om q).ar.overlap = ar.overlap := by
  simp only [region_rect_place, place_top_bottom, place_left_right, place_split,
    apply_ite Placed.ar, apply_ite ARegion.overlap, place_qsplit_overlap, ite_self]

theorem region_store_size_overlap (env : LayoutEnv) (ar : ARegion) :
    (region_store_size env ar).overlap = ar.overlap := rfl

theorem region_rect_collapse_overlap (al : Nat) (ar : ARegion) (rm om : rcti) :
    (region_rect_collapse al ar rm om).overlap = ar.overlap := by
  simp only [region_rect_collapse, apply_ite ARegion.overlap, ite_self]

/-- One activation for a region that is not overlap-eligible and does not
split its predecessor: no redirection of `remainder`, no overlap fix, and
`overlap_remainder` is reset to `remainder`. -/
theorem region_rect_body_plain (env : LayoutEnv) (s : LayoutState) (r : LRegion)
    (next : List LRegion) (p : Placed) (hs : s.todo = r :: next)
    (hov : ED_region_is_overlap env.user_region_overlap env.spacetype r.ar.regiontype = false)
    (hsp : splits_prev r s.done = false)
    (hp : p = region_rect_place (region_alignment r next) (region_prefsizex env r)
      (region_prefsizey env r) (region_rect_enter env r.ar) next s.remainder
      s.overlap_remainder s.quad) :
    region_rect_body env s =
      { done := { r with
            ar := region_rect_collapse (region_alignment r next)
              (region_store_size env p.ar) p.remainder p.overlap_remainder } :: s.done,
        todo := p.next, remainder := p.remainder, overlap_remainder := p.remainder,
        quad := p.quad } := by
  have ho : (region_rect_enter env r.ar).overlap = false := hov
  subst hp
  simp only [region_rect_body, hs, hsp, region_store_size_overlap,
    region_rect_place_overlap, region_rect_collapse_overlap, ho]
  simp [region_store_size_overlap, region_rect_place_overlap, ho]

theorem splits_prev_of_no_bit (r : LRegion) (done : List LRegion)
    (h : r.ar.alignment &&& RGN_SPLIT_PREV = 0) : splits_prev r done = false := by
  simp [splits_prev, h]

theorem splits_prev_of_no_prev (r : LRegion) : splits_prev r [] = false := by
  simp [splits_prev]

theorem region_rect_enter_visible (env : LayoutEnv) (ar : ARegion)
    (h : ar.flag &&& RGN_FLAG_HIDDEN = 0) :
    (region_rect_enter env ar).flag &&& RGN_FLAG_HIDDEN = 0 := by
  show flag_clear ar.flag RGN_FLAG_TOO_SMALL &&& RGN_FLAG_HIDDEN = 0
  rw [flag_clear_and_of_disjoint _ _ _ (by decide)]; exact h

theorem region_rect_enter_flag_clean (env : LayoutEnv) (ar : ARegion)
    (h : ar.flag &&& RGN_FLAG_HIDDEN = 0) :
    (region_rect_enter env ar).flag &&& (RGN_FLAG_HIDDEN ||| RGN_FLAG_TOO_SMALL) = 0 := by
  rw [and_or_eq_zero_iff]
  exact ⟨region_rect_enter_visible env ar h, flag_clear_and_self _ _⟩

theorem is_overlap_window (b : Bool) (spacetype : Nat) :
    ED_region_is_overlap b spacetype RGN_TYPE_WINDOW = false := by
  simp [ED_region_is_overlap, RGN_TYPE_WINDOW, RGN_TYPE_TOOLS, RGN_TYPE_UI,
    RGN_TYPE_TOOL_PROPS, RGN_TYPE_HEADER, RGN_TYPE_PREVIEW]

theorem place_qsplit_next_length (ar : ARegion) (next : List LRegion) (rm om : rcti)
    (q : Nat) : (place_qsplit ar next rm om q).next.length = next.length := by
  simp only [place_qsplit, mark_qsplit, apply_ite Placed.next, apply_ite List.length,
    List.length_map, ite_self]

theorem region_rect_place_next_length (al : Nat) (px py : Int) (ar : ARegion)
    (next : List LRegion) (rm om : rcti) (q : Nat) :
    (region_rect_place al px py ar next rm om q).next.length = next.length := by
  simp only [region_rect_place, place_top_bottom, place_left_right, place_split,
    apply_ite Placed.next, apply_ite List.length, place_qsplit_next_length, ite_self]

theorem region_rect_body_todo (env : LayoutEnv) (s : LayoutState) (r : LRegion)
    (next : List LRegion) (hs : s.todo = r :: next) :
    (region_rect_body env s).todo
      = (region_rect_place (region_alignment r next) (region_prefsizex env r)
          (region_prefsizey env r) (region_rect_enter env r.ar) next
          (if splits_prev r s.done then prev_winrct s.remainder s.done else s.remainder)
          s.overlap_remainder s.quad).next := by
  simp only [region_rect_body, hs]

theorem region_rect_body_todo_length (env : LayoutEnv) (s : LayoutState) :
    (region_rect_body env s).todo.length = s.todo.length - 1 := by
  cases hs : s.todo with
  | nil => simp [region_rect_body, hs]
  | cons r next =>
    rw [region_rect_body_todo env s r next hs, region_rect_place_next_length]
    simp

/-- The recursion runs the activation once per region of the list. -/
theorem region_rect_recursive_eq_iterate (env : LayoutEnv) (s : LayoutState) :
    region_rect_recursive env s = (region_rect_body env)^[s.todo.length] s := by
  generalize hn : s.todo.length = n
  induction n generalizing s with
  | zero =>
    rw [region_rect_recursive_nil env s (List.length_eq_zero.mp hn)]
    rfl
  | succ n ih =>
    have hne : s.todo ≠ [] := by
      intro h
      rw [h] at hn
      cases hn
    rw [region_rect_recursive_cons env s hne, Function.iterate_succ_apply]
    apply ih
    rw [region_rect_body_todo_length, hn]
    rfl

/-- The recursion returns with the whole list consumed. -/
theorem region_rect_recursive_todo (env : LayoutEnv) (s : LayoutState) :
    (region_rect_recursive env s).todo = [] := by
  generalize hn : s.todo.length = n
  induction n generalizing s with
  | zero =>
    rw [region_rect_recursive_nil env s (List.length_eq_zero.mp hn)]
    exact List.length_eq_zero.mp hn
  | succ n ih =>
    have hne : s.todo ≠ [] := by
      intro h
      rw [h] at hn
      cases hn
    rw [region_rect_recursive_cons env s hne]
    apply ih
    rw [region_rect_body_todo_length, hn]
    rfl

/-! ## Region layout: the number of regions -/

theorem set_prev_winrct_length (w : rcti) (l : List LRegion) :
    (set_prev_winrct w l).length = l.length := by
  cases l <;> rfl

theorem update_prev_size_length (l : List LRegion) : (update_prev_size l).length = l.length := by
  cases l <;> rfl

/-- One activation moves one region to the list of the regions done. -/
theorem region_rect_body_done_length (env : LayoutEnv) (s : LayoutState) (h : s.todo ≠ []) :
    (region_rect_body env s).done.length = s.done.length + 1 := by
  obtain ⟨r, next, hs⟩ := List.exists_cons_of_ne_nil h
  simp only [region_rect_body, hs, List.length_cons, apply_ite List.length,
    update_prev_size_length, set_prev_winrct_length, ite_self]

/-- The layout pass returns as many regions as it was given. -/
theorem region_rect_recursive_done_length (env : LayoutEnv) (s : LayoutState) :
    (region_rect_recursive env s).done.length = s.done.length + s.todo.length := by
  generalize hn : s.todo.length = n
  induction n generalizing s with
  | zero =>
    rw [region_rect_recursive_nil env s (List.length_eq_zero.mp hn)]
    rfl
  | succ n ih =>
    have hne : s.todo ≠ [] := by
      intro h0
      rw [h0] at hn
      exact absurd hn (by simp)
    rw [region_rect_recursive_cons env s hne, ih (region_rect_body env s)
      (by rw [region_rect_body_todo_length, hn]; rfl), region_rect_body_done_length env s hne]
    omega

theorem layout_regions_length (env : LayoutEnv) (totrct : rcti) (regions : List LRegion) :
    (layout_regions env totrct regions).length = regions.length := by
  unfold layout_regions
  rw [List.length_map, List.length_reverse, region_rect_recursive_done_length]
  simp [layout_start]

/-! ## Region layout: the alignment chain case by case -/

theorem rct_fits_v (r : rcti) (size : Int) : rct_fits r 'v' size = r.ymax - r.ymin + 1 - size := by
  simp [rct_fits, BLI_rcti_size_y]

theorem rct_fits_h (r : rcti) (size : Int) : rct_fits r 'h' size = r.xmax - r.xmin + 1 - size := by
  simp [rct_fits, BLI_rcti_size_x]

theorem region_rect_place_hidden (al : Nat) (px py : Int) (ar : ARegion) (next : List LRegion)
    (rm om : rcti) (q : Nat) (hhid : ar.flag &&& RGN_FLAG_HIDDEN ≠ 0) :
    region_rect_place al px py ar next rm om q
      = { ar := ar, next := next, remainder := rm, overlap_remainder := om, quad := q } := by
  simp [region_rect_place, hhid]

theorem region_rect_place_too_small (al : Nat) (px py : Int) (ar : ARegion)
    (next : List LRegion) (rm om : rcti) (q : Nat) (hvis : ar.flag &&& RGN_FLAG_HIDDEN = 0)
    (hal : al ≠ RGN_ALIGN_FLOAT) (hfit : rm.ymax < rm.ymin ∨ rm.xmax < rm.xmin) :
    region_rect_place al px py ar next rm om q
      = { ar := { ar with flag := ar.flag ||| RGN_FLAG_TOO_SMALL }, next := next,
          remainder := rm, overlap_remainder := om, quad := q } := by
  unfold region_rect_place
  rw [if_neg (fun h => h hvis), if_neg hal, if_pos (by rw [rct_fits_v, rct_fits_h]; omega)]

theorem region_rect_place_none (px py : Int) (ar : ARegion) (next : List LRegion)
    (rm om : rcti) (q : Nat) (hvis : ar.flag &&& RGN_FLAG_HIDDEN = 0)
    (hfit : rm.ymin ≤ rm.ymax ∧ rm.xmin ≤ rm.xmax) :
    region_rect_place RGN_ALIGN_NONE px py ar next rm om q
      = { ar := { ar with winrct := rm }, next := next, remainder := rcti_zero,
          overlap_remainder := om, quad := q } := by
  unfold region_rect_place
  rw [if_neg (fun h => h hvis), if_neg (by decide),
    if_neg (by rw [rct_fits_v, rct_fits_h]; omega), if_pos rfl]

theorem region_rect_place_top (px py : Int) (ar : ARegion) (next : List LRegion)
    (rm om : rcti) (q : Nat) (hvis : ar.flag &&& RGN_FLAG_HIDDEN = 0)
    (hov : ar.overlap = false) (hfit : rm.ymin ≤ rm.ymax ∧ rm.xmin ≤ rm.xmax)
    (hpref : py ≤ rm.ymax - rm.ymin + 1) :
    region_rect_place RGN_ALIGN_TOP px py ar next rm om q
      = { ar := { ar with winrct := { rm with ymin := rm.ymax - py + 1 } }, next := next,
          remainder := { rm with ymax := rm.ymax - py + 1 - 1 }, overlap_remainder := om,
          quad := q } := by
  have h2 : ¬(rm.ymax - rm.ymin + 1 - py < 0) := by omega
  unfold region_rect_place
  rw [if_neg (fun h => h hvis), if_neg (by decide),
    if_neg (by rw [rct_fits_v, rct_fits_h]; omega), if_neg (by decide), if_pos (Or.inl rfl)]
  simp only [place_top_bottom, hov, Bool.false_eq_true, if_false, rct_fits_v, h2, store_winrct,
    if_true]

theorem region_rect_place_bottom (px py : Int) (ar : ARegion) (next : List LRegion)
    (rm om : rcti) (q : Nat) (hvis : ar.flag &&& RGN_FLAG_HIDDEN = 0)
    (hov : ar.overlap = false) (hfit : rm.ymin ≤ rm.ymax ∧ rm.xmin ≤ rm.xmax)
    (hpref : py ≤ rm.ymax - rm.ymin + 1) :
    region_rect_place RGN_ALIGN_BOTTOM px py ar next rm om q
      = { ar := { ar with winrct := { rm with ymax := rm.ymin + py - 1 } }, next := next,
          remainder := { rm with ymin := rm.ymin + py - 1 + 1 }, overlap_remainder := om,
          quad := q } := by
  have h2 : ¬(rm.ymax - rm.ymin + 1 - py < 0) := by omega
  have h3 : ¬(RGN_ALIGN_BOTTOM = RGN_ALIGN_TOP) := by decide
  unfold region_rect_place
  rw [if_neg (fun h => h hvis), if_neg (by decide),
    if_neg (by rw [rct_fits_v, rct_fits_h]; omega), if_neg (by decide), if_pos (Or.inr rfl)]
  simp only [place_top_bottom, hov, Bool.false_eq_true, if_false, rct_fits_v, h2, h3,
    store_winrct, if_true]

theorem region_rect_place_left (px py : Int) (ar : ARegion) (next : List LRegion)
    (rm om : rcti) (q : Nat) (hvis : ar.flag &&& RGN_FLAG_HIDDEN = 0)
    (hov : ar.overlap = false) (hfit : rm.ymin ≤ rm.ymax ∧ rm.xmin ≤ rm.xmax)
    (hpref : px ≤ rm.xmax - rm.xmin + 1) :
    region_rect_place RGN_ALIGN_LEFT px py ar next rm om q
      = { ar := { ar with winrct := { rm with xmax := rm.xmin + px - 1 } }, next := next,
          remainder := { rm with xmin := rm.xmin + px - 1 + 1 }, overlap_remainder := om,
          quad := q } := by
  have h2 : ¬(rm.xmax - rm.xmin + 1 - px < 0) := by omega
  have h3 : ¬(RGN_ALIGN_LEFT = RGN_ALIGN_RIGHT) := by decide
  unfold region_rect_place
  rw [if_neg (fun h => h hvis), if_neg (by decide),
    if_neg (by rw [rct_fits_v, rct_fits_h]; omega), if_neg (by decide), if_neg (by decide),
    if_pos (Or.inl rfl)]
  simp only [place_left_right, hov, Bool.false_eq_true, if_false, rct_fits_h, h2, h3,
    store_winrct, if_true]

theorem region_rect_place_right (px py : Int) (ar : ARegion) (next : List LRegion)
    (rm om : rcti) (q : Nat) (hvis : ar.flag &&& RGN_FLAG_HIDDEN = 0)
    (hov : ar.overlap = false) (hfit : rm.ymin ≤ rm.ymax ∧ rm.xmin ≤ rm.xmax)
    (hpref : px ≤ rm.xmax - rm.xmin + 1) :
    region_rect_place RGN_ALIGN_RIGHT px py ar next rm om q
      = { ar := { ar with winrct := { rm with xmin := rm.xmax - px + 1 } }, next := next,
          remainder := { rm with xmax := rm.xmax - px + 1 - 1 }, overlap_remainder := om,
          quad := q } := by
  have h2 : ¬(rm.xmax - rm.xmin + 1 - px < 0) := by omega
  unfold region_rect_place
  rw [if_neg (fun h => h hvis), if_neg (by decide),
    if_neg (by rw [rct_fits_v, rct_fits_h]; omega), if_neg (by decide), if_neg (by decide),
    if_pos (Or.inr rfl)]
  simp only [place_left_right, hov, Bool.false_eq_true, if_false, rct_fits_h, h2,
    store_winrct, if_true]

/-- A top or bottom region whose preferred height exceeds the room left is
flagged too-small and claims nothing. -/
theorem region_rect_place_top_bottom_small (al : Nat) (px py : Int) (ar : ARegion)
    (next : List LRegion) (rm om : rcti) (q : Nat) (hvis : ar.flag &&& RGN_FLAG_HIDDEN = 0)
    (hov : ar.overlap = false) (hfit : rm.ymin ≤ rm.ymax ∧ rm.xmin ≤ rm.xmax)
    (hal : al = RGN_ALIGN_TOP ∨ al = RGN_ALIGN_BOTTOM)
    (hpref : rm.ymax - rm.ymin + 1 < py) :
    region_rect_place al px py ar next rm om q
      = { ar := { ar with flag := ar.flag ||| RGN_FLAG_TOO_SMALL }, next := next,
          remainder := rm, overlap_remainder := om, quad := q } := by
  have h2 : rm.ymax - rm.ymin + 1 - py < 0 := by omega
  unfold region_rect_place
  rw [if_neg (fun h => h hvis), if_neg (by rcases hal with rfl | rfl <;> decide),
    if_neg (by rw [rct_fits_v, rct_fits_h]; omega),
    if_neg (by rcases hal with rfl | rfl <;> decide), if_pos hal]
  simp only [place_top_bottom, hov, Bool.false_eq_true, if_false, rct_fits_v, h2, if_true]

/-- A left or right region whose preferred width exceeds the room left is
flagged too-small and claims nothing. -/
theorem region_rect_place_left_right_small (al : Nat) (px py : Int) (ar : ARegion)
    (next : List LRegion) (rm om : rcti) (q : Nat) (hvis : ar.flag &&& RGN_FLAG_HIDDEN = 0)
    (hov : ar.overlap = false) (hfit : rm.ymin ≤ rm.ymax ∧ rm.xmin ≤ rm.xmax)
    (hal : al = RGN_ALIGN_LEFT ∨ al = RGN_ALIGN_RIGHT)
    (hpref : rm.xmax - rm.xmin + 1 < px) :
    region_rect_place al px py ar next rm om q
      = { ar := { ar with flag := ar.flag ||| RGN_FLAG_TOO_SMALL }, next := next,
          remainder := rm, overlap_remainder := om, quad := q } := by
  have h2 : rm.xmax - rm.xmin + 1 - px < 0 := by omega
  unfold region_rect_place
  rw [if_neg (fun h => h hvis), if_neg (by rcases hal with rfl | rfl <;> decide),
    if_neg (by rw [rct_fits_v, rct_fits_h]; omega),
    if_neg (by rcases hal with rfl | rfl <;> decide),
    if_neg (by rcases hal with rfl | rfl <;> decide), if_pos hal]
  simp only [place_left_right, hov, Bool.false_eq_true, if_false, rct_fits_h, h2, if_true]

theorem region_rect_collapse_clean (al : Nat) (ar : ARegion) (rm om : rcti)
    (h : ar.flag &&& (RGN_FLAG_HIDDEN ||| RGN_FLAG_TOO_SMALL) = 0) :
    region_rect_collapse al ar rm om = ar := by
  simp [region_rect_collapse, h]

theorem region_rect_collapse_flag (al : Nat) (ar : ARegion) (rm om : rcti) :
    (region_rect_collapse al ar rm om).flag = ar.flag := by
  simp only [region_rect_collapse, apply_ite ARegion.flag, ite_self]

theorem region_rect_collapse_alignment (al : Nat) (ar : ARegion) (rm om : rcti) :
    (region_rect_collapse al ar rm om).alignment = ar.alignment := by
  simp only [region_rect_collapse, apply_ite ARegion.alignment, ite_self]

theorem region_alignment_last (r : LRegion)
    (h : flag_clear r.ar.alignment RGN_SPLIT_PREV ≠ RGN_ALIGN_QSPLIT) :
    region_alignment r [] = RGN_ALIGN_NONE := by
  simp [region_alignment, h]

theorem region_alignment_inner (r r2 : LRegion) (next : List LRegion) :
    region_alignment r (r2 :: next) = flag_clear r.ar.alignment RGN_SPLIT_PREV := by
  simp [region_alignment]

theorem region_alignment_qsplit (r : LRegion) (next : List LRegion)
    (h : flag_clear r.ar.alignment RGN_SPLIT_PREV = RGN_ALIGN_QSPLIT) :
    region_alignment r next = RGN_ALIGN_QSPLIT := by
  simp [region_alignment, h]

/-! ## Region layout: slices of top, bottom, left and right regions -/

theorem region_store_size_winrct (env : LayoutEnv) (ar : ARegion) :
    (region_store_size env ar).winrct = ar.winrct := rfl
theorem region_store_size_flag (env : LayoutEnv) (ar : ARegion) :
    (region_store_size env ar).flag = ar.flag := rfl
theorem region_store_size_alignment (env : LayoutEnv) (ar : ARegion) :
    (region_store_size env ar).alignment = ar.alignment := rfl

theorem or_too_small_and (f : Nat) : (f ||| RGN_FLAG_TOO_SMALL) &&& RGN_FLAG_TOO_SMALL ≠ 0 := by
  rw [or_and_self]; decide

theorem collapse_store_enter_clean (env : LayoutEnv) (al : Nat) (ar : ARegion) (w rm om : rcti)
    (hvis : ar.flag &&& RGN_FLAG_HIDDEN = 0) :
    region_rect_collapse al
        (region_store_size env { region_rect_enter env ar with winrct := w }) rm om
      = region_store_size env { region_rect_enter env ar with winrct := w } :=
  region_rect_collapse_clean _ _ _ _ (region_rect_enter_flag_clean env ar hvis)

theorem slice_height_placed (env : LayoutEnv) (ar : ARegion) (w : rcti) :
    slice_height (region_store_size env { region_rect_enter env ar with winrct := w })
      = if region_align ar = RGN_ALIGN_TOP ∨ region_align ar = RGN_ALIGN_BOTTOM then
          w.ymax - w.ymin + 1
        else 0 := by
  have hTS : (region_rect_enter env ar).flag &&& RGN_FLAG_TOO_SMALL = 0 :=
    flag_clear_and_self _ _
  have ha : region_align (region_store_size env { region_rect_enter env ar with winrct := w })
      = region_align ar := rfl
  unfold slice_height
  rw [ha]
  simp only [region_store_size_flag, region_store_size_winrct, hTS, and_true, BLI_rcti_size_y]

theorem slice_width_placed (env : LayoutEnv) (ar : ARegion) (w : rcti) :
    slice_width (region_store_size env { region_rect_enter env ar with winrct := w })
      = if region_align ar = RGN_ALIGN_LEFT ∨ region_align ar = RGN_ALIGN_RIGHT then
          w.xmax - w.xmin + 1
        else 0 := by
  have hTS : (region_rect_enter env ar).flag &&& RGN_FLAG_TOO_SMALL = 0 :=
    flag_clear_and_self _ _
  have ha : region_align (region_store_size env { region_rect_enter env ar with winrct := w })
      = region_align ar := rfl
  unfold slice_width
  rw [ha]
  simp only [region_store_size_flag, region_store_size_winrct, hTS, and_true, BLI_rcti_size_x]

theorem slice_height_too_small (env : LayoutEnv) (al : Nat) (ar : ARegion) (rm om : rcti) :
    slice_height (region_rect_collapse al
      (region_store_size env { ar with flag := ar.flag ||| RGN_FLAG_TOO_SMALL }) rm om) = 0 := by
  simp only [slice_height, region_rect_collapse_flag, region_store_size_flag,
    or_too_small_and, and_false, if_false]

theorem slice_width_too_small (env : LayoutEnv) (al : Nat) (ar : ARegion) (rm om : rcti) :
    slice_width (region_rect_collapse al
      (region_store_size env { ar with flag := ar.flag ||| RGN_FLAG_TOO_SMALL }) rm om) = 0 := by
  simp only [slice_width, region_rect_collapse_flag, region_store_size_flag,
    or_too_small_and, and_false, if_false]

theorem slice_step (env : LayoutEnv) (s : LayoutState) (r : LRegion) (next : List LRegion)
    (hs : s.todo = r :: next) (hr : plain_slice_region env r)
    (hH : s.remainder.ymin ≤ s.remainder.ymax + 1)
    (hW : s.remainder.xmin ≤ s.remainder.xmax + 1) :
    ∃ r' : LRegion, ∃ rem : rcti,
      region_rect_body env s = { done := r' :: s.done, todo := next, remainder := rem,
                                 overlap_remainder := rem, quad := s.quad } ∧
      (next ≠ [] → rem.ymin ≤ rem.ymax + 1 ∧ rem.xmin ≤ rem.xmax + 1 ∧
        slice_height r'.ar + (rem.ymax - rem.ymin + 1)
          = s.remainder.ymax - s.remainder.ymin + 1 ∧
        slice_width r'.ar + (rem.xmax - rem.xmin + 1)
          = s.remainder.xmax - s.remainder.xmin + 1) ∧
      (next = [] →
        0 ≤ slice_height r'.ar ∧ slice_height r'.ar ≤ s.remainder.ymax - s.remainder.ymin + 1 ∧
        0 ≤ slice_width r'.ar ∧ slice_width r'.ar ≤ s.remainder.xmax - s.remainder.xmin + 1) := by
  obtain ⟨⟨hvis, hov, hal⟩, hsp⟩ := hr
  have hbody := region_rect_body_plain env s r next _ hs hov (splits_prev_of_no_bit _ _ hsp) rfl
  have hvis' := region_rect_enter_visible env r.ar hvis
  have hov' : (region_rect_enter env r.ar).overlap = false := hov
  have hne : flag_clear r.ar.alignment RGN_SPLIT_PREV ≠ RGN_ALIGN_QSPLIT := by
    unfold region_align at hal
    rcases hal with h | h | h | h <;> rw [h] <;> decide
  have hnf : flag_clear r.ar.alignment RGN_SPLIT_PREV ≠ RGN_ALIGN_FLOAT := by
    unfold region_align at hal
    rcases hal with h | h | h | h <;> rw [h] <;> decide
  by_cases hfit : s.remainder.ymin ≤ s.remainder.ymax ∧ s.remainder.xmin ≤ s.remainder.xmax
  · cases next with
    | nil =>
      rw [region_alignment_last r hne,
        region_rect_place_none _ _ _ _ _ _ _ hvis' hfit] at hbody
      simp only [collapse_store_enter_clean _ _ _ _ _ _ hvis] at hbody
      refine ⟨_, _, hbody, fun h => absurd rfl h, fun _ => ?_⟩
      simp only [slice_height_placed, slice_width_placed]
      split_ifs <;> omega
    | cons r2 n2 =>
      rw [region_alignment_inner] at hbody
      rcases hal with h | h | h | h
      · have h' : flag_clear r.ar.alignment RGN_SPLIT_PREV = RGN_ALIGN_TOP := h
        by_cases hp : region_prefsizey env r ≤ s.remainder.ymax - s.remainder.ymin + 1
        · rw [h', region_rect_place_top _ _ _ _ _ _ _ hvis' hov' hfit hp] at hbody
          simp only [collapse_store_enter_clean _ _ _ _ _ _ hvis] at hbody
          refine ⟨_, _, hbody, fun _ => ?_, fun h0 => by cases h0⟩
          simp only [slice_height_placed, slice_width_placed, h]
          simp only [RGN_ALIGN_TOP, RGN_ALIGN_BOTTOM, RGN_ALIGN_LEFT, RGN_ALIGN_RIGHT]
          simp
          omega
        · rw [region_rect_place_top_bottom_small _ _ _ _ _ _ _ _ hvis' hov' hfit
            (Or.inl h') (by omega)] at hbody
          refine ⟨_, _, hbody, fun _ => ?_, fun h0 => by cases h0⟩
          simp only [slice_height_too_small, slice_width_too_small]
          omega
      · have h' : flag_clear r.ar.alignment RGN_SPLIT_PREV = RGN_ALIGN_BOTTOM := h
        by_cases hp : region_prefsizey env r ≤ s.remainder.ymax - s.remainder.ymin + 1
        · rw [h', region_rect_place_bottom _ _ _ _ _ _ _ hvis' hov' hfit hp] at hbody
          simp only [collapse_store_enter_clean _ _ _ _ _ _ hvis] at hbody
          refine ⟨_, _, hbody, fun _ => ?_, fun h0 => by cases h0⟩
          simp only [slice_height_placed, slice_width_placed, h]
          simp only [RGN_ALIGN_TOP, RGN_ALIGN_BOTTOM, RGN_ALIGN_LEFT, RGN_ALIGN_RIGHT]
          simp
          omega
        · rw [region_rect_place_top_bottom_small _ _ _ _ _ _ _ _ hvis' hov' hfit
            (Or.inr h') (by omega)] at hbody
          refine ⟨_, _, hbody, fun _ => ?_, fun h0 => by cases h0⟩
          simp only [slice_height_too_small, slice_width_too_small]
          omega
      · have h' : flag_clear r.ar.alignment RGN_SPLIT_PREV = RGN_ALIGN_LEFT := h
        by_cases hp : region_prefsizex env r ≤ s.remainder.xmax - s.remainder.xmin + 1
        · rw [h', region_rect_place_left _ _ _ _ _ _ _ hvis' hov' hfit hp] at hbody
          simp only [collapse_store_enter_clean _ _ _ _ _ _ hvis] at hbody
          refine ⟨_, _, hbody, fun _ => ?_, fun h0 => by cases h0⟩
          simp only [slice_height_placed, slice_width_placed, h]
          simp only [RGN_ALIGN_TOP, RGN_ALIGN_BOTTOM, RGN_ALIGN_LEFT, RGN_ALIGN_RIGHT]
          simp
          omega
        · rw [region_rect_place_left_right_small _ _ _ _ _ _ _ _ hvis' hov' hfit
            (Or.inl h') (by omega)] at hbody
          refine ⟨_, _, hbody, fun _ => ?_, fun h0 => by cases h0⟩
          simp only [slice_height_too_small, slice_width_too_small]
          omega
      · have h' : flag_clear r.ar.alignment RGN_SPLIT_PREV = RGN_ALIGN_RIGHT := h
        by_cases hp : region_prefsizex env r ≤ s.remainder.xmax - s.remainder.xmin + 1
        · rw [h', region_rect_place_right _ _ _ _ _ _ _ hvis' hov' hfit hp] at hbody
          simp only [collapse_store_enter_clean _ _ _ _ _ _ hvis] at hbody
          refine ⟨_, _, hbody, fun _ => ?_, fun h0 => by cases h0⟩
          simp only [slice_height_placed, slice_width_placed, h]
          simp only [RGN_ALIGN_TOP, RGN_ALIGN_BOTTOM, RGN_ALIGN_LEFT, RGN_ALIGN_RIGHT]
          simp
          omega
        · rw [region_rect_place_left_right_small _ _ _ _ _ _ _ _ hvis' hov' hfit
            (Or.inr h') (by omega)] at hbody
          refine ⟨_, _, hbody, fun _ => ?_, fun h0 => by cases h0⟩
          simp only [slice_height_too_small, slice_width_too_small]
          omega
  · -- remainder too small for any usage
    have hal2 : region_alignment r next ≠ RGN_ALIGN_FLOAT := by
      cases next with
      | nil => rw [region_alignment_last r hne]; decide
      | cons r2 n2 => rw [region_alignment_inner]; exact hnf
    rw [region_rect_place_too_small _ _ _ _ _ _ _ _ hvis' hal2 (by omega)] at hbody
    refine ⟨_, _, hbody, fun _ => ?_, fun _ => ?_⟩
    · simp only [slice_height_too_small, slice_width_too_small]
      omega
    · simp only [slice_height_too_small, slice_width_too_small]
      omega

theorem slice_heights_cons (a : ARegion) (l : List ARegion) :
    slice_heights (a :: l) = slice_height a + slice_heights l := by
  simp [slice_heights]

theorem slice_widths_cons (a : ARegion) (l : List ARegion) :
    slice_widths (a :: l) = slice_width a + slice_widths l := by
  simp [slice_widths]

theorem slice_heights_reverse (l : List ARegion) :
    slice_heights l.reverse = slice_heights l := by
  simp [slice_heights, List.sum_reverse]

theorem slice_widths_reverse (l : List ARegion) :
    slice_widths l.reverse = slice_widths l := by
  simp [slice_widths, List.sum_reverse]

theorem slices_invariant (env : LayoutEnv) (H W : Int) (todo : List LRegion) :
    ∀ s : LayoutState, s.todo = todo → (∀ r ∈ todo, plain_slice_region env r) →
      (todo ≠ [] → s.remainder.ymin ≤ s.remainder.ymax + 1 ∧
        s.remainder.xmin ≤ s.remainder.xmax + 1 ∧
        slice_heights (s.done.map LRegion.ar) + (s.remainder.ymax - s.remainder.ymin + 1) ≤ H ∧
        slice_widths (s.done.map LRegion.ar) + (s.remainder.xmax - s.remainder.xmin + 1) ≤ W) →
      (todo = [] → slice_heights (s.done.map LRegion.ar) ≤ H ∧
        slice_widths (s.done.map LRegion.ar) ≤ W ∧
        slice_heights (s.done.tail.map LRegion.ar) ≤ H ∧
        slice_widths (s.done.tail.map LRegion.ar) ≤ W) →
      slice_heights ((region_rect_recursive env s).done.map LRegion.ar) ≤ H ∧
      slice_widths ((region_rect_recursive env s).done.map LRegion.ar) ≤ W ∧
      slice_heights ((region_rect_recursive env s).done.tail.map LRegion.ar) ≤ H ∧
      slice_widths ((region_rect_recursive env s).done.tail.map LRegion.ar) ≤ W := by
  induction todo with
  | nil =>
    intro s hs _ _ hend
    rw [region_rect_recursive_nil env s hs]
    exact hend rfl
  | cons r next ih =>
    intro s hs hall hrun _
    obtain ⟨hH, hW, hsumH, hsumW⟩ := hrun (by simp)
    obtain ⟨r', rem, hbody, hmid, hlast⟩ :=
      slice_step env s r next hs (hall r (List.mem_cons_self _ _)) hH hW
    rw [region_rect_recursive_cons env s (by rw [hs]; simp), hbody]
    apply ih _ rfl (fun x hx => hall x (List.mem_cons_of_mem _ hx))
    · intro hne
      obtain ⟨h1, h2, h3, h4⟩ := hmid hne
      simp only [List.map_cons, slice_heights_cons, slice_widths_cons]
      refine ⟨h1, h2, ?_, ?_⟩ <;> omega
    · intro hnil
      obtain ⟨h1, h2, h3, h4⟩ := hlast hnil
      simp only [List.map_cons, slice_heights_cons, slice_widths_cons, List.tail_cons]
      refine ⟨?_, ?_, ?_, ?_⟩ <;> omega

/-! ## Region layout: reaching the last region -/

theorem region_rect_place_next (al : Nat) (px py : Int) (ar : ARegion)
    (next : List LRegion) (rm om : rcti) (q : Nat) (hal : al ≠ RGN_ALIGN_QSPLIT) :
    (region_rect_place al px py ar next rm om q).next = next := by
  simp only [region_rect_place, place_top_bottom, place_left_right, place_split,
    apply_ite Placed.next, if_neg hal, ite_self]

theorem region_align_ne_qsplit (env : LayoutEnv) (r : LRegion) (h : slice_region env r) :
    flag_clear r.ar.alignment RGN_SPLIT_PREV ≠ RGN_ALIGN_QSPLIT := by
  obtain ⟨_, _, hal⟩ := h
  unfold region_align at hal
  rcases hal with h | h | h | h <;> rw [h] <;> decide

/-- Activations for regions that are not quad-split leave the rest of the
list as it is. -/
theorem layout_todo_after (env : LayoutEnv) (pre : List LRegion) :
    ∀ (s : LayoutState) (rest : List LRegion), s.todo = pre ++ rest → rest ≠ [] →
      (∀ r ∈ pre, flag_clear r.ar.alignment RGN_SPLIT_PREV ≠ RGN_ALIGN_QSPLIT) →
      ((region_rect_body env)^[pre.length] s).todo = rest := by
  induction pre with
  | nil =>
    intro s rest hs _ _
    exact hs
  | cons r pre ih =>
    intro s rest hs hrest hall
    have hs' : s.todo = r :: (pre ++ rest) := hs
    have hnext : pre ++ rest ≠ [] := by simp [hrest]
    have hal : region_alignment r (pre ++ rest) ≠ RGN_ALIGN_QSPLIT := by
      obtain ⟨x, xs, hx⟩ := List.exists_cons_of_ne_nil hnext
      rw [hx, region_alignment_inner]
      exact hall r (List.mem_cons_self _ _)
    have htodo : (region_rect_body env s).todo = pre ++ rest := by
      rw [region_rect_body_todo env s r _ hs', region_rect_place_next _ _ _ _ _ _ _ _ hal]
    rw [List.length_cons, Function.iterate_succ_apply]
    exact ih (region_rect_body env s) rest htodo hrest
      (fun x hx => hall x (List.mem_cons_of_mem _ hx))

/-- The recursion is the activation for the last region applied to the state
reached after the activations for the regions before it. -/
theorem region_rect_recursive_snoc (env : LayoutEnv) (totrct : rcti) (pre : List LRegion)
    (last : LRegion) :
    region_rect_recursive env (layout_start totrct (pre ++ [last]))
      = region_rect_body env (layout_state_at env totrct (pre ++ [last]) pre.length) := by
  rw [region_rect_recursive_eq_iterate]
  show (region_rect_body env)^[(pre ++ [last]).length] _ = _
  rw [List.length_append, List.length_singleton, Function.iterate_succ_apply']
  rfl

/-! ## Region layout: quad split -/

theorem region_rect_place_qsplit (px py : Int) (ar : ARegion) (next : List LRegion)
    (rm om : rcti) (q : Nat) (hvis : ar.flag &&& RGN_FLAG_HIDDEN = 0)
    (hfit : rm.ymin ≤ rm.ymax ∧ rm.xmin ≤ rm.xmax) :
    region_rect_place RGN_ALIGN_QSPLIT px py ar next rm om q
      = place_qsplit ar next rm om q := by
  unfold region_rect_place
  rw [if_neg (fun h => h hvis), if_neg (by decide),
    if_neg (by rw [rct_fits_v, rct_fits_h]; omega), if_neg (by decide), if_neg (by decide),
    if_neg (by decide), if_neg (by decide), if_pos rfl]

theorem place_qsplit_flag (ar : ARegion) (next : List LRegion) (rm om : rcti) (q : Nat) :
    (place_qsplit ar next rm om q).ar.flag = ar.flag := by
  simp only [place_qsplit, apply_ite Placed.ar, apply_ite ARegion.flag, ite_self]

/-- One activation for a visible quad-split region that is not
overlap-eligible, on a remainder of at least one pixel. -/
theorem region_rect_body_qsplit (env : LayoutEnv) (s : LayoutState) (r : LRegion)
    (next : List LRegion) (p : Placed) (hs : s.todo = r :: next)
    (hvis : r.ar.flag &&& RGN_FLAG_HIDDEN = 0)
    (hov : ED_region_is_overlap env.user_region_overlap env.spacetype r.ar.regiontype = false)
    (hal : region_align r.ar = RGN_ALIGN_QSPLIT)
    (hsp : splits_prev r s.done = false)
    (hfit : s.remainder.ymin ≤ s.remainder.ymax ∧ s.remainder.xmin ≤ s.remainder.xmax)
    (hp : p = place_qsplit (region_rect_enter env r.ar) next s.remainder
                s.overlap_remainder s.quad) :
    region_rect_body env s =
      { done := { r with ar := region_store_size env p.ar } :: s.done,
        todo := p.next, remainder := p.remainder, overlap_remainder := p.remainder,
        quad := p.quad } := by
  have hbody := region_rect_body_plain env s r next _ hs hov hsp rfl
  rw [region_alignment_qsplit r next hal,
    region_rect_place_qsplit _ _ _ _ _ _ _ (region_rect_enter_visible env _ hvis) hfit] at hbody
  subst hp
  rw [hbody, region_rect_collapse_clean]
  rw [region_store_size_flag, place_qsplit_flag]
  exact region_rect_enter_flag_clean env _ hvis

theorem place_qsplit_start (ar : ARegion) (next : List LRegion) (rm om : rcti)
    (hlen : next.length = 3) :
    place_qsplit ar next rm om 0
      = { ar := { ar with winrct := quad_winrct 1 rm rm }, next := mark_qsplit next,
          remainder := rm, overlap_remainder := om, quad := 2 } := by
  simp [place_qsplit, hlen]

theorem place_qsplit_stop (ar : ARegion) (next : List LRegion) (rm om : rcti)
    (hlen : next.length ≠ 3) :
    place_qsplit ar next rm om 0
      = { ar := { ar with winrct := rm }, next := mark_qsplit next,
          remainder := rcti_zero, overlap_remainder := om, quad := 0 } := by
  have h : ¬(1 + next.length = 4) := by omega
  simp [place_qsplit, h]

theorem place_qsplit_second (ar : ARegion) (next : List LRegion) (rm om : rcti) :
    place_qsplit ar next rm om 2
      = { ar := { ar with winrct := quad_winrct 2 rm rm }, next := next,
          remainder := rm, overlap_remainder := om, quad := 3 } := by
  simp [place_qsplit]

theorem place_qsplit_third (ar : ARegion) (next : List LRegion) (rm om : rcti) :
    place_qsplit ar next rm om 3
      = { ar := { ar with winrct := quad_winrct 3 rm rm }, next := next,
          remainder := rm, overlap_remainder := om, quad := 4 } := by
  simp [place_qsplit]

theorem place_qsplit_fourth (ar : ARegion) (next : List LRegion) (rm om : rcti) :
    place_qsplit ar next rm om 4
      = { ar := { ar with winrct := quad_winrct 4 rm rm }, next := next,
          remainder := rcti_zero, overlap_remainder := om, quad := 5 } := by
  simp [place_qsplit]

theorem set_qsplit_align (r : LRegion) : region_align (set_qsplit r).ar = RGN_ALIGN_QSPLIT := by
  show flag_clear RGN_ALIGN_QSPLIT RGN_SPLIT_PREV = RGN_ALIGN_QSPLIT
  decide

theorem set_qsplit_splits_prev (r : LRegion) (l : List LRegion) :
    splits_prev (set_qsplit r) l = false :=
  splits_prev_of_no_bit _ _ (by show RGN_ALIGN_QSPLIT &&& RGN_SPLIT_PREV = 0; decide)

/-- The same with the state spelled out. -/
theorem region_rect_body_qsplit_mk (env : LayoutEnv) (done : List LRegion) (r : LRegion)
    (next : List LRegion) (rm om : rcti) (q : Nat)
    (hvis : r.ar.flag &&& RGN_FLAG_HIDDEN = 0)
    (hov : ED_region_is_overlap env.user_region_overlap env.spacetype r.ar.regiontype = false)
    (hal : region_align r.ar = RGN_ALIGN_QSPLIT)
    (hsp : splits_prev r done = false)
    (hfit : rm.ymin ≤ rm.ymax ∧ rm.xmin ≤ rm.xmax) :
    region_rect_body env
        { done := done, todo := r :: next, remainder := rm, overlap_remainder := om, quad := q }
      = { done := { r with
            ar := region_store_size env
              (place_qsplit (region_rect_enter env r.ar) next rm om q).ar } :: done,
          todo := (place_qsplit (region_rect_enter env r.ar) next rm om q).next,
          remainder := (place_qsplit (region_rect_enter env r.ar) next rm om q).remainder,
          overlap_remainder :=
            (place_qsplit (region_rect_enter env r.ar) next rm om q).remainder,
          quad := (place_qsplit (region_rect_enter env r.ar) next rm om q).quad } :=
  region_rect_body_qsplit env _ r next _ rfl hvis hov hal hsp hfit rfl

/-! ## Region layout: the overlap fix and activations without redirection -/

theorem region_overlap_scan_same_side (w : rcti) (align : Nat) (prevs : List LRegion)
    (ar1 : ARegion) (h : region_overlap_scan w align prevs = OverlapScan.same_side ar1) :
    ar1.alignment = align := by
  induction prevs with
  | nil => simp [region_overlap_scan] at h
  | cons r1 prevs ih =>
    unfold region_overlap_scan at h
    split_ifs at h with h1 h2 h3 h4
    · exact ih h
    · simp only [OverlapScan.same_side.injEq] at h
      rw [← h]
      exact not_not.mp h4
    · exact ih h
    · exact ih h

theorem region_overlap_final_winrct (prevs : List LRegion) (align : Nat) (ar : ARegion) :
    (region_overlap_final prevs align ar).winrct = ar.winrct := by
  simp only [region_overlap_final, apply_ite ARegion.winrct, ite_self]

/-- The overlap fix moves left and right regions only. -/
theorem region_overlap_fix_winrct (env : LayoutEnv) (prevs : List LRegion) (ar : ARegion)
    (hl : region_align ar ≠ RGN_ALIGN_LEFT) (hr : region_align ar ≠ RGN_ALIGN_RIGHT) :
    (region_overlap_fix env prevs ar).winrct = ar.winrct := by
  unfold region_overlap_fix
  simp only []
  split
  · rfl
  · exact region_overlap_final_winrct _ _ _
  · rename_i ar1 hscan
    have h1 := region_overlap_scan_same_side _ _ _ _ hscan
    rw [if_neg (by rw [h1]; exact hl), if_neg (by rw [h1]; exact hr)]
    exact region_overlap_final_winrct _ _ _

theorem region_overlap_final_overlap (prevs : List LRegion) (align : Nat) (ar : ARegion) :
    (region_overlap_final prevs align ar).overlap = ar.overlap := by
  simp only [region_overlap_final, apply_ite ARegion.overlap, ite_self]

theorem region_overlap_fix_overlap (env : LayoutEnv) (prevs : List LRegion) (ar : ARegion) :
    (region_overlap_fix env prevs ar).overlap = ar.overlap := by
  unfold region_overlap_fix
  simp only []
  split
  · rfl
  · exact region_overlap_final_overlap _ _ _
  · simp only [apply_ite ARegion.overlap, region_overlap_final_overlap, ite_self]

theorem region_overlap_final_alignment (prevs : List LRegion) (align : Nat) (ar : ARegion) :
    (region_overlap_final prevs align ar).alignment = ar.alignment := by
  simp only [region_overlap_final, apply_ite ARegion.alignment, ite_self]

/-- One activation for a region that does not split its predecessor. -/
theorem region_rect_body_nosplit (env : LayoutEnv) (s : LayoutState) (r : LRegion)
    (next : List LRegion) (p : Placed) (ar3 : ARegion) (hs : s.todo = r :: next)
    (hsp : splits_prev r s.done = false)
    (hp : p = region_rect_place (region_alignment r next) (region_prefsizex env r)
      (region_prefsizey env r) (region_rect_enter env r.ar) next s.remainder
      s.overlap_remainder s.quad)
    (h3 : ar3 = if (region_store_size env p.ar).overlap then
        region_overlap_fix env s.done (region_store_size env p.ar)
      else region_store_size env p.ar) :
    region_rect_body env s =
      { done := { r with
            ar := region_rect_collapse (region_alignment r next) ar3 p.remainder
              p.overlap_remainder } :: s.done,
        todo := p.next, remainder := p.remainder,
        overlap_remainder := if ar3.overlap then p.overlap_remainder else p.remainder,
        quad := p.quad } := by
  subst hp h3
  simp only [region_rect_body, hs, hsp, region_rect_collapse_overlap]
  simp
theorem region_overlap_final_flag (prevs : List LRegion) (align : Nat) (ar : ARegion) :
    (region_overlap_final prevs align ar).flag = ar.flag ∨
    (region_overlap_final prevs align ar).flag = ar.flag ||| RGN_FLAG_TOO_SMALL := by
  unfold region_overlap_final
  split_ifs
  · exact Or.inr rfl
  · exact Or.inl rfl

/-- The overlap fix changes the flags by setting the too-small bit only. -/
theorem region_overlap_fix_flag (env : LayoutEnv) (prevs : List LRegion) (ar : ARegion) :
    (region_overlap_fix env prevs ar).flag = ar.flag ∨
    (region_overlap_fix env prevs ar).flag = ar.flag ||| RGN_FLAG_TOO_SMALL := by
  unfold region_overlap_fix
  simp only []
  split
  · exact Or.inr rfl
  · exact region_overlap_final_flag _ _ _
  · split_ifs
    · exact Or.inr rfl
    · exact region_overlap_final_flag _ _ _
    · exact Or.inr rfl
    · exact region_overlap_final_flag _ _ _
    · exact region_overlap_final_flag _ _ _

theorem place_qsplit_alignment (ar : ARegion) (next : List LRegion) (rm om : rcti) (q : Nat) :
    (place_qsplit ar next rm om q).ar.alignment = ar.alignment := by
  simp only [place_qsplit, apply_ite Placed.ar, apply_ite ARegion.alignment, ite_self]

theorem region_rect_place_alignment (al : Nat) (px py : Int) (ar : ARegion)
    (next : List LRegion) (rm om : rcti) (q : Nat) :
    (region_rect_place al px py ar next rm om q).ar.alignment = ar.alignment := by
  simp only [region_rect_place, place_top_bottom, place_left_right, place_split,
    apply_ite Placed.ar, apply_ite ARegion.alignment, place_qsplit_alignment, ite_self]

theorem place_qsplit_ar_flag (al : Nat) (px py : Int) (ar : ARegion)
    (next : List LRegion) (rm om : rcti) (q : Nat)
    (hal : al = RGN_ALIGN_QSPLIT) (hfit : rm.ymin ≤ rm.ymax ∧ rm.xmin ≤ rm.xmax) :
    (region_rect_place al px py ar next rm om q).ar.flag = ar.flag := by
  subst hal
  by_cases hvis : ar.flag &&& RGN_FLAG_HIDDEN = 0
  · rw [region_rect_place_qsplit _ _ _ _ _ _ _ hvis hfit, place_qsplit_flag]
  · rw [region_rect_place_hidden _ _ _ _ _ _ _ _ hvis]

theorem mark_qsplit_of_all (l : List LRegion)
    (h : ∀ r ∈ l, r.ar.alignment = RGN_ALIGN_QSPLIT) : mark_qsplit l = l := by
  induction l with
  | nil => rfl
  | cons r l ih =>
    have hr : set_qsplit r = r := by
      have := h r (List.mem_cons_self _ _)
      cases r with
      | mk ar tx ty =>
        cases ar
        simp only [set_qsplit] at this ⊢
        simp_all
    show set_qsplit r :: mark_qsplit l = r :: l
    rw [hr, ih (fun x hx => h x (List.mem_cons_of_mem _ hx))]

theorem cent_zero : BLI_rcti_cent_x rcti_zero = 0 ∧ BLI_rcti_cent_y rcti_zero = 0 := by
  decide

/-- On the zero remainder a quad-split region stays inside the zero rect and
leaves the remainder zero. -/
theorem place_qsplit_at_zero (ar : ARegion) (next : List LRegion) (om : rcti) (q : Nat) :
    rcti_inside_zero (place_qsplit ar next rcti_zero om q).ar.winrct ∧
    (place_qsplit ar next rcti_zero om q).remainder = rcti_zero ∧
    ((place_qsplit ar next rcti_zero om q).next = next ∨
      (place_qsplit ar next rcti_zero om q).next = mark_qsplit next) := by
  have hcx := cent_zero.1
  have hcy := cent_zero.2
  refine ⟨?_, ?_, ?_⟩
  · unfold place_qsplit
    simp only [ite_self, quad_winrct, hcx, hcy]
    intro x y
    split_ifs <;> simp only [rcti_mem, rcti_zero, BLI_rcti_init] <;> omega
  · unfold place_qsplit
    simp only [ite_self]
    split_ifs <;> rfl
  · unfold place_qsplit
    simp only [apply_ite Placed.next, ite_self]
    split_ifs
    · exact Or.inr rfl
    · exact Or.inl rfl
/-! ## Region layout: a quad split that does not find four regions -/

/-- After the remainder was collapsed: the activation for a quad-split region
on the zero remainder keeps the remainder zero and, unless the region ends
hidden or too-small, gives it a window rect inside the zero rect. -/
theorem qsplit_step_at_zero (env : LayoutEnv) (s : LayoutState) (r : LRegion)
    (next : List LRegion) (hs : s.todo = r :: next)
    (hal : r.ar.alignment = RGN_ALIGN_QSPLIT)
    (hall : ∀ x ∈ next, x.ar.alignment = RGN_ALIGN_QSPLIT)
    (hrem : s.remainder = rcti_zero) :
    ∃ (r' : LRegion) (o' : rcti) (q' : Nat),
      region_rect_body env s = { done := r' :: s.done, todo := next, remainder := rcti_zero,
                                 overlap_remainder := o', quad := q' } ∧
      (r'.ar.flag &&& (RGN_FLAG_HIDDEN ||| RGN_FLAG_TOO_SMALL) = 0 →
        rcti_inside_zero r'.ar.winrct) := by
  have hra : region_align r.ar = RGN_ALIGN_QSPLIT := by
    unfold region_align
    rw [hal]
    decide
  have hsp : splits_prev r s.done = false :=
    splits_prev_of_no_bit _ _ (by rw [hal]; decide)
  have hbody := region_rect_body_nosplit env s r next _ _ hs hsp rfl rfl
  rw [region_alignment_qsplit r next hra, hrem] at hbody
  -- the placement
  have hplace : rcti_inside_zero (region_rect_place RGN_ALIGN_QSPLIT (region_prefsizex env r)
        (region_prefsizey env r) (region_rect_enter env r.ar) next rcti_zero
        s.overlap_remainder s.quad).ar.winrct ∧
      (region_rect_place RGN_ALIGN_QSPLIT (region_prefsizex env r)
        (region_prefsizey env r) (region_rect_enter env r.ar) next rcti_zero
        s.overlap_remainder s.quad).remainder = rcti_zero ∧
      (region_rect_place RGN_ALIGN_QSPLIT (region_prefsizex env r)
        (region_prefsizey env r) (region_rect_enter env r.ar) next rcti_zero
        s.overlap_remainder s.quad).next = next := by
    by_cases hvis : (region_rect_enter env r.ar).flag &&& RGN_FLAG_HIDDEN = 0
    · rw [region_rect_place_qsplit _ _ _ _ _ _ _ hvis (by decide)]
      obtain ⟨h1, h2, h3⟩ := place_qsplit_at_zero (region_rect_enter env r.ar) next
        s.overlap_remainder s.quad
      refine ⟨h1, h2, ?_⟩
      rcases h3 with h3 | h3
      · exact h3
      · rw [h3, mark_qsplit_of_all next hall]
    · rw [region_rect_place_hidden _ _ _ _ _ _ _ _ hvis]
      refine ⟨?_, rfl, rfl⟩
      intro x y hxy
      simp only [rcti_mem, region_rect_enter, rcti_zero, BLI_rcti_init] at hxy
      omega
  obtain ⟨hin, hzero, hnext⟩ := hplace
  rw [hzero, hnext] at hbody
  refine ⟨_, _, _, hbody, ?_⟩
  intro hclean
  rw [region_rect_collapse_flag] at hclean
  rw [region_rect_collapse_clean _ _ _ _ hclean]
  have hw : ∀ a : ARegion, region_align a = RGN_ALIGN_QSPLIT →
      (if a.overlap then region_overlap_fix env s.done a else a).winrct = a.winrct := by
    intro a ha
    split_ifs
    · exact region_overlap_fix_winrct env _ _ (by rw [ha]; decide) (by rw [ha]; decide)
    · rfl
  rw [hw]
  · exact hin
  · unfold region_align
    rw [region_store_size_alignment, region_rect_place_alignment]
    exact hra

/-- Once the remainder is the zero rect and every region left is quad-split,
the remainder stays zero to the end of the list and no region that ends
neither hidden nor too-small gets a pixel other than `(0, 0)`. -/
theorem qsplit_run_at_zero (env : LayoutEnv) (todo : List LRegion) :
    ∀ s : LayoutState, s.todo = todo → (∀ x ∈ todo, x.ar.alignment = RGN_ALIGN_QSPLIT) →
      s.remainder = rcti_zero →
      (region_rect_recursive env s).remainder = rcti_zero ∧
      ∃ l : List LRegion, (region_rect_recursive env s).done = l ++ s.done ∧
        l.length = todo.length ∧
        ∀ x ∈ l, x.ar.flag &&& (RGN_FLAG_HIDDEN ||| RGN_FLAG_TOO_SMALL) = 0 →
          rcti_inside_zero x.ar.winrct := by
  induction todo with
  | nil =>
    intro s hs _ hrem
    rw [region_rect_recursive_nil env s hs]
    exact ⟨hrem, [], rfl, rfl, fun x hx => by cases hx⟩
  | cons r next ih =>
    intro s hs hall hrem
    obtain ⟨r', o', q', hbody, hr'⟩ := qsplit_step_at_zero env s r next hs
      (hall r (List.mem_cons_self _ _)) (fun x hx => hall x (List.mem_cons_of_mem _ hx)) hrem
    rw [region_rect_recursive_cons env s (by rw [hs]; simp), hbody]
    obtain ⟨hz, l, hl, hlen, hin⟩ := ih
      { done := r' :: s.done, todo := next, remainder := rcti_zero, overlap_remainder := o',
        quad := q' } rfl (fun x hx => hall x (List.mem_cons_of_mem _ hx)) rfl
    refine ⟨hz, l ++ [r'], ?_, ?_, ?_⟩
    · rw [hl]
      simp
    · simp [hlen]
    · intro x hx
      rcases List.mem_append.mp hx with h | h
      · exact hin x h
      · rw [List.mem_singleton] at h
        rw [h]
        exact hr'

theorem mark_qsplit_all (l : List LRegion) :
    ∀ x ∈ mark_qsplit l, x.ar.alignment = RGN_ALIGN_QSPLIT := by
  intro x hx
  simp only [mark_qsplit, List.mem_map] at hx
  obtain ⟨y, _, rfl⟩ := hx
  rfl

/-- The activation for the first quad-split region when the regions left are
not four: the region keeps the whole remainder and the remainder is
collapsed. -/
theorem qsplit_step_count_mismatch (env : LayoutEnv) (s : LayoutState) (r : LRegion)
    (next : List LRegion) (hs : s.todo = r :: next) (hquad : s.quad = 0)
    (hal : region_align r.ar = RGN_ALIGN_QSPLIT)
    (hsp : splits_prev r s.done = false)
    (hvis : r.ar.flag &&& RGN_FLAG_HIDDEN = 0)
    (hfit : s.remainder.xmin ≤ s.remainder.xmax ∧ s.remainder.ymin ≤ s.remainder.ymax)
    (hlen : next.length ≠ 3) :
    ∃ (r' : LRegion) (o' : rcti),
      region_rect_body env s = { done := r' :: s.done, todo := mark_qsplit next,
                                 remainder := rcti_zero, overlap_remainder := o', quad := 0 } ∧
      (r'.ar.flag &&& RGN_FLAG_TOO_SMALL = 0 → r'.ar.winrct = s.remainder) ∧
      (ED_region_is_overlap env.user_region_overlap env.spacetype r.ar.regiontype = false →
        r'.ar.flag &&& RGN_FLAG_TOO_SMALL = 0) := by
  have hvis' := region_rect_enter_visible env r.ar hvis
  have hclean := region_rect_enter_flag_clean env r.ar hvis
  have hbody := region_rect_body_nosplit env s r next _ _ hs hsp rfl rfl
  rw [region_alignment_qsplit r next hal,
    region_rect_place_qsplit _ _ _ _ _ _ _ hvis' ⟨hfit.2, hfit.1⟩, hquad,
    place_qsplit_stop _ _ _ _ hlen] at hbody
  simp only [] at hbody
  refine ⟨_, _, hbody, ?_, ?_⟩
  · intro hts
    rw [region_rect_collapse_flag] at hts
    have hflag : ∀ a : ARegion, a.flag &&& (RGN_FLAG_HIDDEN ||| RGN_FLAG_TOO_SMALL) = 0 →
        (if a.overlap then region_overlap_fix env s.done a else a).flag
            &&& RGN_FLAG_TOO_SMALL = 0 →
        (if a.overlap then region_overlap_fix env s.done a else a).flag
            &&& (RGN_FLAG_HIDDEN ||| RGN_FLAG_TOO_SMALL) = 0 := by
      intro a ha hts
      split_ifs at hts ⊢ with ho
      · rcases region_overlap_fix_flag env s.done a with h | h
        · rw [h]; exact ha
        · rw [h] at hts
          exact absurd hts (or_too_small_and _)
      · exact ha
    have hcl2 : (region_store_size env
        { region_rect_enter env r.ar with winrct := s.remainder }).flag
          &&& (RGN_FLAG_HIDDEN ||| RGN_FLAG_TOO_SMALL) = 0 := hclean
    rw [region_rect_collapse_clean _ _ _ _ (hflag _ hcl2 hts)]
    split_ifs
    · rw [region_overlap_fix_winrct env _ _ (by
          show flag_clear r.ar.alignment RGN_SPLIT_PREV ≠ RGN_ALIGN_LEFT
          unfold region_align at hal
          rw [hal]; decide) (by
          show flag_clear r.ar.alignment RGN_SPLIT_PREV ≠ RGN_ALIGN_RIGHT
          unfold region_align at hal
          rw [hal]; decide)]
      rfl
    · rfl
  · intro hov
    rw [region_rect_collapse_flag]
    have ho : (region_store_size env
        { region_rect_enter env r.ar with winrct := s.remainder }).overlap = false := hov
    rw [ho]
    exact flag_clear_and_self _ _

/-! ## The header and window scenario -/

/-- C1, as stated, fails: for the area `(0,0)-(1000,800)` with a visible,
non-overlapping top header of preferred height 30 followed by a window region
with alignment none, the header does not get `(0,770)-(1000,800)` and the
window region does not get `(0,0)-(1000,769)`: the header is 30 pixels high,
rows 771 to 800, and the window region ends at row 770. -/
theorem header_window_scenario_off_by_one :
    ED_area_headersize example_env = 30 ∧
    (layout_regions example_env { xmin := 0, ymin := 0, xmax := 1000, ymax := 800 }
        [example_header, example_window]).map ARegion.winrct
      = [{ xmin := 0, ymin := 771, xmax := 1000, ymax := 800 },
          { xmin := 0, ymin := 0, xmax := 1000, ymax := 770 }] ∧
    (layout_regions example_env { xmin := 0, ymin := 0, xmax := 1000, ymax := 800 }
        [example_header, example_window]).map ARegion.winrct
      ≠ [{ xmin := 0, ymin := 770, xmax := 1000, ymax := 800 },
          { xmin := 0, ymin := 0, xmax := 1000, ymax := 769 }] := by
  unfold layout_regions
  rw [region_rect_recursive_eq_iterate]
  decide

/-- C1, amended: for an area whose total rect is `(0,0)-(1000,800)` and whose
region list is a visible, non-overlapping header with top alignment and a
preferred height of 30 pixels followed by a visible window region with
alignment none, `region_rect_recursive` sets the header's window rect to
`xmin=0, ymin=771, xmax=1000, ymax=800` and the window region's window rect to
`xmin=0, ymin=0, xmax=1000, ymax=770`. -/
theorem header_window_scenario (env : LayoutEnv) (hdr win : LRegion)
    (hty : hdr.ar.regiontype = RGN_TYPE_HEADER) (hal : hdr.ar.alignment = RGN_ALIGN_TOP)
    (hvis : hdr.ar.flag &&& RGN_FLAG_HIDDEN = 0)
    (hov : ED_region_is_overlap env.user_region_overlap env.spacetype RGN_TYPE_HEADER = false)
    (hpref : ED_area_headersize env = 30)
    (wty : win.ar.regiontype = RGN_TYPE_WINDOW) (wal : win.ar.alignment = RGN_ALIGN_NONE)
    (wvis : win.ar.flag &&& RGN_FLAG_HIDDEN = 0) :
    (layout_regions env { xmin := 0, ymin := 0, xmax := 1000, ymax := 800 }
        [hdr, win]).map ARegion.winrct
      = [{ xmin := 0, ymin := 771, xmax := 1000, ymax := 800 },
          { xmin := 0, ymin := 0, xmax := 1000, ymax := 770 }] := by
  have hw := is_overlap_window env.user_region_overlap env.spacetype
  have ha1 : region_alignment hdr [win] = RGN_ALIGN_TOP := by
    rw [region_alignment_inner, hal]; decide
  have ha2 : region_alignment win [] = RGN_ALIGN_NONE :=
    region_alignment_last win (by rw [wal]; decide)
  have hpy : region_prefsizey env hdr = 30 := by simp [region_prefsizey, hty, hpref]
  unfold layout_regions layout_start
  rw [region_rect_recursive_cons _ _ (by simp),
    region_rect_body_plain env _ hdr [win] _ rfl (by rw [hty]; exact hov)
      (splits_prev_of_no_prev _) rfl]
  simp only [ha1, hpy]
  rw [region_rect_place_top _ _ _ _ _ _ _ (region_rect_enter_visible env _ hvis)
    (by rw [← hty] at hov; exact hov) (by decide) (by decide)]
  simp only []
  rw [region_rect_recursive_cons _ _ (by simp),
    region_rect_body_plain env _ win [] _ rfl (by rw [wty]; exact hw)
      (splits_prev_of_no_bit _ _ (by rw [wal]; decide)) rfl]
  simp only [ha2]
  rw [region_rect_place_none _ _ _ _ _ _ _ (region_rect_enter_visible env _ wvis)
    (by decide)]
  rw [region_rect_recursive_nil _ _ rfl]
  rw [region_rect_collapse_clean, region_rect_collapse_clean]
  · simp [region_store_size]
  · exact region_rect_enter_flag_clean env _ hvis
  · exact region_rect_enter_flag_clean env _ wvis

theorem header_window_scenario_witness :
    example_header.ar.regiontype = RGN_TYPE_HEADER ∧
    example_header.ar.alignment = RGN_ALIGN_TOP ∧
    example_header.ar.flag &&& RGN_FLAG_HIDDEN = 0 ∧
    ED_region_is_overlap example_env.user_region_overlap example_env.spacetype
      RGN_TYPE_HEADER = false ∧
    ED_area_headersize example_env = 30 ∧
    example_window.ar.regiontype = RGN_TYPE_WINDOW ∧
    example_window.ar.alignment = RGN_ALIGN_NONE ∧
    example_window.ar.flag &&& RGN_FLAG_HIDDEN = 0 ∧
    (layout_regions example_env { xmin := 0, ymin := 0, xmax := 1000, ymax := 800 }
        [example_header, example_window]).map ARegion.winrct
      = [{ xmin := 0, ymin := 771, xmax := 1000, ymax := 800 },
          { xmin := 0, ymin := 0, xmax := 1000, ymax := 770 }] :=
  ⟨by decide, by decide, by decide, by decide, by decide, by decide, by decide, by decide,
    header_window_scenario example_env example_header example_window (by decide) (by decide)
      (by decide) (by decide) (by decide) (by decide) (by decide) (by decide)⟩

/-! ## Slices never exceed the area -/

/-- C2: for every area total rect with `xmin <= xmax` and `ymin <= ymax` and
every list of visible, non-overlapping regions without the split-from-previous
bit whose alignments are all top, bottom, left or right, after
`region_rect_recursive` the heights of the regions placed as top or bottom
slices and not flagged too-small sum to at most the area's height
`ymax - ymin + 1`, and the widths of the left and right slices sum to at most
the area's width `xmax - xmin + 1`. The last region of the list is laid out
as none-aligned on what is left; the bounds hold both without it (the first
two inequalities) and with its rect counted as a slice (the last two). No
assumption on the preferred sizes is needed. -/
theorem slices_within_area (env : LayoutEnv) (totrct : rcti) (regions : List LRegion)
    (htot : totrct.xmin ≤ totrct.xmax ∧ totrct.ymin ≤ totrct.ymax)
    (hregions : ∀ r ∈ regions, plain_slice_region env r) :
    slice_heights (layout_regions env totrct regions).dropLast
        ≤ totrct.ymax - totrct.ymin + 1 ∧
    slice_widths (layout_regions env totrct regions).dropLast
        ≤ totrct.xmax - totrct.xmin + 1 ∧
    slice_heights (layout_regions env totrct regions) ≤ totrct.ymax - totrct.ymin + 1 ∧
    slice_widths (layout_regions env totrct regions) ≤ totrct.xmax - totrct.xmin + 1 := by
  obtain ⟨h1, h2, h3, h4⟩ := slices_invariant env (totrct.ymax - totrct.ymin + 1)
    (totrct.xmax - totrct.xmin + 1) regions (layout_start totrct regions) rfl hregions
    (fun _ => by simp [layout_start, slice_heights, slice_widths]; omega)
    (fun _ => by simp [layout_start, slice_heights, slice_widths]; omega)
  have hdrop : (layout_regions env totrct regions).dropLast
      = ((region_rect_recursive env (layout_start totrct regions)).done.tail.map
          LRegion.ar).reverse := by
    unfold layout_regions
    rw [← List.map_dropLast, List.dropLast_reverse, List.map_reverse, List.map_tail]
  have hall : layout_regions env totrct regions
      = ((region_rect_recursive env (layout_start totrct regions)).done.map
          LRegion.ar).reverse := by
    unfold layout_regions
    rw [List.map_reverse]
  rw [hdrop, hall]
  simp only [slice_heights_reverse, slice_widths_reverse]
  exact ⟨h3, h4, h1, h2⟩

theorem slices_within_area_witness :
    ((0 : Int) ≤ 1000 ∧ (0 : Int) ≤ 800) ∧
    plain_slice_region example_env example_header ∧
    plain_slice_region example_env example_tools ∧
    plain_slice_region example_env example_channels ∧
    slice_heights (layout_regions example_env ⟨0, 1000, 0, 800⟩
        [example_header, example_tools, example_channels]).dropLast ≤ 800 - 0 + 1 ∧
    slice_widths (layout_regions example_env ⟨0, 1000, 0, 800⟩
        [example_header, example_tools, example_channels]).dropLast ≤ 1000 - 0 + 1 ∧
    slice_heights (layout_regions example_env ⟨0, 1000, 0, 800⟩
        [example_header, example_tools, example_channels]) ≤ 800 - 0 + 1 ∧
    slice_widths (layout_regions example_env ⟨0, 1000, 0, 800⟩
        [example_header, example_tools, example_channels]) ≤ 1000 - 0 + 1 :=
  ⟨by decide, by unfold plain_slice_region slice_region; decide,
    by unfold plain_slice_region slice_region; decide,
    by unfold plain_slice_region slice_region; decide,
    slices_within_area example_env ⟨0, 1000, 0, 800⟩
      [example_header, example_tools, example_channels] (by decide)
      (by
        intro r hr
        simp only [List.mem_cons, List.mem_singleton, List.not_mem_nil, or_false] at hr
        rcases hr with rfl | rfl | rfl <;> unfold plain_slice_region slice_region <;> decide)⟩

/-! ## The last region -/

/-- C3, as stated, fails for a last region with the split-from-previous bit:
in the area `(0,0)-(1000,800)` with a top region of height 10 followed by a
left region carrying that bit, all visible and non-overlapping, the remainder
left by the first region is `(0,0)-(1000,790)`, one pixel or more on both
axes, yet the last region receives the rect of its predecessor,
`(0,791)-(1000,800)`, and the remainder afterwards is still
`(0,0)-(1000,790)`, not the zero rect. -/
theorem last_region_split_prev_takes_predecessor :
    slice_region example_env example_channels ∧
    slice_region example_env example_split_tools ∧
    (layout_state_at example_env ⟨0, 1000, 0, 800⟩ [example_channels, example_split_tools]
        1).remainder = { xmin := 0, ymin := 0, xmax := 1000, ymax := 790 } ∧
    (layout_regions example_env ⟨0, 1000, 0, 800⟩
        [example_channels, example_split_tools]).getLast?.map ARegion.winrct
      = some { xmin := 0, ymin := 791, xmax := 1000, ymax := 800 } ∧
    (region_rect_recursive example_env
        (layout_start ⟨0, 1000, 0, 800⟩ [example_channels, example_split_tools])).remainder
      = { xmin := 0, ymin := 0, xmax := 1000, ymax := 790 } ∧
    ¬((layout_regions example_env ⟨0, 1000, 0, 800⟩
          [example_channels, example_split_tools]).getLast?.map ARegion.winrct
        = some (layout_state_at example_env ⟨0, 1000, 0, 800⟩
            [example_channels, example_split_tools] 1).remainder ∧
      (region_rect_recursive example_env
          (layout_start ⟨0, 1000, 0, 800⟩ [example_channels, example_split_tools])).remainder
        = rcti_zero) := by
  unfold layout_regions layout_state_at slice_region
  rw [region_rect_recursive_eq_iterate]
  decide

/-- C3, amended: the last region of the list (unless it is quad-split) is
laid out as none-aligned whatever alignment it requests: for every list of
visible non-overlapping top, bottom, left or right regions whose last region
does not carry the split-from-previous bit (or has no predecessor), if the
remainder left by its predecessors, `layout_state_at ... pre.length`, is at
least 1 pixel on both axes, the last region's window rect equals exactly that
remainder and the remainder afterwards is the zero rect `(0,0,0,0)`. -/
theorem last_region_takes_remainder (env : LayoutEnv) (totrct : rcti) (pre : List LRegion) (last : LRegion)
    (hpre : ∀ r ∈ pre, slice_region env r) (hlast : slice_region env last)
    (hsplit : last.ar.alignment &&& RGN_SPLIT_PREV = 0 ∨ pre = [])
    (hfit : (layout_state_at env totrct (pre ++ [last]) pre.length).remainder.xmin
              ≤ (layout_state_at env totrct (pre ++ [last]) pre.length).remainder.xmax ∧
            (layout_state_at env totrct (pre ++ [last]) pre.length).remainder.ymin
              ≤ (layout_state_at env totrct (pre ++ [last]) pre.length).remainder.ymax) :
    (layout_regions env totrct (pre ++ [last])).getLast?.map ARegion.winrct
      = some (layout_state_at env totrct (pre ++ [last]) pre.length).remainder ∧
    (region_rect_recursive env (layout_start totrct (pre ++ [last]))).remainder
      = rcti_zero := by
  have htodo : (layout_state_at env totrct (pre ++ [last]) pre.length).todo = [last] :=
    layout_todo_after env pre (layout_start totrct (pre ++ [last])) [last] rfl (by simp)
      (fun r hr => region_align_ne_qsplit env r (hpre r hr))
  have hsp : splits_prev last (layout_state_at env totrct (pre ++ [last]) pre.length).done
      = false := by
    rcases hsplit with h | h
    · exact splits_prev_of_no_bit _ _ h
    · subst h
      exact splits_prev_of_no_prev _
  obtain ⟨hvis, hov, _⟩ := hlast
  have hbody := region_rect_body_plain env _ last [] _ htodo hov hsp rfl
  rw [region_alignment_last last (region_align_ne_qsplit env last ⟨hvis, hov, by assumption⟩),
    region_rect_place_none _ _ _ _ _ _ _ (region_rect_enter_visible env _ hvis)
      ⟨hfit.2, hfit.1⟩] at hbody
  simp only [collapse_store_enter_clean _ _ _ _ _ _ hvis] at hbody
  unfold layout_regions
  rw [region_rect_recursive_snoc, hbody]
  simp [region_store_size_winrct]

theorem last_region_takes_remainder_witness :
    slice_region example_env example_header ∧ slice_region example_env example_tools ∧
    example_tools.ar.alignment &&& RGN_SPLIT_PREV = 0 ∧
    (layout_regions example_env ⟨0, 1000, 0, 800⟩
        ([example_header] ++ [example_tools])).getLast?.map ARegion.winrct
      = some (layout_state_at example_env ⟨0, 1000, 0, 800⟩
          ([example_header] ++ [example_tools]) [example_header].length).remainder ∧
    (region_rect_recursive example_env
        (layout_start ⟨0, 1000, 0, 800⟩ ([example_header] ++ [example_tools]))).remainder
      = rcti_zero :=
  ⟨by unfold slice_region; decide, by unfold slice_region; decide, by decide,
    last_region_takes_remainder example_env ⟨0, 1000, 0, 800⟩ [example_header] example_tools
      (by
        intro r hr
        simp only [List.mem_singleton] at hr
        subst hr
        unfold slice_region
        decide)
      (by unfold slice_region; decide) (Or.inl (by decide))
      (by unfold layout_state_at; decide)⟩

/-! ## Quad split of four regions -/

/-- C4, as stated, fails for a first quad-split region that carries the
split-from-previous bit: in the area `(0,0)-(1000,800)` a top region of
height 10 is followed by four visible, non-overlapping window regions, the
first of them quad-split with that bit. When the quad-split region is met the
remainder is `(0,0)-(1000,790)` and `quad` is 0, but its window rect is cut
out of the rect of its predecessor, `(0,791)-(500,795)`, while the other three
are quadrants of the remainder: the four rects are the quadrants neither of
the remainder nor of the predecessor's rect `(0,791)-(1000,800)`. -/
theorem quad_split_split_prev_counterexample :
    (layout_state_at example_env ⟨0, 1000, 0, 800⟩
        [example_channels, example_split_quad, example_window, example_window,
          example_window] 1).todo.length = 4 ∧
    (layout_state_at example_env ⟨0, 1000, 0, 800⟩
        [example_channels, example_split_quad, example_window, example_window,
          example_window] 1).todo.head? = some example_split_quad ∧
    (layout_state_at example_env ⟨0, 1000, 0, 800⟩
        [example_channels, example_split_quad, example_window, example_window,
          example_window] 1).quad = 0 ∧
    region_align example_split_quad.ar = RGN_ALIGN_QSPLIT ∧
    (layout_state_at example_env ⟨0, 1000, 0, 800⟩
        [example_channels, example_split_quad, example_window, example_window,
          example_window] 1).remainder = { xmin := 0, ymin := 0, xmax := 1000, ymax := 790 } ∧
    ((region_rect_recursive example_env
        (layout_state_at example_env ⟨0, 1000, 0, 800⟩
          [example_channels, example_split_quad, example_window, example_window,
            example_window] 1)).done.map fun r => r.ar.winrct)
      = [{ xmin := 501, ymin := 396, xmax := 1000, ymax := 790 },
          { xmin := 501, ymin := 0, xmax := 1000, ymax := 395 },
          { xmin := 0, ymin := 396, xmax := 500, ymax := 790 },
          { xmin := 0, ymin := 791, xmax := 500, ymax := 795 },
          { xmin := 0, ymin := 791, xmax := 1000, ymax := 800 }] ∧
    quadrant_left_bottom
        (layout_state_at example_env ⟨0, 1000, 0, 800⟩
          [example_channels, example_split_quad, example_window, example_window,
            example_window] 1).remainder
      = { xmin := 0, ymin := 0, xmax := 500, ymax := 395 } ∧
    ¬(∃ rest : List rcti,
        ((region_rect_recursive example_env
          (layout_state_at example_env ⟨0, 1000, 0, 800⟩
            [example_channels, example_split_quad, example_window, example_window,
              example_window] 1)).done.map fun r => r.ar.winrct)
        = [quadrant_right_top ⟨0, 1000, 0, 790⟩, quadrant_right_bottom ⟨0, 1000, 0, 790⟩,
            quadrant_left_top ⟨0, 1000, 0, 790⟩, quadrant_left_bottom ⟨0, 1000, 0, 790⟩]
          ++ rest) ∧
    ¬(∃ rest : List rcti,
        ((region_rect_recursive example_env
          (layout_state_at example_env ⟨0, 1000, 0, 800⟩
            [example_channels, example_split_quad, example_window, example_window,
              example_window] 1)).done.map fun r => r.ar.winrct)
        = [quadrant_right_top ⟨0, 1000, 791, 800⟩, quadrant_right_bottom ⟨0, 1000, 791, 800⟩,
            quadrant_left_top ⟨0, 1000, 791, 800⟩, quadrant_left_bottom ⟨0, 1000, 791, 800⟩]
          ++ rest) := by
  have hrun : ((region_rect_recursive example_env
        (layout_state_at example_env ⟨0, 1000, 0, 800⟩
          [example_channels, example_split_quad, example_window, example_window,
            example_window] 1)).done.map fun r => r.ar.winrct)
      = [{ xmin := 501, ymin := 396, xmax := 1000, ymax := 790 },
          { xmin := 501, ymin := 0, xmax := 1000, ymax := 395 },
          { xmin := 0, ymin := 396, xmax := 500, ymax := 790 },
          { xmin := 0, ymin := 791, xmax := 500, ymax := 795 },
          { xmin := 0, ymin := 791, xmax := 1000, ymax := 800 }] := by
    unfold layout_state_at
    rw [region_rect_recursive_eq_iterate]
    decide
  refine ⟨by unfold layout_state_at; decide, by unfold layout_state_at; decide,
    by unfold layout_state_at; decide, by decide, by unfold layout_state_at; decide, hrun,
    by unfold layout_state_at; decide, ?_, ?_⟩
  · rintro ⟨rest, hrest⟩
    rw [hrun] at hrest
    injection hrest with _ hrest
    injection hrest with _ hrest
    injection hrest with _ hrest
    injection hrest with h4 _
    revert h4
    decide
  · rintro ⟨rest, hrest⟩
    rw [hrun] at hrest
    injection hrest with h1 _
    revert h1
    decide

/-- C4, amended: when the first quad-split region met by
`region_rect_recursive` (`quad` still 0) does not carry the
split-from-previous bit (or has no predecessor) and is followed by exactly
three more regions up to the end of the list, none of the four hidden or
overlap-eligible, and the remainder `R` at that point is at least 1 pixel on
both axes, the four window rects are the quadrants of `R` cut at its center
`(cx, cy)`: `[xmin..cx]x[ymin..cy]`, `[xmin..cx]x[cy+1..ymax]`,
`[cx+1..xmax]x[ymin..cy]` and `[cx+1..xmax]x[cy+1..ymax]`, in list order (the
list `done` holds the regions last first); they are pairwise disjoint, their
union is exactly `R`, and the remainder is the zero rect after the fourth. -/
theorem quad_split_tiles_remainder (env : LayoutEnv) (s : LayoutState) (a b c d : LRegion)
    (hs : s.todo = [a, b, c, d]) (hquad : s.quad = 0)
    (hal : region_align a.ar = RGN_ALIGN_QSPLIT)
    (hsplit : a.ar.alignment &&& RGN_SPLIT_PREV = 0 ∨ s.done = [])
    (hvis : ∀ r ∈ [a, b, c, d], r.ar.flag &&& RGN_FLAG_HIDDEN = 0)
    (hov : ∀ r ∈ [a, b, c, d],
      ED_region_is_overlap env.user_region_overlap env.spacetype r.ar.regiontype = false)
    (hfit : s.remainder.xmin ≤ s.remainder.xmax ∧ s.remainder.ymin ≤ s.remainder.ymax) :
    ((region_rect_recursive env s).done.map fun r => r.ar.winrct)
      = [quadrant_right_top s.remainder, quadrant_right_bottom s.remainder,
          quadrant_left_top s.remainder, quadrant_left_bottom s.remainder]
        ++ (s.done.map fun r => r.ar.winrct) ∧
    (region_rect_recursive env s).remainder = rcti_zero ∧
    rcti_disjoint (quadrant_left_bottom s.remainder) (quadrant_left_top s.remainder) ∧
    rcti_disjoint (quadrant_left_bottom s.remainder) (quadrant_right_bottom s.remainder) ∧
    rcti_disjoint (quadrant_left_bottom s.remainder) (quadrant_right_top s.remainder) ∧
    rcti_disjoint (quadrant_left_top s.remainder) (quadrant_right_bottom s.remainder) ∧
    rcti_disjoint (quadrant_left_top s.remainder) (quadrant_right_top s.remainder) ∧
    rcti_disjoint (quadrant_right_bottom s.remainder) (quadrant_right_top s.remainder) ∧
    (∀ x y : Int, rcti_mem x y s.remainder ↔
      rcti_mem x y (quadrant_left_bottom s.remainder) ∨
      rcti_mem x y (quadrant_left_top s.remainder) ∨
      rcti_mem x y (quadrant_right_bottom s.remainder) ∨
      rcti_mem x y (quadrant_right_top s.remainder)) := by
  have hmain : ((region_rect_recursive env s).done.map fun r => r.ar.winrct)
        = [quadrant_right_top s.remainder, quadrant_right_bottom s.remainder,
            quadrant_left_top s.remainder, quadrant_left_bottom s.remainder]
          ++ (s.done.map fun r => r.ar.winrct) ∧
      (region_rect_recursive env s).remainder = rcti_zero := by
    have hsp : splits_prev a s.done = false := by
      rcases hsplit with h | h
      · exact splits_prev_of_no_bit _ _ h
      · rw [h]; exact splits_prev_of_no_prev _
    have hfit' : s.remainder.ymin ≤ s.remainder.ymax ∧ s.remainder.xmin ≤ s.remainder.xmax :=
      ⟨hfit.2, hfit.1⟩
    have hlen : [b, c, d].length = 3 := rfl
    rw [region_rect_recursive_cons env s (by rw [hs]; simp),
      region_rect_body_qsplit env s a [b, c, d] _ hs (hvis a (by simp)) (hov a (by simp)) hal hsp
        hfit' rfl,
      hquad, place_qsplit_start _ _ _ _ hlen]
    simp only [mark_qsplit, List.map]
    rw [region_rect_recursive_cons _ _ (by simp),
      region_rect_body_qsplit_mk env _ (set_qsplit b) _ _ _ _ (hvis b (by simp))
        (hov b (by simp)) (set_qsplit_align b) (set_qsplit_splits_prev b _) hfit',
      place_qsplit_second]
    simp only []
    rw [region_rect_recursive_cons _ _ (by simp),
      region_rect_body_qsplit_mk env _ (set_qsplit c) _ _ _ _ (hvis c (by simp))
        (hov c (by simp)) (set_qsplit_align c) (set_qsplit_splits_prev c _) hfit',
      place_qsplit_third]
    simp only []
    rw [region_rect_recursive_cons _ _ (by simp),
      region_rect_body_qsplit_mk env _ (set_qsplit d) _ _ _ _ (hvis d (by simp))
        (hov d (by simp)) (set_qsplit_align d) (set_qsplit_splits_prev d _) hfit',
      place_qsplit_fourth]
    simp only []
    rw [region_rect_recursive_nil _ _ rfl]
    simp [region_store_size_winrct, quad_winrct, quadrant_left_bottom, quadrant_left_top,
      quadrant_right_bottom, quadrant_right_top]
  have hcx := tdiv_two_bounds s.remainder.xmin s.remainder.xmax hfit.1
  have hcy := tdiv_two_bounds s.remainder.ymin s.remainder.ymax hfit.2
  refine ⟨hmain.1, hmain.2, ?_⟩
  simp only [rcti_disjoint, rcti_mem, quadrant_left_bottom, quadrant_left_top,
    quadrant_right_bottom, quadrant_right_top, BLI_rcti_cent_x, BLI_rcti_cent_y]
  generalize Int.tdiv (s.remainder.xmin + s.remainder.xmax) 2 = cx at hcx
  generalize Int.tdiv (s.remainder.ymin + s.remainder.ymax) 2 = cy at hcy
  refine ⟨?_, ?_, ?_, ?_, ?_, ?_, ?_⟩ <;> intro x y <;> omega

theorem quad_split_tiles_remainder_witness :
    (layout_start ⟨0, 1000, 0, 800⟩
        [example_quad, example_window, example_window, example_window]).quad = 0 ∧
    region_align example_quad.ar = RGN_ALIGN_QSPLIT ∧
    ((0 : Int) ≤ 1000 ∧ (0 : Int) ≤ 800) ∧
    ((region_rect_recursive example_env
        (layout_start ⟨0, 1000, 0, 800⟩
          [example_quad, example_window, example_window, example_window])).done.map
        fun r => r.ar.winrct)
      = [quadrant_right_top ⟨0, 1000, 0, 800⟩, quadrant_right_bottom ⟨0, 1000, 0, 800⟩,
          quadrant_left_top ⟨0, 1000, 0, 800⟩, quadrant_left_bottom ⟨0, 1000, 0, 800⟩]
        ++ [] ∧
    (region_rect_recursive example_env
        (layout_start ⟨0, 1000, 0, 800⟩
          [example_quad, example_window, example_window, example_window])).remainder
      = rcti_zero :=
  ⟨rfl, by decide, by decide,
    (quad_split_tiles_remainder example_env
      (layout_start ⟨0, 1000, 0, 800⟩
        [example_quad, example_window, example_window, example_window])
      example_quad example_window example_window example_window rfl rfl (by decide)
      (Or.inr rfl)
      (by
        intro r hr
        simp only [List.mem_cons, List.mem_singleton, List.not_mem_nil, or_false] at hr
        rcases hr with rfl | rfl | rfl | rfl <;> decide)
      (by
        intro r hr
        simp only [List.mem_cons, List.mem_singleton, List.not_mem_nil, or_false] at hr
        rcases hr with rfl | rfl | rfl | rfl <;> decide)
      (by decide)).1,
    (quad_split_tiles_remainder example_env
      (layout_start ⟨0, 1000, 0, 800⟩
        [example_quad, example_window, example_window, example_window])
      example_quad example_window example_window example_window rfl rfl (by decide)
      (Or.inr rfl)
      (by
        intro r hr
        simp only [List.mem_cons, List.mem_singleton, List.not_mem_nil, or_false] at hr
        rcases hr with rfl | rfl | rfl | rfl <;> decide)
      (by
        intro r hr
        simp only [List.mem_cons, List.mem_singleton, List.not_mem_nil, or_false] at hr
        rcases hr with rfl | rfl | rfl | rfl <;> decide)
      (by decide)).2.1⟩

/-! ## Quad split without four regions -/

/-- C5, as stated, fails: in the area `(0,0)-(1000,800)` with two visible
window regions, the first quad-split, the number of regions from the first
quad-split region to the end of the list is 2, not 4, yet that region
receives the whole area `(0,0)-(1000,800)` as its window rect and is not
flagged too-small; the region after it gets the zero rect `(0,0,0,0)`, one
pixel by the inclusive convention, and is not flagged either. -/
theorem quad_split_count_mismatch_first_keeps_all :
    [example_quad, example_window].length ≠ 4 ∧
    region_align example_quad.ar = RGN_ALIGN_QSPLIT ∧
    (layout_regions example_env ⟨0, 1000, 0, 800⟩ [example_quad, example_window]).map
        (fun a => (a.winrct, a.flag, a.winx, a.winy))
      = [({ xmin := 0, ymin := 0, xmax := 1000, ymax := 800 }, 0, 1001, 801),
          ({ xmin := 0, ymin := 0, xmax := 0, ymax := 0 }, 0, 1, 1)] ∧
    ¬(∀ a ∈ layout_regions example_env ⟨0, 1000, 0, 800⟩ [example_quad, example_window],
        (¬∃ x y : Int, rcti_mem x y a.winrct) ∨ a.flag &&& RGN_FLAG_TOO_SMALL ≠ 0) := by
  have hrun : layout_regions example_env ⟨0, 1000, 0, 800⟩ [example_quad, example_window]
      = [{ (region_rect_enter example_env example_quad.ar) with
            winrct := ⟨0, 1000, 0, 800⟩, winx := 1001, winy := 801, sizex := 1001,
            sizey := 801 },
          { (region_rect_enter example_env example_window.ar) with
            winrct := ⟨0, 0, 0, 0⟩, winx := 1, winy := 1,
            alignment := RGN_ALIGN_QSPLIT }] := by
    unfold layout_regions
    rw [region_rect_recursive_eq_iterate]
    decide
  refine ⟨by decide, by decide, by rw [hrun]; decide, ?_⟩
  intro hall
  rcases hall _ (by rw [hrun]; exact List.mem_cons_self _ _) with h | h
  · exact h ⟨500, 400, by simp [rcti_mem]⟩
  · revert h
    decide

/-- C5, amended: when the first quad-split region met (`quad` still 0) is
visible, is not redirected to its predecessor by the split-from-previous bit,
finds a remainder of at least 1 pixel on both axes, and the number of regions
from it to the end of the list is not 4, the layout is force-ended by
collapsing the remainder: the remainder is the zero rect `(0,0,0,0)` at the
end of the pass; that first region itself keeps the whole remainder as its
window rect unless the overlap fix flags it too-small, which does not happen
for a region that is not overlap-eligible; and every region after it that
ends neither hidden nor too-small has a window rect inside the zero rect: it
covers no pixel other than `(0, 0)`. The list `done` holds the regions last
first, so `l` are the regions after the first quad-split region `r'`. -/
theorem quad_split_count_mismatch (env : LayoutEnv) (s : LayoutState) (r : LRegion) (next : List LRegion)
    (hs : s.todo = r :: next) (hquad : s.quad = 0)
    (hal : region_align r.ar = RGN_ALIGN_QSPLIT)
    (hsplit : r.ar.alignment &&& RGN_SPLIT_PREV = 0 ∨ s.done = [])
    (hvis : r.ar.flag &&& RGN_FLAG_HIDDEN = 0)
    (hfit : s.remainder.xmin ≤ s.remainder.xmax ∧ s.remainder.ymin ≤ s.remainder.ymax)
    (hcount : (r :: next).length ≠ 4) :
    (region_rect_recursive env s).remainder = rcti_zero ∧
    ∃ (r' : LRegion) (l : List LRegion),
      (region_rect_recursive env s).done = l ++ r' :: s.done ∧ l.length = next.length ∧
      (r'.ar.flag &&& RGN_FLAG_TOO_SMALL = 0 → r'.ar.winrct = s.remainder) ∧
      (ED_region_is_overlap env.user_region_overlap env.spacetype r.ar.regiontype = false →
        r'.ar.flag &&& RGN_FLAG_TOO_SMALL = 0) ∧
      ∀ x ∈ l, x.ar.flag &&& (RGN_FLAG_HIDDEN ||| RGN_FLAG_TOO_SMALL) = 0 →
        rcti_inside_zero x.ar.winrct := by
  have hsp : splits_prev r s.done = false := by
    rcases hsplit with h | h
    · exact splits_prev_of_no_bit _ _ h
    · rw [h]; exact splits_prev_of_no_prev _
  have hlen : next.length ≠ 3 := by
    intro h
    apply hcount
    simp [h]
  obtain ⟨r', o', hbody, h1, h2⟩ :=
    qsplit_step_count_mismatch env s r next hs hquad hal hsp hvis hfit hlen
  rw [region_rect_recursive_cons env s (by rw [hs]; simp), hbody]
  obtain ⟨hz, l, hl, hlen', hin⟩ := qsplit_run_at_zero env (mark_qsplit next)
    { done := r' :: s.done, todo := mark_qsplit next, remainder := rcti_zero,
      overlap_remainder := o', quad := 0 } rfl (mark_qsplit_all next) rfl
  refine ⟨hz, r', l, hl, ?_, h1, h2, hin⟩
  rw [hlen']
  simp [mark_qsplit]

theorem quad_split_count_mismatch_witness :
    (layout_start ⟨0, 1000, 0, 800⟩ [example_quad, example_window]).quad = 0 ∧
    region_align example_quad.ar = RGN_ALIGN_QSPLIT ∧
    example_quad.ar.flag &&& RGN_FLAG_HIDDEN = 0 ∧
    ((0 : Int) ≤ 1000 ∧ (0 : Int) ≤ 800) ∧
    (example_quad :: [example_window]).length ≠ 4 ∧
    (region_rect_recursive example_env
        (layout_start ⟨0, 1000, 0, 800⟩ [example_quad, example_window])).remainder
      = rcti_zero :=
  ⟨rfl, by decide, by decide, by decide, by decide,
    (quad_split_count_mismatch example_env
      (layout_start ⟨0, 1000, 0, 800⟩ [example_quad, example_window])
      example_quad [example_window] rfl rfl (by decide) (Or.inr rfl) (by decide) (by decide)
      (by decide)).1⟩


/-! ## C11: a pending full redraw absorbs partial tags -/

/-- C11: full dominates partial. For every region that is not being drawn,
in the state left by `ED_region_tag_redraw` or
`ED_region_tag_redraw_no_rebuild` (the full-redraw bit or the no-rebuild bit
set, draw rect all zeros), and every rect `R`,
`ED_region_tag_redraw_partial` returns the region unchanged: neither
`do_draw` nor the draw rect changes. -/
theorem tag_redraw_partial_after_full (ar : ARegion) (R : rcti)
    (hnotdrawing : ar.do_draw &&& RGN_DRAWING = 0)
    (hfull : ar.do_draw &&& RGN_DRAW ≠ 0 ∨ ar.do_draw &&& RGN_DRAW_NO_REBUILD ≠ 0)
    (hrect : ar.drawrct = rcti_zero) :
    ( ED_region_tag_redraw_partial ar R) = ar := by
  have hpending : ¬ar.do_draw &&& (RGN_DRAW ||| RGN_DRAW_NO_REBUILD ||| RGN_DRAW_PARTIAL) = 0 := by
    intro h
    rw [and_or_eq_zero_iff, and_or_eq_zero_iff] at h
    rcases hfull with h1 | h1
    · exact h1 h.1.1
    · exact h1 h.1.2
  have hx : ¬ar.drawrct.xmin ≠ ar.drawrct.xmax := by
    rw [hrect]; decide
  unfold ED_region_tag_redraw_partial
  rw [if_pos hnotdrawing, if_neg hpending, if_neg hx]

/-- C11 at a concrete input: the region left by `ED_region_tag_redraw` on a
region with a partial redraw pending, tagged with the rect `(3,9)-(4,8)`. -/
theorem tag_redraw_partial_after_full_witness :
    ( ED_region_tag_redraw partial_pending_region).do_draw &&& RGN_DRAWING = 0 ∧
    (( ED_region_tag_redraw partial_pending_region).do_draw &&& RGN_DRAW ≠ 0 ∨
      ( ED_region_tag_redraw partial_pending_region).do_draw &&& RGN_DRAW_NO_REBUILD ≠ 0) ∧
    ( ED_region_tag_redraw partial_pending_region).drawrct = rcti_zero ∧
    ( ED_region_tag_redraw_partial ( ED_region_tag_redraw partial_pending_region) ⟨3, 9, 4, 8⟩)
      = ED_region_tag_redraw partial_pending_region :=
  ⟨by decide, Or.inl (by decide), by decide,
    tag_redraw_partial_after_full _ _ (by decide) (Or.inl (by decide)) (by decide)⟩

/-! ## C12: the redraw notification of the message bus -/

theorem tag_redraw_regiontype (ar : ARegion) :
    (ED_region_tag_redraw ar).regiontype = ar.regiontype := by
  simp only [ED_region_tag_redraw, apply_ite ARegion.regiontype, ite_self]

/-- C12: `ED_region_do_msg_notify_tag_redraw` tags the owner for full redraw
(`ED_region_tag_redraw`); when the owner's region type is header or UI it
also tags every region of type window or channels of the same list, before
and after the owner; every other region is returned as it was, and when the
owner is neither header nor UI every sibling is returned as it was. The list
keeps its order. -/
theorem notify_tag_redraw_effect (prevs nexts : List ARegion) (owner : ARegion) :
    ED_region_do_msg_notify_tag_redraw prevs owner nexts =
      (prevs.reverse.map fun a =>
          if (owner.regiontype = RGN_TYPE_HEADER ∨ owner.regiontype = RGN_TYPE_UI) ∧
              (a.regiontype = RGN_TYPE_WINDOW ∨ a.regiontype = RGN_TYPE_CHANNELS) then
            ED_region_tag_redraw a
          else a) ++
        ED_region_tag_redraw owner ::
        (nexts.map fun a =>
          if (owner.regiontype = RGN_TYPE_HEADER ∨ owner.regiontype = RGN_TYPE_UI) ∧
              (a.regiontype = RGN_TYPE_WINDOW ∨ a.regiontype = RGN_TYPE_CHANNELS) then
            ED_region_tag_redraw a
          else a) := by
  unfold ED_region_do_msg_notify_tag_redraw
  simp only [tag_redraw_regiontype]
  by_cases h : owner.regiontype = RGN_TYPE_HEADER ∨ owner.regiontype = RGN_TYPE_UI
  · have hown : notify_tag_sibling (ED_region_tag_redraw owner) = ED_region_tag_redraw owner := by
      unfold notify_tag_sibling
      rw [tag_redraw_regiontype, if_neg]
      rcases h with h | h <;> rw [h] <;> decide
    rw [if_pos h, List.map_append, List.map_cons, hown]
    simp only [h, true_and]
    rfl
  · rw [if_neg h]
    simp only [h, false_and, if_false, List.map_id', List.map_id_fun', id]

/-! ## C13: the overlap allow-list -/

/-- C13: `ED_region_is_overlap` returns true exactly when the preference
`USER_REGION_OVERLAP` is enabled and one of these holds: the space type is
VIEW3D, SEQ or IMAGE and the region type is TOOLS, UI or TOOL_PROPS; the
space type is VIEW3D or IMAGE and the region type is HEADER; the space type
is SEQ and the region type is PREVIEW. In particular it is false for every
window-type region, and for every input when the preference is off. -/
theorem is_overlap_iff (pref : Bool) (spacetype regiontype : Nat) :
    (ED_region_is_overlap pref spacetype regiontype = true ↔
      pref = true ∧
      (((spacetype = SPACE_VIEW3D ∨ spacetype = SPACE_SEQ ∨ spacetype = SPACE_IMAGE) ∧
          (regiontype = RGN_TYPE_TOOLS ∨ regiontype = RGN_TYPE_UI ∨
            regiontype = RGN_TYPE_TOOL_PROPS)) ∨
        ((spacetype = SPACE_VIEW3D ∨ spacetype = SPACE_IMAGE) ∧ regiontype = RGN_TYPE_HEADER) ∨
        (spacetype = SPACE_SEQ ∧ regiontype = RGN_TYPE_PREVIEW))) ∧
    ED_region_is_overlap pref spacetype RGN_TYPE_WINDOW = false ∧
    ED_region_is_overlap false spacetype regiontype = false := by
  refine ⟨?_, is_overlap_window pref spacetype, by simp [ED_region_is_overlap]⟩
  unfold ED_region_is_overlap
  cases pref
  · simp
  · simp only [if_true, true_and]
    by_cases h1 : spacetype = SPACE_VIEW3D ∨ spacetype = SPACE_SEQ ∨ spacetype = SPACE_IMAGE
    · rw [if_pos h1]
      by_cases h2 : regiontype = RGN_TYPE_TOOLS ∨ regiontype = RGN_TYPE_UI ∨
          regiontype = RGN_TYPE_TOOL_PROPS
      · rw [if_pos h2]
        simp [h1, h2]
      · rw [if_neg h2]
        by_cases h3 : spacetype = SPACE_VIEW3D ∨ spacetype = SPACE_IMAGE
        · rw [if_pos h3]
          have h4 : ¬spacetype = SPACE_SEQ := by
            rcases h3 with h | h <;> rw [h] <;> decide
          by_cases h5 : regiontype = RGN_TYPE_HEADER
          · simp [h3, h5]
          · simp [h2, h3, h4, h5]
        · rw [if_neg h3]
          have h4 : spacetype = SPACE_SEQ := by tauto
          rw [if_pos h4]
          by_cases h5 : regiontype = RGN_TYPE_PREVIEW
          · simp [h4, h5]
          · simp [h2, h3, h5]
    · rw [if_neg h1]
      have h3 : ¬(spacetype = SPACE_VIEW3D ∨ spacetype = SPACE_IMAGE) := by tauto
      have h4 : ¬spacetype = SPACE_SEQ := by tauto
      simp [h1, h3, h4]

/-! ## C14: overlapping slices leave the remainder alone -/

/-- The alignment chain for an overlapping region aligned top, bottom, left
or right: `remainder` is not written, and `overlap_remainder` loses the strip
when the region is visible, the remainder is usable and the strip fits. -/
theorem region_rect_place_overlapping (al : Nat) (px py : Int) (ar : ARegion)
    (next : List LRegion) (rm om : rcti) (q : Nat) (hov : ar.overlap = true)
    (hal : al = RGN_ALIGN_TOP ∨ al = RGN_ALIGN_BOTTOM ∨ al = RGN_ALIGN_LEFT ∨
      al = RGN_ALIGN_RIGHT) :
    (region_rect_place al px py ar next rm om q).remainder = rm ∧
    (region_rect_place al px py ar next rm om q).overlap_remainder =
      if ar.flag &&& RGN_FLAG_HIDDEN = 0 ∧ (rm.ymin ≤ rm.ymax ∧ rm.xmin ≤ rm.xmax) ∧
          strip_fits al px py om then
        rcti_without_strip al px py om
      else om := by
  by_cases hvis : ar.flag &&& RGN_FLAG_HIDDEN = 0
  swap
  · rw [region_rect_place_hidden _ _ _ _ _ _ _ _ hvis]
    simp [hvis]
  by_cases hfit : rm.ymin ≤ rm.ymax ∧ rm.xmin ≤ rm.xmax
  swap
  · have hal2 : al ≠ RGN_ALIGN_FLOAT := by
      rcases hal with h | h | h | h <;> rw [h] <;> decide
    rw [region_rect_place_too_small _ _ _ _ _ _ _ _ hvis hal2 (by omega)]
    simp [hfit]
  have hfit2 : ¬(rct_fits rm 'v' 1 < 0 ∨ rct_fits rm 'h' 1 < 0) := by
    rw [rct_fits_v, rct_fits_h]; omega
  rcases hal with h | h | h | h <;> subst h <;> unfold region_rect_place <;>
    rw [if_neg (fun h => h hvis), if_neg (by decide), if_neg hfit2, if_neg (by decide)]
  · rw [if_pos (Or.inl rfl)]
    by_cases hp : 0 ≤ rct_fits om 'v' py
    · have hp2 : ¬rct_fits om 'v' py < 0 := by omega
      simp [place_top_bottom, hov, hp2, store_winrct, hvis, hfit, strip_fits, hp,
        rcti_without_strip]
    · have hp2 : rct_fits om 'v' py < 0 := by omega
      simp [place_top_bottom, hov, hp2, hvis, hfit, strip_fits]
      rw [if_neg hp]
  · rw [if_pos (Or.inr rfl)]
    by_cases hp : 0 ≤ rct_fits om 'v' py
    · have hp2 : ¬rct_fits om 'v' py < 0 := by omega
      simp [place_top_bottom, hov, hp2, store_winrct, hvis, hfit, strip_fits, hp,
        rcti_without_strip, RGN_ALIGN_TOP, RGN_ALIGN_BOTTOM]
    · have hp2 : rct_fits om 'v' py < 0 := by omega
      simp [place_top_bottom, hov, hp2, hvis, hfit, strip_fits]
      rw [if_neg hp]
  · rw [if_neg (by decide), if_pos (Or.inl rfl)]
    by_cases hp : 0 ≤ rct_fits om 'h' px
    · have hp2 : ¬rct_fits om 'h' px < 0 := by omega
      simp [place_left_right, hov, hp2, store_winrct, hvis, hfit, strip_fits, hp,
        rcti_without_strip, RGN_ALIGN_TOP, RGN_ALIGN_BOTTOM, RGN_ALIGN_LEFT, RGN_ALIGN_RIGHT]
    · have hp2 : rct_fits om 'h' px < 0 := by omega
      simp [place_left_right, hov, hp2, hvis, hfit, strip_fits, RGN_ALIGN_TOP,
        RGN_ALIGN_BOTTOM, RGN_ALIGN_LEFT]
      rw [if_neg hp]
  · rw [if_neg (by decide), if_pos (Or.inr rfl)]
    by_cases hp : 0 ≤ rct_fits om 'h' px
    · have hp2 : ¬rct_fits om 'h' px < 0 := by omega
      simp [place_left_right, hov, hp2, store_winrct, hvis, hfit, strip_fits, hp,
        rcti_without_strip, RGN_ALIGN_TOP, RGN_ALIGN_BOTTOM, RGN_ALIGN_LEFT, RGN_ALIGN_RIGHT]
    · have hp2 : rct_fits om 'h' px < 0 := by omega
      simp [place_left_right, hov, hp2, hvis, hfit, strip_fits, RGN_ALIGN_TOP,
        RGN_ALIGN_BOTTOM, RGN_ALIGN_RIGHT]
      rw [if_neg hp]

/-- C14: placing an overlap-eligible region aligned top, bottom, left or
right, without the split-from-previous bit and followed by another region,
does not consume layout space: the remainder handed to the next region is the
remainder the activation started with. The strip is taken from
`overlap_remainder` only: that rect loses the preferred height or width on
the side of the alignment when the region is visible, the remainder is usable
and the strip fits, and is handed on unchanged otherwise. -/
theorem overlap_region_keeps_remainder (env : LayoutEnv) (s : LayoutState) (r : LRegion)
    (next : List LRegion) (hs : s.todo = r :: next) (hnext : next ≠ [])
    (hov : ED_region_is_overlap env.user_region_overlap env.spacetype r.ar.regiontype = true)
    (hal : r.ar.alignment = RGN_ALIGN_TOP ∨ r.ar.alignment = RGN_ALIGN_BOTTOM ∨
      r.ar.alignment = RGN_ALIGN_LEFT ∨ r.ar.alignment = RGN_ALIGN_RIGHT) :
    (region_rect_body env s).remainder = s.remainder ∧
    (region_rect_body env s).overlap_remainder =
      if r.ar.flag &&& RGN_FLAG_HIDDEN = 0 ∧
          (s.remainder.ymin ≤ s.remainder.ymax ∧ s.remainder.xmin ≤ s.remainder.xmax) ∧
          strip_fits r.ar.alignment (region_prefsizex env r) (region_prefsizey env r)
            s.overlap_remainder then
        rcti_without_strip r.ar.alignment (region_prefsizex env r) (region_prefsizey env r)
          s.overlap_remainder
      else s.overlap_remainder := by
  have hbit : r.ar.alignment &&& RGN_SPLIT_PREV = 0 := by
    rcases hal with h | h | h | h <;> rw [h] <;> decide
  obtain ⟨r2, next2, rfl⟩ := List.exists_cons_of_ne_nil hnext
  have hal1 : region_alignment r (r2 :: next2) = r.ar.alignment := by
    rw [region_alignment_inner, flag_clear_of_and_eq_zero _ _ hbit]
  have ho : (region_rect_enter env r.ar).overlap = true := hov
  have hflag : (region_rect_enter env r.ar).flag &&& RGN_FLAG_HIDDEN = r.ar.flag &&& RGN_FLAG_HIDDEN :=
    flag_clear_and_of_disjoint _ _ _ (by decide)
  have hpl := region_rect_place_overlapping r.ar.alignment (region_prefsizex env r)
    (region_prefsizey env r) (region_rect_enter env r.ar) (r2 :: next2) s.remainder
    s.overlap_remainder s.quad ho hal
  rw [hflag] at hpl
  rw [region_rect_body_nosplit env s r (r2 :: next2) _ _ hs (splits_prev_of_no_bit r s.done hbit)
    rfl rfl, hal1]
  refine ⟨hpl.1, ?_⟩
  have ho3 : (if (region_store_size env (region_rect_place r.ar.alignment (region_prefsizex env r)
      (region_prefsizey env r) (region_rect_enter env r.ar) (r2 :: next2) s.remainder
      s.overlap_remainder s.quad).ar).overlap then
        region_overlap_fix env s.done (region_store_size env (region_rect_place r.ar.alignment
          (region_prefsizex env r) (region_prefsizey env r) (region_rect_enter env r.ar)
          (r2 :: next2) s.remainder s.overlap_remainder s.quad).ar)
      else region_store_size env (region_rect_place r.ar.alignment (region_prefsizex env r)
        (region_prefsizey env r) (region_rect_enter env r.ar) (r2 :: next2) s.remainder
        s.overlap_remainder s.quad).ar).overlap = true := by
    simp only [region_store_size_overlap, region_rect_place_overlap, ho, if_true,
      region_overlap_fix_overlap]
  simp only [ho3, if_true]
  exact hpl.2

/-- C14 at a concrete input: a 3D viewport with region overlap on, an area of
1001 x 801 pixels, a left-aligned tool region of width 200 followed by the
window region. -/
theorem overlap_region_keeps_remainder_witness :
    (region_rect_body example_overlap_env
        (layout_start ⟨0, 1000, 0, 800⟩ [example_tools, example_window])).remainder
      = ⟨0, 1000, 0, 800⟩ ∧
    (region_rect_body example_overlap_env
        (layout_start ⟨0, 1000, 0, 800⟩ [example_tools, example_window])).overlap_remainder
      = ⟨200, 1000, 0, 800⟩ := by
  have h := overlap_region_keeps_remainder example_overlap_env
    (layout_start ⟨0, 1000, 0, 800⟩ [example_tools, example_window]) example_tools
    [example_window] rfl (by decide) (by decide) (by decide)
  refine ⟨h.1, ?_⟩
  rw [h.2]
  decide

/-! ## C15: a second layout pass -/

theorem resized_refl (x : LRegion) : resized x x := ⟨x.ar.winrct, x.ar.winx, x.ar.winy, rfl⟩

theorem head_resized_refl (d : List LRegion) : head_resized d d := by
  cases d with
  | nil => rfl
  | cons p ps => exact ⟨p, rfl, resized_refl p⟩

theorem head_resized_set_prev (w : rcti) (d : List LRegion) :
    head_resized d (update_prev_size (set_prev_winrct w d)) := by
  cases d with
  | nil => rfl
  | cons p ps => exact ⟨_, rfl, ⟨_, _, _, rfl⟩⟩

/-- One activation, written with `region_rect_finish`. -/
theorem region_rect_body_eq_finish (env : LayoutEnv) (s : LayoutState) (r : LRegion)
    (next : List LRegion) (hs : s.todo = r :: next) :
    region_rect_body env s =
      region_rect_finish env s.done s.remainder (splits_prev r s.done) (region_alignment r next)
        r.type_prefsizex r.type_prefsizey
        (region_store_size env (region_rect_place (region_alignment r next)
          (region_prefsizex env r) (region_prefsizey env r) (region_rect_enter env r.ar) next
          (if splits_prev r s.done then prev_winrct s.remainder s.done else s.remainder)
          s.overlap_remainder s.quad).ar)
        (region_rect_place (region_alignment r next)
          (region_prefsizex env r) (region_prefsizey env r) (region_rect_enter env r.ar) next
          (if splits_prev r s.done then prev_winrct s.remainder s.done else s.remainder)
          s.overlap_remainder s.quad).next
        (region_rect_place (region_alignment r next)
          (region_prefsizex env r) (region_prefsizey env r) (region_rect_enter env r.ar) next
          (if splits_prev r s.done then prev_winrct s.remainder s.done else s.remainder)
          s.overlap_remainder s.quad).remainder
        (region_rect_place (region_alignment r next)
          (region_prefsizex env r) (region_prefsizey env r) (region_rect_enter env r.ar) next
          (if splits_prev r s.done then prev_winrct s.remainder s.done else s.remainder)
          s.overlap_remainder s.quad).overlap_remainder
        (region_rect_place (region_alignment r next)
          (region_prefsizex env r) (region_prefsizey env r) (region_rect_enter env r.ar) next
          (if splits_prev r s.done then prev_winrct s.remainder s.done else s.remainder)
          s.overlap_remainder s.quad).quad := by
  simp only [region_rect_body, hs, region_rect_finish]

theorem flag_clear_or_self (f m : Nat) : flag_clear (f ||| m) m = flag_clear f m := by
  apply Nat.eq_of_testBit_eq
  intro i
  simp only [testBit_flag_clear, Nat.testBit_or]
  cases f.testBit i <;> cases m.testBit i <;> rfl

theorem flag_clear_idem (f m : Nat) : flag_clear (flag_clear f m) m = flag_clear f m := by
  apply Nat.eq_of_testBit_eq
  intro i
  simp only [testBit_flag_clear]
  cases f.testBit i <;> cases m.testBit i <;> rfl

theorem region_core_winrct (ar : ARegion) (w : rcti) :
    region_core { ar with winrct := w } = region_core ar := rfl

theorem region_core_too_small (ar : ARegion) :
    region_core { ar with flag := ar.flag ||| RGN_FLAG_TOO_SMALL } = region_core ar := by
  simp only [region_core, flag_clear_or_self]

theorem region_core_enter (env : LayoutEnv) (ar : ARegion) :
    region_core (region_rect_enter env ar) = region_core ar := by
  simp only [region_core, region_rect_enter, flag_clear_idem]

theorem region_core_place_qsplit (ar : ARegion) (next : List LRegion) (rm om : rcti) (q : Nat) :
    region_core (place_qsplit ar next rm om q).ar = region_core ar := by
  simp only [place_qsplit, apply_ite Placed.ar, apply_ite region_core, region_core_winrct,
    ite_self]

theorem region_core_place (al : Nat) (px py : Int) (ar : ARegion) (next : List LRegion)
    (rm om : rcti) (q : Nat) :
    region_core (region_rect_place al px py ar next rm om q).ar = region_core ar := by
  simp only [region_rect_place, place_top_bottom, place_left_right, place_split,
    apply_ite Placed.ar, apply_ite region_core, region_core_winrct, region_core_too_small,
    region_core_place_qsplit, ite_self]

theorem region_core_collapse (al : Nat) (ar : ARegion) (rm om : rcti) :
    region_core (region_rect_collapse al ar rm om) = region_core ar := by
  simp only [region_rect_collapse, apply_ite region_core, region_core_winrct, ite_self]

theorem region_core_overlap_final (prevs : List LRegion) (align : Nat) (ar : ARegion) :
    region_core (region_overlap_final prevs align ar) = region_core ar := by
  simp only [region_overlap_final, apply_ite region_core, region_core_too_small, ite_self]

theorem region_core_overlap_fix (env : LayoutEnv) (prevs : List LRegion) (ar : ARegion) :
    region_core (region_overlap_fix env prevs ar) = region_core ar := by
  unfold region_overlap_fix
  simp only []
  split
  · exact region_core_too_small ar
  · exact region_core_overlap_final _ _ _
  · simp only [apply_ite region_core, region_core_overlap_final, region_core_too_small,
      region_core_winrct, ite_self]

theorem region_core_store_size (env : LayoutEnv) (ar : ARegion) :
    region_core (region_store_size env ar) =
      { region_core ar with
        sizex := (region_store_size env ar).sizex
        sizey := (region_store_size env ar).sizey } := rfl

theorem region_rect_enter_eq_core (env : LayoutEnv) (y : ARegion) :
    region_rect_enter env y =
      { region_core y with
        winx := y.winx
        winy := y.winy
        overlap := ED_region_is_overlap env.user_region_overlap env.spacetype
          (region_core y).regiontype } := rfl

/-- A region that differs from `x` in fields outside the core and in the
stored sizes enters the alignment chain as `x` does, up to `winx`, `winy` and
the stored sizes. -/
theorem region_rect_enter_of_core (env : LayoutEnv) (x x2 : ARegion) (c d : Int)
    (h : region_core x2 = { region_core x with sizex := c, sizey := d }) :
    region_rect_enter env x2 = with_sizes x2.winx x2.winy c d (region_rect_enter env x) := by
  rw [region_rect_enter_eq_core env x2, region_rect_enter_eq_core env x, h]
  rfl

theorem place_qsplit_with_sizes (a b c d : Int) (ar : ARegion) (next : List LRegion)
    (rm om : rcti) (q : Nat) :
    (place_qsplit (with_sizes a b c d ar) next rm om q).ar
        = with_sizes a b c d (place_qsplit ar next rm om q).ar ∧
    (place_qsplit (with_sizes a b c d ar) next rm om q).next
        = (place_qsplit ar next rm om q).next ∧
    (place_qsplit (with_sizes a b c d ar) next rm om q).remainder
        = (place_qsplit ar next rm om q).remainder ∧
    (place_qsplit (with_sizes a b c d ar) next rm om q).overlap_remainder
        = (place_qsplit ar next rm om q).overlap_remainder ∧
    (place_qsplit (with_sizes a b c d ar) next rm om q).quad
        = (place_qsplit ar next rm om q).quad := by
  refine ⟨?_, ?_, ?_, ?_, ?_⟩
  · simp only [place_qsplit, with_sizes, apply_ite Placed.ar,
      apply_ite (fun x : ARegion => ({ x with winx := a, winy := b, sizex := c, sizey := d } : ARegion))]
  · simp only [place_qsplit, apply_ite Placed.next]
  · simp only [place_qsplit, apply_ite Placed.remainder]
  · simp only [place_qsplit, apply_ite Placed.overlap_remainder]
  · simp only [place_qsplit, apply_ite Placed.quad]

/-- The alignment chain neither reads nor writes `winx`, `winy` and the
stored sizes. -/
theorem region_rect_place_with_sizes (al : Nat) (px py : Int) (a b c d : Int) (ar : ARegion)
    (next : List LRegion) (rm om : rcti) (q : Nat) :
    (region_rect_place al px py (with_sizes a b c d ar) next rm om q).ar
        = with_sizes a b c d (region_rect_place al px py ar next rm om q).ar ∧
    (region_rect_place al px py (with_sizes a b c d ar) next rm om q).next
        = (region_rect_place al px py ar next rm om q).next ∧
    (region_rect_place al px py (with_sizes a b c d ar) next rm om q).remainder
        = (region_rect_place al px py ar next rm om q).remainder ∧
    (region_rect_place al px py (with_sizes a b c d ar) next rm om q).overlap_remainder
        = (region_rect_place al px py ar next rm om q).overlap_remainder ∧
    (region_rect_place al px py (with_sizes a b c d ar) next rm om q).quad
        = (region_rect_place al px py ar next rm om q).quad := by
  have hq := place_qsplit_with_sizes a b c d ar next rm om q
  have hf : (with_sizes a b c d ar).flag = ar.flag := rfl
  have ho : (with_sizes a b c d ar).overlap = ar.overlap := rfl
  refine ⟨?_, ?_, ?_, ?_, ?_⟩
  · simp only [region_rect_place, place_top_bottom, place_left_right, place_split, hf, ho,
      apply_ite Placed.ar, apply_ite (with_sizes a b c d), hq.1]
    rfl
  · simp only [region_rect_place, place_top_bottom, place_left_right, place_split, hf, ho,
      apply_ite Placed.next, hq.2.1]
  · simp only [region_rect_place, place_top_bottom, place_left_right, place_split, hf, ho,
      apply_ite Placed.remainder, hq.2.2.1]
  · simp only [region_rect_place, place_top_bottom, place_left_right, place_split, hf, ho,
      apply_ite Placed.overlap_remainder, hq.2.2.2.1]
  · simp only [region_rect_place, place_top_bottom, place_left_right, place_split, hf, ho,
      apply_ite Placed.quad, hq.2.2.2.2]

/-- The alignment chain reads the preferred height for top, bottom and
vertical split and the preferred width for left, right and horizontal split,
and nothing else of the preferred sizes. -/
theorem region_rect_place_prefs (al : Nat) (px py px2 py2 : Int) (ar : ARegion)
    (next : List LRegion) (rm om : rcti) (q : Nat)
    (hy : (al = RGN_ALIGN_TOP ∨ al = RGN_ALIGN_BOTTOM ∨ al = RGN_ALIGN_VSPLIT) → py2 = py)
    (hx : (al = RGN_ALIGN_LEFT ∨ al = RGN_ALIGN_RIGHT ∨ al = RGN_ALIGN_HSPLIT) → px2 = px) :
    region_rect_place al px2 py2 ar next rm om q = region_rect_place al px py ar next rm om q := by
  by_cases hTB : al = RGN_ALIGN_TOP ∨ al = RGN_ALIGN_BOTTOM
  · have e : py2 = py := hy (by tauto)
    subst e
    simp only [region_rect_place, if_pos hTB]
  by_cases hLR : al = RGN_ALIGN_LEFT ∨ al = RGN_ALIGN_RIGHT
  · have e : px2 = px := hx (by tauto)
    subst e
    simp only [region_rect_place, if_neg hTB, if_pos hLR]
  by_cases hH : al = RGN_ALIGN_HSPLIT
  · have e : px2 = px := hx (by tauto)
    subst e
    subst hH
    have e1 : ¬(RGN_ALIGN_HSPLIT = RGN_ALIGN_TOP ∨ RGN_ALIGN_HSPLIT = RGN_ALIGN_BOTTOM) := by
      decide
    have e2 : ¬(RGN_ALIGN_HSPLIT = RGN_ALIGN_LEFT ∨ RGN_ALIGN_HSPLIT = RGN_ALIGN_RIGHT) := by
      decide
    simp only [region_rect_place, place_split, if_neg e1, if_neg e2, if_true, or_true]
  by_cases hV : al = RGN_ALIGN_VSPLIT
  · have e : py2 = py := hy (by tauto)
    subst e
    subst hV
    have e1 : ¬(RGN_ALIGN_VSPLIT = RGN_ALIGN_TOP ∨ RGN_ALIGN_VSPLIT = RGN_ALIGN_BOTTOM) := by
      decide
    have e2 : ¬(RGN_ALIGN_VSPLIT = RGN_ALIGN_LEFT ∨ RGN_ALIGN_VSPLIT = RGN_ALIGN_RIGHT) := by
      decide
    have e3 : ¬RGN_ALIGN_VSPLIT = RGN_ALIGN_HSPLIT := by decide
    simp only [region_rect_place, place_split, if_neg e1, if_neg e2, if_neg e3, if_true, true_or]
  · have e3 : ¬(al = RGN_ALIGN_VSPLIT ∨ al = RGN_ALIGN_HSPLIT) := by tauto
    simp only [region_rect_place, if_neg hTB, if_neg hLR, if_neg e3]

/-- Of the successors the alignment chain reads the count only; it hands them
on as they are or all marked quad-split. -/
theorem region_rect_place_next_congr (al : Nat) (px py : Int) (ar : ARegion)
    (next next2 : List LRegion) (rm om : rcti) (q : Nat) (hlen : next2.length = next.length) :
    (region_rect_place al px py ar next2 rm om q).ar
        = (region_rect_place al px py ar next rm om q).ar ∧
    (region_rect_place al px py ar next2 rm om q).remainder
        = (region_rect_place al px py ar next rm om q).remainder ∧
    (region_rect_place al px py ar next2 rm om q).overlap_remainder
        = (region_rect_place al px py ar next rm om q).overlap_remainder ∧
    (region_rect_place al px py ar next2 rm om q).quad
        = (region_rect_place al px py ar next rm om q).quad ∧
    (((region_rect_place al px py ar next rm om q).next = next ∧
        (region_rect_place al px py ar next2 rm om q).next = next2) ∨
      ((region_rect_place al px py ar next rm om q).next = mark_qsplit next ∧
        (region_rect_place al px py ar next2 rm om q).next = mark_qsplit next2)) := by
  by_cases hal : al = RGN_ALIGN_QSPLIT
  · subst hal
    by_cases hvis : ar.flag &&& RGN_FLAG_HIDDEN = 0
    swap
    · rw [region_rect_place_hidden _ _ _ _ _ _ _ _ hvis,
        region_rect_place_hidden _ _ _ _ _ _ _ _ hvis]
      exact ⟨rfl, rfl, rfl, rfl, Or.inl ⟨rfl, rfl⟩⟩
    by_cases hfit : rm.ymin ≤ rm.ymax ∧ rm.xmin ≤ rm.xmax
    swap
    · rw [region_rect_place_too_small _ _ _ _ _ _ _ _ hvis (by decide) (by omega),
        region_rect_place_too_small _ _ _ _ _ _ _ _ hvis (by decide) (by omega)]
      exact ⟨rfl, rfl, rfl, rfl, Or.inl ⟨rfl, rfl⟩⟩
    rw [region_rect_place_qsplit _ _ _ _ _ _ _ hvis hfit,
      region_rect_place_qsplit _ _ _ _ _ _ _ hvis hfit]
    refine ⟨?_, ?_, ?_, ?_, ?_⟩
    · simp only [place_qsplit, hlen, apply_ite Placed.ar]
    · simp only [place_qsplit, hlen, apply_ite Placed.remainder]
    · simp only [place_qsplit, hlen, apply_ite Placed.overlap_remainder]
    · simp only [place_qsplit, hlen, apply_ite Placed.quad]
    · by_cases hq : q = 0
      · right
        constructor <;> simp only [place_qsplit, hq, if_true, apply_ite Placed.next, ite_self]
      · left
        constructor <;> simp only [place_qsplit, hq, if_false, apply_ite Placed.next, ite_self]
  · refine ⟨?_, ?_, ?_, ?_, Or.inl ⟨region_rect_place_next _ _ _ _ _ _ _ _ hal,
      region_rect_place_next _ _ _ _ _ _ _ _ hal⟩⟩
    · simp only [region_rect_place, place_top_bottom, place_left_right, place_split,
        apply_ite Placed.ar, if_neg hal]
    · simp only [region_rect_place, place_top_bottom, place_left_right, place_split,
        apply_ite Placed.remainder, if_neg hal]
    · simp only [region_rect_place, place_top_bottom, place_left_right, place_split,
        apply_ite Placed.overlap_remainder, if_neg hal]
    · simp only [region_rect_place, place_top_bottom, place_left_right, place_split,
        apply_ite Placed.quad, if_neg hal]

/-- Storing the sizes again after a pass that stored them gives the same
region: the sizes kept for a rect of one pixel or less are those of the pass
before. -/
theorem region_store_size_again (env : LayoutEnv) (a b : Int) (x : ARegion) :
    region_store_size env
        (with_sizes a b (region_store_size env x).sizex (region_store_size env x).sizey x)
      = region_store_size env x := by
  unfold region_store_size with_sizes
  simp only []
  by_cases h1 : short_of_int (BLI_rcti_size_x x.winrct + 1) > 1 <;>
    by_cases h2 : short_of_int (BLI_rcti_size_y x.winrct + 1) > 1 <;>
    simp only [h1, h2, if_true, if_false]

theorem region_rect_finish_done (env : LayoutEnv) (done : List LRegion) (rp : rcti)
    (split : Bool) (al : Nat) (tx ty : Int) (ar2 : ARegion) (next : List LRegion)
    (rm om : rcti) (q : Nat) :
    ∃ ar4 done2,
      (region_rect_finish env done rp split al tx ty ar2 next rm om q).done
        = { ar := ar4, type_prefsizex := tx, type_prefsizey := ty } :: done2 ∧
      region_core ar4 = region_core ar2 ∧ head_resized done done2 := by
  refine ⟨_, _, rfl, ?_, ?_⟩
  · rw [region_core_collapse]
    by_cases h : ar2.overlap = true
    · simp only [h, if_true, region_core_overlap_fix]
    · simp only [h, if_false]
      rfl
  · cases split
    · exact head_resized_refl done
    · exact head_resized_set_prev rm done

theorem region_core_alignment (x y : ARegion) (h : region_core x = region_core y) :
    x.alignment = y.alignment := by
  show (region_core x).alignment = (region_core y).alignment
  rw [h]

theorem region_core_of_resized (x y : LRegion) (h : resized x y) :
    region_core y.ar = region_core x.ar ∧ y.type_prefsizex = x.type_prefsizex ∧
    y.type_prefsizey = x.type_prefsizey := by
  obtain ⟨w, a, b, rfl⟩ := h
  exact ⟨rfl, rfl, rfl⟩

/-- The activation for the region that an activation from the same state
left behind, possibly resized since, under the same consulted preferred
sizes: it leaves the same state, up to the successors handed on. -/
theorem region_rect_body_again (env : LayoutEnv) (s t : LayoutState) (r r2 : LRegion)
    (next next2 : List LRegion) (hs : s.todo = r :: next) (ht : t.todo = r2 :: next2)
    (hlen : next2.length = next.length) (hdone : t.done = s.done)
    (hrem : t.remainder = s.remainder) (hom : t.overlap_remainder = s.overlap_remainder)
    (hq : t.quad = s.quad)
    (hout : ∃ x d, (region_rect_body env s).done = x :: d ∧ resized x r2)
    (hpref : consulted_prefs_agree env (region_alignment r2 next2) r r2) :
    (region_rect_body env t).done = (region_rect_body env s).done ∧
    (region_rect_body env t).remainder = (region_rect_body env s).remainder ∧
    (region_rect_body env t).overlap_remainder = (region_rect_body env s).overlap_remainder ∧
    (region_rect_body env t).quad = (region_rect_body env s).quad ∧
    (((region_rect_body env s).todo = next ∧ (region_rect_body env t).todo = next2) ∨
      ((region_rect_body env s).todo = mark_qsplit next ∧
        (region_rect_body env t).todo = mark_qsplit next2)) := by
  obtain ⟨x, d, hx, hres⟩ := hout
  rw [region_rect_body_eq_finish env s r next hs] at hx ⊢
  rw [region_rect_body_eq_finish env t r2 next2 ht, hdone, hrem, hom, hq]
  obtain ⟨ar4, done2, hfd, hcore4, _⟩ := region_rect_finish_done env s.done s.remainder
    (splits_prev r s.done) (region_alignment r next) r.type_prefsizex r.type_prefsizey
    (region_store_size env (region_rect_place (region_alignment r next)
      (region_prefsizex env r) (region_prefsizey env r) (region_rect_enter env r.ar) next
      (if splits_prev r s.done then prev_winrct s.remainder s.done else s.remainder)
      s.overlap_remainder s.quad).ar)
    (region_rect_place (region_alignment r next)
      (region_prefsizex env r) (region_prefsizey env r) (region_rect_enter env r.ar) next
      (if splits_prev r s.done then prev_winrct s.remainder s.done else s.remainder)
      s.overlap_remainder s.quad).next
    (region_rect_place (region_alignment r next)
      (region_prefsizex env r) (region_prefsizey env r) (region_rect_enter env r.ar) next
      (if splits_prev r s.done then prev_winrct s.remainder s.done else s.remainder)
      s.overlap_remainder s.quad).remainder
    (region_rect_place (region_alignment r next)
      (region_prefsizex env r) (region_prefsizey env r) (region_rect_enter env r.ar) next
      (if splits_prev r s.done then prev_winrct s.remainder s.done else s.remainder)
      s.overlap_remainder s.quad).overlap_remainder
    (region_rect_place (region_alignment r next)
      (region_prefsizex env r) (region_prefsizey env r) (region_rect_enter env r.ar) next
      (if splits_prev r s.done then prev_winrct s.remainder s.done else s.remainder)
      s.overlap_remainder s.quad).quad
  rw [hfd] at hx
  have hx1 : x = ⟨ar4, r.type_prefsizex, r.type_prefsizey⟩ := (List.cons.inj hx).1.symm
  subst hx1
  obtain ⟨hc2, htx, hty⟩ := region_core_of_resized _ _ hres
  -- the core of the region of the second pass
  have hcore : region_core r2.ar =
      { region_core r.ar with
        sizex := (region_store_size env (region_rect_place (region_alignment r next)
          (region_prefsizex env r) (region_prefsizey env r) (region_rect_enter env r.ar) next
          (if splits_prev r s.done then prev_winrct s.remainder s.done else s.remainder)
          s.overlap_remainder s.quad).ar).sizex
        sizey := (region_store_size env (region_rect_place (region_alignment r next)
          (region_prefsizex env r) (region_prefsizey env r) (region_rect_enter env r.ar) next
          (if splits_prev r s.done then prev_winrct s.remainder s.done else s.remainder)
          s.overlap_remainder s.quad).ar).sizey } := by
    rw [hc2]
    show region_core ar4 = _
    rw [hcore4, region_core_store_size, region_core_place, region_core_enter]
  have hal : r2.ar.alignment = r.ar.alignment := by
    show (region_core r2.ar).alignment = (region_core r.ar).alignment
    rw [hcore]
  have hsplit : splits_prev r2 s.done = splits_prev r s.done := by
    simp only [splits_prev, hal]
  have hempty : next2.isEmpty = next.isEmpty := by
    cases next <;> cases next2 <;> simp_all
  have halign : region_alignment r2 next2 = region_alignment r next := by
    simp only [region_alignment, hal, hempty]
  rw [halign] at hpref
  have henter := region_rect_enter_of_core env r.ar r2.ar _ _ hcore
  have hprefs := region_rect_place_prefs (region_alignment r next) (region_prefsizex env r)
    (region_prefsizey env r) (region_prefsizex env r2) (region_prefsizey env r2)
    (region_rect_enter env r2.ar) next2
    (if splits_prev r s.done then prev_winrct s.remainder s.done else s.remainder)
    s.overlap_remainder s.quad hpref.1 hpref.2
  rw [hsplit, halign, hprefs, henter]
  have hws := region_rect_place_with_sizes (region_alignment r next) (region_prefsizex env r)
    (region_prefsizey env r) r2.ar.winx r2.ar.winy
    (region_store_size env (region_rect_place (region_alignment r next)
      (region_prefsizex env r) (region_prefsizey env r) (region_rect_enter env r.ar) next
      (if splits_prev r s.done then prev_winrct s.remainder s.done else s.remainder)
      s.overlap_remainder s.quad).ar).sizex
    (region_store_size env (region_rect_place (region_alignment r next)
      (region_prefsizex env r) (region_prefsizey env r) (region_rect_enter env r.ar) next
      (if splits_prev r s.done then prev_winrct s.remainder s.done else s.remainder)
      s.overlap_remainder s.quad).ar).sizey
    (region_rect_enter env r.ar) next2
    (if splits_prev r s.done then prev_winrct s.remainder s.done else s.remainder)
    s.overlap_remainder s.quad
  have hnc := region_rect_place_next_congr (region_alignment r next) (region_prefsizex env r)
    (region_prefsizey env r) (region_rect_enter env r.ar) next next2
    (if splits_prev r s.done then prev_winrct s.remainder s.done else s.remainder)
    s.overlap_remainder s.quad hlen
  rw [hws.1, hws.2.2.1, hws.2.2.2.1, hws.2.2.2.2, hnc.1, hnc.2.1, hnc.2.2.1, hnc.2.2.2.1,
    region_store_size_again, htx, hty]
  refine ⟨rfl, rfl, rfl, rfl, ?_⟩
  rw [hws.2.1]
  exact hnc.2.2.2.2

theorem resized_alignment (x y : LRegion) (h : resized x y) :
    y.ar.alignment = x.ar.alignment := by
  obtain ⟨w, a, b, rfl⟩ := h
  rfl

/-- One activation puts the region at the head of the chain of the regions
done, with the alignment it had, resizes at most its predecessor, and hands
the successors on as they are or all marked quad-split. -/
theorem region_rect_body_out (env : LayoutEnv) (s : LayoutState) (r : LRegion)
    (next : List LRegion) (hs : s.todo = r :: next) :
    ∃ x d2, (region_rect_body env s).done = x :: d2 ∧ head_resized s.done d2 ∧
      x.ar.alignment = r.ar.alignment ∧
      ((region_rect_body env s).todo = next ∨
        (region_rect_body env s).todo = mark_qsplit next) := by
  rw [region_rect_body_eq_finish env s r next hs]
  obtain ⟨ar4, done2, hfd, hcore4, hhead⟩ := region_rect_finish_done env s.done s.remainder
    (splits_prev r s.done) (region_alignment r next) r.type_prefsizex r.type_prefsizey
    (region_store_size env (region_rect_place (region_alignment r next)
      (region_prefsizex env r) (region_prefsizey env r) (region_rect_enter env r.ar) next
      (if splits_prev r s.done then prev_winrct s.remainder s.done else s.remainder)
      s.overlap_remainder s.quad).ar)
    (region_rect_place (region_alignment r next)
      (region_prefsizex env r) (region_prefsizey env r) (region_rect_enter env r.ar) next
      (if splits_prev r s.done then prev_winrct s.remainder s.done else s.remainder)
      s.overlap_remainder s.quad).next
    (region_rect_place (region_alignment r next)
      (region_prefsizex env r) (region_prefsizey env r) (region_rect_enter env r.ar) next
      (if splits_prev r s.done then prev_winrct s.remainder s.done else s.remainder)
      s.overlap_remainder s.quad).remainder
    (region_rect_place (region_alignment r next)
      (region_prefsizex env r) (region_prefsizey env r) (region_rect_enter env r.ar) next
      (if splits_prev r s.done then prev_winrct s.remainder s.done else s.remainder)
      s.overlap_remainder s.quad).overlap_remainder
    (region_rect_place (region_alignment r next)
      (region_prefsizex env r) (region_prefsizey env r) (region_rect_enter env r.ar) next
      (if splits_prev r s.done then prev_winrct s.remainder s.done else s.remainder)
      s.overlap_remainder s.quad).quad
  refine ⟨_, _, hfd, hhead, ?_, ?_⟩
  · show ar4.alignment = r.ar.alignment
    rw [region_core_alignment _ _ hcore4]
    show (region_rect_place _ _ _ _ _ _ _ _).ar.alignment = _
    rw [region_rect_place_alignment]
    rfl
  · have hnc := region_rect_place_next_congr (region_alignment r next) (region_prefsizex env r)
      (region_prefsizey env r) (region_rect_enter env r.ar) next next
      (if splits_prev r s.done then prev_winrct s.remainder s.done else s.remainder)
      s.overlap_remainder s.quad rfl
    rcases hnc.2.2.2.2 with h | h
    · exact Or.inl h.1
    · exact Or.inr h.1

theorem mark_qsplit_alignment (l : List LRegion) :
    ∀ r ∈ mark_qsplit l, r.ar.alignment = RGN_ALIGN_QSPLIT := by
  intro r hr
  simp only [mark_qsplit, List.mem_map] at hr
  obtain ⟨r0, _, rfl⟩ := hr
  rfl

/-- The layout pass puts the regions it was given in front of the chain of
the regions done, in reverse order; of the regions done before, it resizes
the head at most; regions that are all quad-split stay so. -/
theorem region_rect_recursive_done (env : LayoutEnv) (n : Nat) :
    ∀ s : LayoutState, s.todo.length = n →
      ∃ new d2, (region_rect_recursive env s).done = new ++ d2 ∧ new.length = n ∧
        head_resized s.done d2 ∧
        ((∀ r ∈ s.todo, r.ar.alignment = RGN_ALIGN_QSPLIT) →
          ∀ x ∈ new, x.ar.alignment = RGN_ALIGN_QSPLIT) := by
  induction n with
  | zero =>
    intro s hn
    rw [region_rect_recursive_nil env s (List.length_eq_zero.mp hn)]
    exact ⟨[], s.done, rfl, rfl, head_resized_refl _, fun _ x hx => absurd hx (List.not_mem_nil x)⟩
  | succ n ih =>
    intro s hn
    obtain ⟨r, next, hs⟩ : ∃ r next, s.todo = r :: next := by
      cases h : s.todo with
      | nil => rw [h] at hn; exact absurd hn (by simp)
      | cons r next => exact ⟨r, next, rfl⟩
    have hne : s.todo ≠ [] := by rw [hs]; exact List.cons_ne_nil _ _
    obtain ⟨x, d2, hbd, hhead, hxal, htodo⟩ := region_rect_body_out env s r next hs
    obtain ⟨new1, d3, hrec, hlen1, hhead1, hq1⟩ := ih (region_rect_body env s)
      (by rw [region_rect_body_todo_length, hn]; rfl)
    rw [hbd] at hhead1
    obtain ⟨x2, hd3, hres⟩ := hhead1
    refine ⟨new1 ++ [x2], d2, ?_, ?_, hhead, ?_⟩
    · rw [region_rect_recursive_cons env s hne, hrec, hd3]
      simp
    · simp [hlen1]
    · intro hall y hy
      rw [hs] at hall
      rcases List.mem_append.1 hy with hy | hy
      · refine hq1 ?_ y hy
        rcases htodo with h | h
        · rw [h]
          exact fun r0 hr0 => hall r0 (List.mem_cons_of_mem _ hr0)
        · rw [h]
          exact mark_qsplit_alignment next
      · rw [List.mem_singleton] at hy
        rw [hy, resized_alignment _ _ hres, hxal]
        exact hall r (List.mem_cons_self _ _)

theorem same_consulted_prefs_mark (env : LayoutEnv) (l l2 : List LRegion)
    (h : same_consulted_prefs env l l2) : same_consulted_prefs env (mark_qsplit l) l2 := by
  induction l generalizing l2 with
  | nil => simp [mark_qsplit, same_consulted_prefs]
  | cons r l ih =>
    cases l2 with
    | nil => simp [mark_qsplit, same_consulted_prefs]
    | cons r2 l2 =>
      simp only [mark_qsplit, List.map_cons, same_consulted_prefs] at h ⊢
      exact ⟨h.1, ih l2 h.2⟩

/-- A pass over the regions that a pass from the same state leaves behind,
under the same consulted preferred sizes, builds the same chain. -/
theorem region_rect_recursive_again (env : LayoutEnv) (n : Nat) :
    ∀ s t : LayoutState, s.todo.length = n → t.todo.length = n → t.done = s.done →
      t.remainder = s.remainder → t.overlap_remainder = s.overlap_remainder →
      t.quad = s.quad →
      (∃ d, (region_rect_recursive env s).done = t.todo.reverse ++ d) →
      same_consulted_prefs env s.todo t.todo →
      (region_rect_recursive env t).done = (region_rect_recursive env s).done := by
  induction n with
  | zero =>
    intro s t hsn htn hdone _ _ _ _ _
    rw [region_rect_recursive_nil env s (List.length_eq_zero.mp hsn),
      region_rect_recursive_nil env t (List.length_eq_zero.mp htn), hdone]
  | succ n ih =>
    intro s t hsn htn hdone hrem hom hq hfin hpref
    obtain ⟨r, next, hs⟩ : ∃ r next, s.todo = r :: next := by
      cases h : s.todo with
      | nil => rw [h] at hsn; exact absurd hsn (by simp)
      | cons r next => exact ⟨r, next, rfl⟩
    obtain ⟨r2, next2, ht⟩ : ∃ r2 next2, t.todo = r2 :: next2 := by
      cases h : t.todo with
      | nil => rw [h] at htn; exact absurd htn (by simp)
      | cons r2 next2 => exact ⟨r2, next2, rfl⟩
    have hsne : s.todo ≠ [] := by rw [hs]; exact List.cons_ne_nil _ _
    have htne : t.todo ≠ [] := by rw [ht]; exact List.cons_ne_nil _ _
    have hln : next.length = n := by rw [hs] at hsn; simpa using hsn
    have hln2 : next2.length = n := by rw [ht] at htn; simpa using htn
    obtain ⟨d, hd⟩ := hfin
    rw [ht, List.reverse_cons, List.append_assoc, List.singleton_append] at hd
    -- the final version of the head region
    obtain ⟨x, d2, hbd, _, _, htodo⟩ := region_rect_body_out env s r next hs
    obtain ⟨new1, d3, hrec, hlen1, hhead1, hq1⟩ := region_rect_recursive_done env n
      (region_rect_body env s) (by rw [region_rect_body_todo_length, hsn]; rfl)
    rw [hbd] at hhead1
    obtain ⟨x2, hd3, hres⟩ := hhead1
    rw [region_rect_recursive_cons env s hsne, hrec, hd3] at hd
    have hinj := List.append_inj hd (by rw [hlen1, List.length_reverse, hln2])
    have hx2 : x2 = r2 := (List.cons.inj hinj.2).1
    subst hx2
    rw [hs, ht] at hpref
    obtain ⟨hp1, hp2⟩ := hpref
    obtain ⟨k1, k2, k3, k4, k5⟩ := region_rect_body_again env s t r x2 next next2 hs ht
      (by rw [hln, hln2]) hdone hrem hom hq ⟨x, d2, hbd, hres⟩ hp1
    rw [region_rect_recursive_cons env s hsne, region_rect_recursive_cons env t htne]
    have hmark : (region_rect_body env s).todo = mark_qsplit next → mark_qsplit next2 = next2 := by
      intro hm
      apply mark_qsplit_of_all
      intro y hy
      refine hq1 ?_ y ?_
      · rw [hm]; exact mark_qsplit_alignment next
      · rw [hinj.1]; exact List.mem_reverse.2 hy
    have htodo2 : (region_rect_body env t).todo = next2 := by
      rcases k5 with h | h
      · exact h.2
      · rw [h.2, hmark h.1]
    refine ih (region_rect_body env s) (region_rect_body env t)
      (by rw [region_rect_body_todo_length, hsn]; rfl)
      (by rw [region_rect_body_todo_length, htn]; rfl) k1 k2 k3 k4 ?_ ?_
    · rw [htodo2, hrec, hd3]
      exact ⟨x2 :: d2, by rw [hinj.1]⟩
    · rw [htodo2]
      rcases k5 with h | h
      · rw [h.1]; exact hp2
      · rw [h.1]; exact same_consulted_prefs_mark env next next2 hp2

/-- C15 as stated fails. At 1x DPI, on an area 8 pixels wide, a
horizontal-split region followed by a window region: the first pass splits
the area at its center and stores the width 4, the second pass reads 4 as the
preferred width, finds `8 - 4 > 4` false and gives the region the whole area.
At a DPI factor of 2, on an area of 1001 x 801 pixels, a left-aligned tool
region of preferred width 200: the first pass gives it 400 pixels and stores
the width 200, from which the second pass computes 401 pixels. -/
theorem layout_pass_twice_differs :
    ((layout_pass example_env ⟨0, 7, 0, 99⟩ [example_hsplit, example_window]).map
        fun r => (r.ar.winrct, r.ar.sizex)) = [(⟨0, 3, 0, 99⟩, 4), (⟨4, 7, 0, 99⟩, 4)] ∧
    ((layout_pass example_env ⟨0, 7, 0, 99⟩
        (layout_pass example_env ⟨0, 7, 0, 99⟩ [example_hsplit, example_window])).map
        fun r => (r.ar.winrct, r.ar.sizex)) = [(⟨0, 7, 0, 99⟩, 8), (⟨0, 0, 0, 0⟩, 4)] ∧
    ((layout_pass example_env_2x ⟨0, 1000, 0, 800⟩ [example_tools, example_window]).map
        fun r => (r.ar.winrct, r.ar.sizex))
      = [(⟨0, 399, 0, 800⟩, 200), (⟨400, 1000, 0, 800⟩, 300)] ∧
    ((layout_pass example_env_2x ⟨0, 1000, 0, 800⟩
        (layout_pass example_env_2x ⟨0, 1000, 0, 800⟩ [example_tools, example_window])).map
        fun r => (r.ar.winrct, r.ar.sizex))
      = [(⟨0, 400, 0, 800⟩, 200), (⟨401, 1000, 0, 800⟩, 300)] := by
  have h1 : layout_pass example_env ⟨0, 7, 0, 99⟩ [example_hsplit, example_window] =
      [{ example_hsplit with ar := { example_hsplit.ar with
            winrct := ⟨0, 3, 0, 99⟩, winx := 4, winy := 100, sizex := 4, sizey := 100 } },
        { example_window with ar := { example_window.ar with
            winrct := ⟨4, 7, 0, 99⟩, winx := 4, winy := 100, sizex := 4, sizey := 100 } }] := by
    rw [layout_pass, region_rect_recursive_eq_iterate]
    decide
  have h2 : layout_pass example_env_2x ⟨0, 1000, 0, 800⟩ [example_tools, example_window] =
      [{ example_tools with ar := { example_tools.ar with
            winrct := ⟨0, 399, 0, 800⟩, winx := 400, winy := 801, sizex := 200, sizey := 400 } },
        { example_window with ar := { example_window.ar with
            winrct := ⟨400, 1000, 0, 800⟩, winx := 601, winy := 801, sizex := 300,
            sizey := 400 } }] := by
    rw [layout_pass, region_rect_recursive_eq_iterate]
    decide
  refine ⟨?_, ?_, ?_, ?_⟩
  · rw [h1]; decide
  · rw [h1, layout_pass, region_rect_recursive_eq_iterate]; decide
  · rw [h2]; decide
  · rw [h2, layout_pass, region_rect_recursive_eq_iterate]; decide

/-- C15, amended: a second run of `region_rect_recursive` on the regions the
first run left, with the same total rect, environment and region order,
leaves every region exactly as the first run left it (window rect, flags,
`winx`, `winy`, stored `sizex` and `sizey`), provided that for every region
the preferred size its alignment reads (the height for top, bottom and
vertical split, the width for left, right and horizontal split), computed
from the sizes the first run stored, equals the preferred size the first run
computed. -/
theorem layout_pass_again (env : LayoutEnv) (totrct : rcti) (regions : List LRegion)
    (hpref : same_consulted_prefs env regions (layout_pass env totrct regions)) :
    layout_pass env totrct (layout_pass env totrct regions) = layout_pass env totrct regions := by
  have hlen : (layout_pass env totrct regions).length = regions.length := by
    unfold layout_pass
    rw [List.length_reverse, region_rect_recursive_done_length]
    simp [layout_start]
  unfold layout_pass at hpref ⊢
  congr 1
  exact region_rect_recursive_again env regions.length (layout_start totrct regions)
    (layout_start totrct (region_rect_recursive env (layout_start totrct regions)).done.reverse)
    rfl hlen rfl rfl rfl rfl ⟨[], by simp [layout_start]⟩ hpref

/-- C15, amended, at a concrete input: at 1x DPI, an area of 1001 x 801
pixels with a header, a left-aligned tool region and the window region. -/
theorem layout_pass_again_witness :
    same_consulted_prefs example_env [example_header, example_tools, example_window]
      (layout_pass example_env ⟨0, 1000, 0, 800⟩
        [example_header, example_tools, example_window]) ∧
    layout_pass example_env ⟨0, 1000, 0, 800⟩
      (layout_pass example_env ⟨0, 1000, 0, 800⟩
        [example_header, example_tools, example_window])
      = layout_pass example_env ⟨0, 1000, 0, 800⟩
        [example_header, example_tools, example_window] :=
  ⟨by rw [layout_pass, region_rect_recursive_eq_iterate]; decide,
    layout_pass_again example_env ⟨0, 1000, 0, 800⟩
      [example_header, example_tools, example_window]
      (by rw [layout_pass, region_rect_recursive_eq_iterate]; decide)⟩

/-! ## C16: the tab of a hidden or too-small region -/

theorem scrollbar_initialize_zones (env : UIEnv) (sa : ScrArea) (ar : AreaRegion) (d : Nat) :
    ∃ az, ( region_azone_scrollbar_initialize env sa ar d).1.actionzones = sa.actionzones ++ [az] ∧
      az.type = AZONE_REGION_SCROLL :=
  ⟨_, rfl, rfl⟩

theorem scrollbars_initialize_zones (env : UIEnv) (sa : ScrArea) (ar : AreaRegion) :
    ∃ rest, ( region_azones_scrollbars_initialize env sa ar).1.actionzones
        = sa.actionzones ++ rest ∧ ∀ z ∈ rest, z.type = AZONE_REGION_SCROLL := by
  unfold region_azones_scrollbars_initialize
  by_cases h1 : ar.v2d.scroll &&& V2D_SCROLL_VERTICAL ≠ 0 ∧
      ar.v2d.scroll &&& V2D_SCROLL_SCALE_VERTICAL = 0
  · obtain ⟨az1, hz1, ht1⟩ := scrollbar_initialize_zones env sa ar AZ_SCROLL_VERT
    by_cases h2 : ar.v2d.scroll &&& V2D_SCROLL_HORIZONTAL ≠ 0 ∧
        ar.v2d.scroll &&& V2D_SCROLL_SCALE_HORIZONTAL = 0
    · simp only [if_pos h1, if_pos h2]
      obtain ⟨az2, hz2, ht2⟩ := scrollbar_initialize_zones env
        ( region_azone_scrollbar_initialize env sa ar AZ_SCROLL_VERT).1
        ( region_azone_scrollbar_initialize env sa ar AZ_SCROLL_VERT).2 AZ_SCROLL_HOR
      refine ⟨[az1, az2], ?_, ?_⟩
      · rw [hz2, hz1]; simp
      · intro z hz
        simp only [List.mem_cons, List.mem_singleton, List.not_mem_nil, or_false] at hz
        rcases hz with rfl | rfl
        · exact ht1
        · exact ht2
    · simp only [if_pos h1, if_neg h2]
      refine ⟨[az1], hz1, ?_⟩
      intro z hz
      rw [List.mem_singleton] at hz
      rw [hz]; exact ht1
  · by_cases h2 : ar.v2d.scroll &&& V2D_SCROLL_HORIZONTAL ≠ 0 ∧
        ar.v2d.scroll &&& V2D_SCROLL_SCALE_HORIZONTAL = 0
    · simp only [if_neg h1, if_pos h2]
      obtain ⟨az2, hz2, ht2⟩ := scrollbar_initialize_zones env sa ar AZ_SCROLL_HOR
      refine ⟨[az2], hz2, ?_⟩
      intro z hz
      rw [List.mem_singleton] at hz
      rw [hz]; exact ht2
    · simp only [if_neg h1, if_neg h2]
      exact ⟨[], by simp, by simp⟩

theorem region_azone_tab_plus_owner (env : UIEnv) (sa : ScrArea) (az : AZone) (ar : ARegion) :
    (region_azone_tab_plus env sa az ar).type = az.type ∧
    (region_azone_tab_plus env sa az ar).ar = az.ar ∧
    (region_azone_tab_plus env sa az ar).edge = az.edge := by
  unfold region_azone_tab_plus azone_init_rect
  refine ⟨?_, ?_, ?_⟩ <;> split_ifs <;> rfl

/-- The zone added by `region_azone_edge_initialize` for a hidden or too-small
region outside the fullscreen state is the tab. -/
theorem region_azone_edge_initialize_hidden (env : UIEnv) (sa : ScrArea) (ar : AreaRegion)
    (edge : Nat) (hhid : ar.ar.flag &&& (RGN_FLAG_HIDDEN ||| RGN_FLAG_TOO_SMALL) ≠ 0) :
    ( region_azone_edge_initialize env sa ar edge false).actionzones =
      sa.actionzones ++ [region_azone_tab_plus env sa
        { azone_calloc with type := AZONE_REGION, ar := some ar.id, edge := edge } ar.ar] := by
  simp [ region_azone_edge_initialize, hhid]

/-- C16 as stated fails in the fullscreen screen state and for a header as
tall as its area: `region_azones_add` leaves the zone list of `example_area`
empty for the hidden left-aligned tool region when the screen is fullscreen,
and for the too-small top-aligned header of the height of the area on a
normal screen. -/
theorem hidden_region_without_tab :
    example_hidden_tools.ar.flag &&& (RGN_FLAG_HIDDEN ||| RGN_FLAG_TOO_SMALL) ≠ 0 ∧
    (region_azones_add example_fullscreen_env example_area example_hidden_tools
        RGN_ALIGN_LEFT).1.actionzones = [] ∧
    example_tall_header.ar.flag &&& (RGN_FLAG_HIDDEN ||| RGN_FLAG_TOO_SMALL) ≠ 0 ∧
    (region_azones_add example_ui_env example_area example_tall_header
        RGN_ALIGN_TOP).1.actionzones = [] := by
  decide

/-- C16, amended: when the screen is not in the fullscreen state, for every
region flagged hidden or too-small, other than a header with
`winy + 6 > sa->winy`, and for an alignment top, bottom, left or right,
`region_azones_add` appends to the zone list of the area a zone of kind
`AZONE_REGION` owned by the region, on the edge of its alignment
(top: `AE_BOTTOM_TO_TOPLEFT`, bottom: `AE_TOP_TO_BOTTOMRIGHT`, right:
`AE_LEFT_TO_TOPRIGHT`, left: `AE_RIGHT_TO_TOPLEFT`), with the coordinates of
the tab (`region_azone_tab_plus`); only scrollbar zones follow it. -/
theorem hidden_region_gets_tab (env : UIEnv) (sa : ScrArea) (ar : AreaRegion) (alignment : Nat)
    (hstate : env.screen_state ≠ SCREENFULL)
    (hhid : ar.ar.flag &&& (RGN_FLAG_HIDDEN ||| RGN_FLAG_TOO_SMALL) ≠ 0)
    (hhead : ¬(ar.ar.regiontype = RGN_TYPE_HEADER ∧ ar.ar.winy + 6 > sa.winy))
    (hal : alignment = RGN_ALIGN_TOP ∨ alignment = RGN_ALIGN_BOTTOM ∨
      alignment = RGN_ALIGN_LEFT ∨ alignment = RGN_ALIGN_RIGHT) :
    ∃ az rest,
      (region_azones_add env sa ar alignment).1.actionzones = sa.actionzones ++ az :: rest ∧
      az.type = AZONE_REGION ∧ az.ar = some ar.id ∧
      az.edge = (if alignment = RGN_ALIGN_TOP then AE_BOTTOM_TO_TOPLEFT
        else if alignment = RGN_ALIGN_BOTTOM then AE_TOP_TO_BOTTOMRIGHT
        else if alignment = RGN_ALIGN_RIGHT then AE_LEFT_TO_TOPRIGHT
        else AE_RIGHT_TO_TOPLEFT) ∧
      az = region_azone_tab_plus env sa
        { azone_calloc with type := AZONE_REGION, ar := some ar.id, edge := az.edge } ar.ar ∧
      ∀ z ∈ rest, z.type = AZONE_REGION_SCROLL := by
  have hfull : decide (env.screen_state = SCREENFULL) = false := by simp [hstate]
  have key : ∀ edge : Nat, ∀ sa1 : ScrArea,
      sa1.actionzones = sa.actionzones ++ [region_azone_tab_plus env sa
        { azone_calloc with type := AZONE_REGION, ar := some ar.id, edge := edge } ar.ar] →
      ∃ az rest,
        ( region_azones_scrollbars_initialize env sa1 ar).1.actionzones
          = sa.actionzones ++ az :: rest ∧
        az.type = AZONE_REGION ∧ az.ar = some ar.id ∧ az.edge = edge ∧
        az = region_azone_tab_plus env sa
          { azone_calloc with type := AZONE_REGION, ar := some ar.id, edge := az.edge } ar.ar ∧
        ∀ z ∈ rest, z.type = AZONE_REGION_SCROLL := by
    intro edge sa1 h1
    obtain ⟨rest, hrest, hall⟩ := scrollbars_initialize_zones env sa1 ar
    have ho := region_azone_tab_plus_owner env sa
      { azone_calloc with type := AZONE_REGION, ar := some ar.id, edge := edge } ar.ar
    refine ⟨_, rest, ?_, ho.1, ho.2.1, ho.2.2, ?_, hall⟩
    · rw [hrest, h1]; simp
    · rw [ho.2.2]
  unfold region_azones_add
  simp only [hfull, Bool.false_eq_true, if_false, if_neg hhead]
  rcases hal with h | h | h | h <;> subst h
  · simp only [if_true]
    exact key _ _ (region_azone_edge_initialize_hidden env sa ar _ hhid)
  · have e1 : ¬RGN_ALIGN_BOTTOM = RGN_ALIGN_TOP := by decide
    simp only [if_neg e1, if_true]
    exact key _ _ (region_azone_edge_initialize_hidden env sa ar _ hhid)
  · have e1 : ¬RGN_ALIGN_LEFT = RGN_ALIGN_TOP := by decide
    have e2 : ¬RGN_ALIGN_LEFT = RGN_ALIGN_BOTTOM := by decide
    have e3 : ¬RGN_ALIGN_LEFT = RGN_ALIGN_RIGHT := by decide
    simp only [if_neg e1, if_neg e2, if_neg e3, if_true]
    exact key _ _ (region_azone_edge_initialize_hidden env sa ar _ hhid)
  · have e1 : ¬RGN_ALIGN_RIGHT = RGN_ALIGN_TOP := by decide
    have e2 : ¬RGN_ALIGN_RIGHT = RGN_ALIGN_BOTTOM := by decide
    simp only [if_neg e1, if_neg e2, if_true]
    exact key _ _ (region_azone_edge_initialize_hidden env sa ar _ hhid)

/-- C16, amended, at a concrete input: the hidden left-aligned tool region in
`example_area` on a normal screen. -/
theorem hidden_region_gets_tab_witness :
    ∃ az rest,
      (region_azones_add example_ui_env example_area example_hidden_tools
        RGN_ALIGN_LEFT).1.actionzones = example_area.actionzones ++ az :: rest ∧
      az.type = AZONE_REGION ∧ az.ar = some example_hidden_tools.id ∧
      az.edge = (if RGN_ALIGN_LEFT = RGN_ALIGN_TOP then AE_BOTTOM_TO_TOPLEFT
        else if RGN_ALIGN_LEFT = RGN_ALIGN_BOTTOM then AE_TOP_TO_BOTTOMRIGHT
        else if RGN_ALIGN_LEFT = RGN_ALIGN_RIGHT then AE_LEFT_TO_TOPRIGHT
        else AE_RIGHT_TO_TOPLEFT) ∧
      az = region_azone_tab_plus example_ui_env example_area
        { azone_calloc with type := AZONE_REGION, ar := some example_hidden_tools.id,
                            edge := az.edge } example_hidden_tools.ar ∧
      ∀ z ∈ rest, z.type = AZONE_REGION_SCROLL :=
  hidden_region_gets_tab example_ui_env example_area example_hidden_tools RGN_ALIGN_LEFT
    (by decide) (by decide) (by decide) (by decide)

/-! ## C17: drawing requests a re-evaluation of the zones -/

theorem area_azone_tag_update_twice (sa : ScrArea) :
    area_azone_tag_update (area_azone_tag_update sa) = area_azone_tag_update sa := by
  simp [area_azone_tag_update, Nat.or_assoc]

/-- The loop of `region_draw_azones` tags the area when a fullscreen or
scroll zone over the draw rect has non-zero alpha, and leaves it as it is
otherwise. -/
theorem region_draw_azones_fold (ar : ARegion) (zones : List AZone) (sa : ScrArea) :
    zones.foldl (region_draw_azone ar) sa =
      if ∃ az ∈ zones, BLI_rcti_isect ar.drawrct (BLI_rcti_init az.x1 az.x2 az.y1 az.y2) = true ∧
          (az.type = AZONE_FULLSCREEN ∨ az.type = AZONE_REGION_SCROLL) ∧
          az.alpha_nonzero = true then
        area_azone_tag_update sa
      else sa := by
  induction zones generalizing sa with
  | nil => simp
  | cons z rest ih =>
    rw [List.foldl_cons, ih]
    by_cases hz : BLI_rcti_isect ar.drawrct (BLI_rcti_init z.x1 z.x2 z.y1 z.y2) = true ∧
        (z.type = AZONE_FULLSCREEN ∨ z.type = AZONE_REGION_SCROLL) ∧ z.alpha_nonzero = true
    · have hstep : region_draw_azone ar sa z = area_azone_tag_update sa := by
        obtain ⟨h1, h2, h3⟩ := hz
        unfold region_draw_azone
        rcases h2 with h2 | h2
        · have e1 : ¬z.type = AZONE_AREA := by rw [h2]; decide
          have e2 : ¬z.type = AZONE_REGION := by rw [h2]; decide
          simp only [h1, if_true, if_neg e1, if_neg e2, if_pos h2, h3]
        · have e1 : ¬z.type = AZONE_AREA := by rw [h2]; decide
          have e2 : ¬z.type = AZONE_REGION := by rw [h2]; decide
          have e3 : ¬z.type = AZONE_FULLSCREEN := by rw [h2]; decide
          simp only [h1, if_true, if_neg e1, if_neg e2, if_neg e3, if_pos h2, h3]
      have hex : ∃ az ∈ z :: rest,
          BLI_rcti_isect ar.drawrct (BLI_rcti_init az.x1 az.x2 az.y1 az.y2) = true ∧
          (az.type = AZONE_FULLSCREEN ∨ az.type = AZONE_REGION_SCROLL) ∧
          az.alpha_nonzero = true := ⟨z, List.mem_cons_self _ _, hz⟩
      rw [hstep, if_pos hex, area_azone_tag_update_twice, ite_self]
    · have hstep : region_draw_azone ar sa z = sa := by
        unfold region_draw_azone
        by_cases h1 : BLI_rcti_isect ar.drawrct (BLI_rcti_init z.x1 z.x2 z.y1 z.y2) = true
        · simp only [h1, if_true]
          by_cases e1 : z.type = AZONE_AREA
          · rw [if_pos e1]
          rw [if_neg e1]
          by_cases e2 : z.type = AZONE_REGION
          · rw [if_pos e2]
          rw [if_neg e2]
          by_cases e3 : z.type = AZONE_FULLSCREEN
          · have h3 : ¬z.alpha_nonzero = true := fun h => hz ⟨h1, Or.inl e3, h⟩
            rw [if_pos e3, if_neg h3]
          rw [if_neg e3]
          by_cases e4 : z.type = AZONE_REGION_SCROLL
          · have h3 : ¬z.alpha_nonzero = true := fun h => hz ⟨h1, Or.inr e4, h⟩
            rw [if_pos e4, if_neg h3]
          rw [if_neg e4]
        · rw [if_neg h1]
      rw [hstep]
      have hiff : (∃ az ∈ z :: rest,
          BLI_rcti_isect ar.drawrct (BLI_rcti_init az.x1 az.x2 az.y1 az.y2) = true ∧
          (az.type = AZONE_FULLSCREEN ∨ az.type = AZONE_REGION_SCROLL) ∧
          az.alpha_nonzero = true) ↔
          ∃ az ∈ rest,
          BLI_rcti_isect ar.drawrct (BLI_rcti_init az.x1 az.x2 az.y1 az.y2) = true ∧
          (az.type = AZONE_FULLSCREEN ∨ az.type = AZONE_REGION_SCROLL) ∧
          az.alpha_nonzero = true := by
        constructor
        · rintro ⟨az, hmem, haz⟩
          rcases List.mem_cons.1 hmem with rfl | hmem
          · exact absurd haz hz
          · exact ⟨az, hmem, haz⟩
        · rintro ⟨az, hmem, haz⟩
          exact ⟨az, List.mem_cons_of_mem _ hmem, haz⟩
      simp only [hiff]

/-- C17 as stated fails for a zone that does not lie over the draw rect of
the region: with the fullscreen zone of non-zero alpha in the top right
corner of `example_area`, drawing the zones for a region whose draw rect is
the strip at the left leaves `AREA_FLAG_ACTIONZONES_UPDATE` unset. -/
theorem draw_azones_zone_elsewhere :
    example_fullscreen_zone.type = AZONE_FULLSCREEN ∧
    example_fullscreen_zone.alpha_nonzero = true ∧
    region_draw_azones (some { example_area with actionzones := [example_fullscreen_zone] })
        example_drawn_tools
      = some { example_area with actionzones := [example_fullscreen_zone] } ∧
    ({ example_area with actionzones := [example_fullscreen_zone] } : ScrArea).flag
      &&& AREA_FLAG_ACTIONZONES_UPDATE = 0 := by
  decide

/-- C17, amended: after `region_draw_azones` for a region of a non-NULL area,
`AREA_FLAG_ACTIONZONES_UPDATE` is set (by `area_azone_tag_update`) when some
`AZONE_FULLSCREEN` or `AZONE_REGION_SCROLL` zone of the area whose rect (the
rect between `x1` and `x2`, `y1` and `y2`, its bounds put in ascending order
by `BLI_rcti_init`) intersects the draw rect of the region has alpha
different from 0; when there is no such zone the area is left as it was. -/
theorem draw_azones_requests_update (sa : ScrArea) (ar : ARegion) :
    region_draw_azones (some sa) ar =
      some (if ∃ az ∈ sa.actionzones,
            BLI_rcti_isect ar.drawrct (BLI_rcti_init az.x1 az.x2 az.y1 az.y2) = true ∧
            (az.type = AZONE_FULLSCREEN ∨ az.type = AZONE_REGION_SCROLL) ∧
            az.alpha_nonzero = true then
          { sa with flag := sa.flag ||| AREA_FLAG_ACTIONZONES_UPDATE }
        else sa) := by
  show some (sa.actionzones.foldl (region_draw_azone ar) sa) = _
  rw [region_draw_azones_fold]
  rfl

/-- A zone given with `x1 > x2` counts with the rect between its bounds: a
scroll zone with non-zero alpha and the coordinates `x1 = 201, x2 = 197`,
`y1 = 0, y2 = 770` lies over the draw rect `(0,0)-(200,800)`, and drawing the
region sets `AREA_FLAG_ACTIONZONES_UPDATE`. -/
theorem draw_azones_zone_given_backwards :
    BLI_rcti_init 201 197 0 770 = ⟨197, 201, 0, 770⟩ ∧
    (region_draw_azones
        (some { example_area with
          actionzones := [{ azone_calloc with type := AZONE_REGION_SCROLL, x1 := 201, y1 := 0,
                                              x2 := 197, y2 := 770, alpha_nonzero := true }] })
        example_drawn_tools).map (fun sa => sa.flag) = some AREA_FLAG_ACTIONZONES_UPDATE := by
  decide

/-! ## C18: the action zones are regenerated from scratch -/

/-- `area_azone_initialize` does not read the zone list it is given. -/
theorem area_azone_initialize_fresh (env : UIEnv) (sa : ScrArea) (zones : List AZone) :
    area_azone_initialize env { sa with actionzones := zones }
      = area_azone_initialize env { sa with actionzones := [] } := by
  simp only [ area_azone_initialize, layout_env]

/-- The zone regeneration does not read the zone list it is given: two
areas that differ in the previous zone list only end as the same area. -/
theorem azones_regenerate_forgets_zones (env : UIEnv) (sa : ScrArea)
    (zones1 zones2 : List AZone) :
    area_azones_regenerate env { sa with actionzones := zones1 }
      = area_azones_regenerate env { sa with actionzones := zones2 } := by
  unfold area_azones_regenerate
  rw [area_azone_initialize_fresh env sa zones1, area_azone_initialize_fresh env sa zones2]

theorem zipWith_ar_ids (rs : List AreaRegion) (ars : List ARegion) (h : ars.length = rs.length) :
    (List.zipWith (fun (r : AreaRegion) (a : ARegion) => { r with ar := a }) rs ars).map
      AreaRegion.id = rs.map AreaRegion.id := by
  induction rs generalizing ars with
  | nil => simp
  | cons r rs ih =>
    cases ars with
    | nil => simp at h
    | cons a ars =>
      simp only [List.zipWith_cons_cons, List.map_cons]
      rw [ih ars (by simpa using h)]

theorem edge_initialize_frame (env : UIEnv) (sa : ScrArea) (ar : AreaRegion) (edge : Nat)
    (full : Bool) :
    ( region_azone_edge_initialize env sa ar edge full).spacedata = sa.spacedata ∧
    ( region_azone_edge_initialize env sa ar edge full).spacetype = sa.spacetype := by
  constructor
  · simp only [ region_azone_edge_initialize, apply_ite ScrArea.spacedata, ite_self]
  · simp only [ region_azone_edge_initialize, apply_ite ScrArea.spacetype, ite_self]

theorem fullscreen_initialize_frame (env : UIEnv) (sa : ScrArea) (ar : AreaRegion) :
    ( fullscreen_azone_initialize env sa ar).spacedata = sa.spacedata ∧
    ( fullscreen_azone_initialize env sa ar).spacetype = sa.spacetype := by
  constructor
  · simp only [ fullscreen_azone_initialize, apply_ite ScrArea.spacedata, ite_self]
  · simp only [ fullscreen_azone_initialize, apply_ite ScrArea.spacetype, ite_self]

theorem scrollbar_initialize_frame (env : UIEnv) (sa : ScrArea) (ar : AreaRegion) (d : Nat) :
    ( region_azone_scrollbar_initialize env sa ar d).2.id = ar.id ∧
    ( region_azone_scrollbar_initialize env sa ar d).1.spacedata = sa.spacedata ∧
    ( region_azone_scrollbar_initialize env sa ar d).1.spacetype = sa.spacetype := by
  refine ⟨?_, rfl, rfl⟩
  simp only [ region_azone_scrollbar_initialize, apply_ite AreaRegion.id, ite_self]

theorem scrollbars_initialize_frame (env : UIEnv) (sa : ScrArea) (ar : AreaRegion) :
    ( region_azones_scrollbars_initialize env sa ar).2.id = ar.id ∧
    ( region_azones_scrollbars_initialize env sa ar).1.spacedata = sa.spacedata ∧
    ( region_azones_scrollbars_initialize env sa ar).1.spacetype = sa.spacetype := by
  unfold region_azones_scrollbars_initialize
  have h1 := scrollbar_initialize_frame env sa ar AZ_SCROLL_VERT
  by_cases c1 : ar.v2d.scroll &&& V2D_SCROLL_VERTICAL ≠ 0 ∧
      ar.v2d.scroll &&& V2D_SCROLL_SCALE_VERTICAL = 0
  · have h2 := scrollbar_initialize_frame env
      ( region_azone_scrollbar_initialize env sa ar AZ_SCROLL_VERT).1
      ( region_azone_scrollbar_initialize env sa ar AZ_SCROLL_VERT).2 AZ_SCROLL_HOR
    by_cases c2 : ar.v2d.scroll &&& V2D_SCROLL_HORIZONTAL ≠ 0 ∧
        ar.v2d.scroll &&& V2D_SCROLL_SCALE_HORIZONTAL = 0
    · simp only [if_pos c1, if_pos c2]
      exact ⟨h2.1.trans h1.1, h2.2.1.trans h1.2.1, h2.2.2.trans h1.2.2⟩
    · simp only [if_pos c1, if_neg c2]
      exact h1
  · have h2 := scrollbar_initialize_frame env sa ar AZ_SCROLL_HOR
    by_cases c2 : ar.v2d.scroll &&& V2D_SCROLL_HORIZONTAL ≠ 0 ∧
        ar.v2d.scroll &&& V2D_SCROLL_SCALE_HORIZONTAL = 0
    · simp only [if_neg c1, if_pos c2]
      exact h2
    · simp only [if_neg c1, if_neg c2]
      exact ⟨trivial, trivial, trivial⟩

theorem region_azones_add_frame (env : UIEnv) (sa : ScrArea) (ar : AreaRegion) (al : Nat) :
    (region_azones_add env sa ar al).2.id = ar.id ∧
    (region_azones_add env sa ar al).1.spacedata = sa.spacedata ∧
    (region_azones_add env sa ar al).1.spacetype = sa.spacetype := by
  unfold region_azones_add
  simp only []
  refine ⟨(scrollbars_initialize_frame env _ ar).1, ?_, ?_⟩
  · rw [(scrollbars_initialize_frame env _ ar).2.1]
    simp only [apply_ite ScrArea.spacedata, (fullscreen_initialize_frame env _ ar).1,
      (edge_initialize_frame env sa ar _ _).1, ite_self]
  · rw [(scrollbars_initialize_frame env _ ar).2.2]
    simp only [apply_ite ScrArea.spacetype, (fullscreen_initialize_frame env _ ar).2,
      (edge_initialize_frame env sa ar _ _).2, ite_self]

theorem area_regions_azones_add_frame (env : UIEnv) (sa : ScrArea) (rs : List AreaRegion) :
    (area_regions_azones_add env sa rs).2.map AreaRegion.id = rs.map AreaRegion.id ∧
    (area_regions_azones_add env sa rs).1.spacedata = sa.spacedata ∧
    (area_regions_azones_add env sa rs).1.spacetype = sa.spacetype := by
  induction rs generalizing sa with
  | nil => exact ⟨rfl, rfl, rfl⟩
  | cons r rs ih =>
    have h1 := region_azones_add_frame env sa r (flag_clear r.ar.alignment RGN_SPLIT_PREV)
    have h2 := ih (region_azones_add env sa r (flag_clear r.ar.alignment RGN_SPLIT_PREV)).1
    simp only [area_regions_azones_add, List.map_cons]
    exact ⟨by rw [h1.1, h2.1], h2.2.1.trans h1.2.1, h2.2.2.trans h1.2.2⟩

theorem area_azone_initialize_frame (env : UIEnv) (sa : ScrArea) :
    ( area_azone_initialize env sa).regionbase = sa.regionbase ∧
    ( area_azone_initialize env sa).spacedata = sa.spacedata ∧
    ( area_azone_initialize env sa).spacetype = sa.spacetype := by
  refine ⟨?_, ?_, ?_⟩
  · simp only [ area_azone_initialize, apply_ite ScrArea.regionbase, ite_self]
  · simp only [ area_azone_initialize, apply_ite ScrArea.spacedata, ite_self]
  · simp only [ area_azone_initialize, apply_ite ScrArea.spacetype, ite_self]

theorem area_azones_regenerate_frame (env : UIEnv) (sa : ScrArea) :
    (area_azones_regenerate env sa).regionbase.map AreaRegion.id
      = sa.regionbase.map AreaRegion.id ∧
    (area_azones_regenerate env sa).spacedata = sa.spacedata ∧
    (area_azones_regenerate env sa).spacetype = sa.spacetype := by
  have h1 := area_azone_initialize_frame env sa
  have h2 := area_regions_azones_add_frame env ( area_azone_initialize env sa)
    ( area_azone_initialize env sa).regionbase
  unfold area_azones_regenerate
  simp only []
  refine ⟨?_, h2.2.1.trans h1.2.1, h2.2.2.trans h1.2.2⟩
  rw [h2.1, h1.1]

/-- `ED_area_initialize` keeps the regions of the area, in their order, and
the space data; the space type changes only by the fallback to the 3D
viewport for a type that is not registered. -/
theorem area_initialize_frame (env : UIEnv) (sa : ScrArea) :
    ( ED_area_initialize env sa).regionbase.map AreaRegion.id
      = sa.regionbase.map AreaRegion.id ∧
    ( ED_area_initialize env sa).spacedata = sa.spacedata ∧
    (env.spacetype_registered sa.spacetype = true →
      ( ED_area_initialize env sa).spacetype = sa.spacetype) := by
  unfold ED_area_initialize
  by_cases hg : area_global_hidden sa = true
  · rw [if_pos hg]
    exact ⟨rfl, rfl, fun _ => rfl⟩
  · rw [if_neg hg]
    simp only []
    refine ⟨?_, ?_, ?_⟩
    · rw [(area_azones_regenerate_frame env _).1]
      simp only []
      rw [zipWith_ar_ids]
      · simp only [area_calc_totrct, apply_ite ScrArea.regionbase, ite_self]
      · rw [layout_regions_length, List.length_map]
    · rw [(area_azones_regenerate_frame env _).2.1]
      simp only [area_calc_totrct, apply_ite ScrArea.spacedata, ite_self]
    · intro hreg
      rw [(area_azones_regenerate_frame env _).2.2]
      simp only [area_calc_totrct, hreg, if_true]

theorem area_tag_redraw_ids (sa : ScrArea) :
    (ED_area_tag_redraw sa).regionbase.map AreaRegion.id = sa.regionbase.map AreaRegion.id := by
  simp only [ED_area_tag_redraw, List.map_map]
  rfl

theorem sync_header_alignment_ids (al : Nat) (rs : List AreaRegion) :
    (sync_header_alignment al rs).map AreaRegion.id = rs.map AreaRegion.id := by
  induction rs with
  | nil => rfl
  | cons r rs ih =>
    unfold sync_header_alignment
    split_ifs
    · rfl
    · rw [List.map_cons, ih, List.map_cons]

/-- The search for a stored payload stops at the first payload of the
type. -/
theorem find_spacedata_first (type : Nat) (pre post : List SpaceLink) (sl : SpaceLink)
    (hpre : ∀ x ∈ pre, x.spacetype ≠ type) (hsl : sl.spacetype = type) :
    find_spacedata type (pre ++ sl :: post) = some (pre, sl, post) := by
  induction pre with
  | nil => simp [find_spacedata, hsl]
  | cons x pre ih =>
    have hx : ¬x.spacetype = type := hpre x (List.mem_cons_self _ _)
    have ih2 := ih (fun y hy => hpre y (List.mem_cons_of_mem _ hy))
    have ih3 : find_spacedata type (pre.append (sl :: post)) = some (pre, sl, post) := ih2
    simp only [List.cons_append, find_spacedata, if_neg hx, ih3]

/-- `ED_area_newspace` to a type whose stored payload, not at the head of the
list, has saved regions: the regions are swapped, the payload moves to the
head, the header alignment is synchronised, the area is initialised, marked
for refresh and tagged. -/
theorem newspace_stored (env : UIEnv) (sa : ScrArea) (type : Nat) (slold sl : SpaceLink)
    (mid after : List SpaceLink) (htype : sa.spacetype ≠ type)
    (hdata : sa.spacedata = slold :: (mid ++ sl :: after))
    (hold : slold.spacetype ≠ type) (hmid : ∀ x ∈ mid, x.spacetype ≠ type)
    (hsl : sl.spacetype = type) (hregs : sl.regionbase ≠ []) :
    ED_area_newspace env sa type =
      some (ED_area_tag_redraw (ED_area_tag_refresh ( ED_area_initialize env
        { sa with
          spacetype := type
          spacedata := { sl with regionbase := [] } ::
            { slold with regionbase := sa.regionbase } :: (mid ++ after)
          regionbase := sync_header_alignment (ED_area_header_alignment sa) sl.regionbase }))) := by
  have hfind : find_spacedata type (slold :: (mid ++ sl :: after))
      = some (slold :: mid, sl, after) :=
    find_spacedata_first type (slold :: mid) after sl
      (fun x hx => by
        rcases List.mem_cons.1 hx with rfl | hx
        · exact hold
        · exact hmid x hx) hsl
  have hne : ¬sl.regionbase.isEmpty = true := by
    rw [List.isEmpty_iff]; exact hregs
  unfold ED_area_newspace
  rw [if_pos htype]
  simp only [hdata, hfind, if_neg hne]

/-- What `ED_area_newspace` leaves in the case of `newspace_stored`, for a
registered type. -/
theorem newspace_stored_result (env : UIEnv) (sa : ScrArea) (type : Nat) (slold sl : SpaceLink)
    (mid after : List SpaceLink) (htype : sa.spacetype ≠ type)
    (hdata : sa.spacedata = slold :: (mid ++ sl :: after))
    (hold : slold.spacetype ≠ type) (hmid : ∀ x ∈ mid, x.spacetype ≠ type)
    (hsl : sl.spacetype = type) (hregs : sl.regionbase ≠ [])
    (hreg : env.spacetype_registered type = true) :
    ∃ sa1, ED_area_newspace env sa type = some sa1 ∧
      sa1.spacetype = type ∧
      sa1.spacedata = { sl with regionbase := [] } ::
        { slold with regionbase := sa.regionbase } :: (mid ++ after) ∧
      sa1.regionbase.map AreaRegion.id = sl.regionbase.map AreaRegion.id := by
  refine ⟨_, newspace_stored env sa type slold sl mid after htype hdata hold hmid hsl hregs,
    ?_, ?_, ?_⟩
  · show ( ED_area_initialize env _).spacetype = type
    rw [(area_initialize_frame env _).2.2 hreg]
  · show ( ED_area_initialize env _).spacedata = _
    rw [(area_initialize_frame env _).2.1]
  · rw [area_tag_redraw_ids]
    show ( ED_area_initialize env _).regionbase.map AreaRegion.id = _
    rw [(area_initialize_frame env _).1]
    exact sync_header_alignment_ids _ _

/-- C19: switching back to a previously visited space reuses its saved
regions. For an area of space type `A` (its active payload `slA`, the head of
the space-data list, is of type `A`) whose list also holds a payload `slB` of
a registered type `B` with a non-empty saved region list (the payload that
the search for `B` finds), and whose own region list is non-empty,
`ED_area_newspace` to `B` followed by `ED_area_newspace` to `A` both return,
the area shows the saved regions of `B` in between, and it ends with the same
regions in the same order as before the two calls (regions are compared by
address: the layout and the redraw tags are recomputed), with the payload of
`A` at the head of the space-data list and the list holding the same payloads
as before, those of `A` and `B` first. -/
theorem newspace_round_trip (env : UIEnv) (sa : ScrArea) (A B : Nat) (slA slB : SpaceLink)
    (pre post : List SpaceLink) (hA : sa.spacetype = A) (hAB : A ≠ B)
    (hreg : env.spacetype_registered B = true ∧ env.spacetype_registered A = true)
    (hdata : sa.spacedata = slA :: (pre ++ slB :: post)) (hslA : slA.spacetype = A)
    (hpre : ∀ x ∈ pre, x.spacetype ≠ B) (hslB : slB.spacetype = B)
    (hsaved : slB.regionbase ≠ []) (hown : sa.regionbase ≠ []) :
    ∃ sa1 sa2, ED_area_newspace env sa B = some sa1 ∧ ED_area_newspace env sa1 A = some sa2 ∧
      sa1.regionbase.map AreaRegion.id = slB.regionbase.map AreaRegion.id ∧
      sa2.regionbase.map AreaRegion.id = sa.regionbase.map AreaRegion.id ∧
      sa2.spacetype = A ∧
      sa2.spacedata.map (fun sl => (sl.id, sl.spacetype))
        = (slA.id, A) :: (slB.id, B) :: (pre ++ post).map (fun sl => (sl.id, sl.spacetype)) ∧
      List.Perm (sa2.spacedata.map SpaceLink.id) (sa.spacedata.map SpaceLink.id) := by
  obtain ⟨sa1, h1, ht1, hd1, hr1⟩ := newspace_stored_result env sa B slA slB pre post
    (by rw [hA]; exact hAB) hdata (by rw [hslA]; exact hAB) hpre hslB hsaved hreg.1
  have hd1b : sa1.spacedata = { slB with regionbase := [] } ::
      ([] ++ { slA with regionbase := sa.regionbase } :: (pre ++ post)) := hd1
  obtain ⟨sa2, h2, ht2, hd2, hr2⟩ := newspace_stored_result env sa1 A
    { slB with regionbase := [] } { slA with regionbase := sa.regionbase } [] (pre ++ post)
    (by rw [ht1]; exact fun h => hAB h.symm) hd1b
    (by show slB.spacetype ≠ A; rw [hslB]; exact fun h => hAB h.symm)
    (by intro x hx; cases hx) hslA hown hreg.2
  refine ⟨sa1, sa2, h1, h2, hr1, hr2, ht2, ?_, ?_⟩
  · rw [hd2]
    simp [hslA, hslB]
  · rw [hd2, hdata]
    simp only [List.map_cons, List.map_append, List.nil_append]
    refine List.Perm.cons _ ?_
    exact (List.perm_middle).symm

/-- C19 at a concrete input: the 3D viewport area `example_switch_area`
switched to the image editor and back. -/
theorem newspace_round_trip_witness :
    ∃ sa1 sa2, ED_area_newspace example_ui_env example_switch_area SPACE_IMAGE = some sa1 ∧
      ED_area_newspace example_ui_env sa1 SPACE_VIEW3D = some sa2 ∧
      sa1.regionbase.map AreaRegion.id = [11] ∧
      sa2.regionbase.map AreaRegion.id = [7, 3] ∧
      sa2.spacetype = SPACE_VIEW3D ∧
      sa2.spacedata.map (fun sl => (sl.id, sl.spacetype))
        = [(100, SPACE_VIEW3D), (101, SPACE_IMAGE)] ∧
      List.Perm (sa2.spacedata.map SpaceLink.id) [100, 101] :=
  newspace_round_trip example_ui_env example_switch_area SPACE_VIEW3D SPACE_IMAGE
    example_payload_view3d example_payload_image [] [] rfl (by decide) ⟨rfl, rfl⟩ rfl rfl
    (by decide) rfl (by decide) (by decide)

/-! ## C20: toggling the hidden flag of a region -/

theorem xor_hidden_and (f : Nat) :
    ((f ^^^ RGN_FLAG_HIDDEN) &&& RGN_FLAG_HIDDEN = 0 ↔ f &&& RGN_FLAG_HIDDEN ≠ 0) ∧
    flag_clear (f ^^^ RGN_FLAG_HIDDEN) RGN_FLAG_HIDDEN = flag_clear f RGN_FLAG_HIDDEN := by
  constructor
  · show (f ^^^ 1) &&& 1 = 0 ↔ f &&& 1 ≠ 0
    rw [Nat.and_one_is_mod, Nat.and_one_is_mod]
    have h : (f ^^^ 1) % 2 = (f % 2 + 1) % 2 := by
      have h1 := Nat.testBit_xor f 1 0
      simp only [Nat.testBit_zero] at h1
      rcases Nat.mod_two_eq_zero_or_one f with h0 | h0 <;>
        rcases Nat.mod_two_eq_zero_or_one (f ^^^ 1) with h2 | h2 <;>
        simp [h0, h2] at h1 ⊢
    omega
  · apply Nat.eq_of_testBit_eq
    intro i
    rw [testBit_flag_clear, testBit_flag_clear, Nat.testBit_xor]
    cases f.testBit i <;> cases (RGN_FLAG_HIDDEN).testBit i <;> rfl

/-- C20 as stated fails for a region that does not overlap: with fading
enabled, `region_toggle_hidden` on the tool region of an area without region
overlap does not call `region_blend_start` but performs the synchronous
update `ED_region_visibility_change_update`. -/
theorem toggle_hidden_fade_without_overlap :
    example_shown_tools.ar.overlap = false ∧
    (region_toggle_hidden example_ui_env
        { example_area with regionbase := [example_shown_tools, example_main] }
        example_shown_tools true).blend_started = false ∧
    (region_toggle_hidden example_ui_env
        { example_area with regionbase := [example_shown_tools, example_main] }
        example_shown_tools true).area =
      ED_region_visibility_change_update example_ui_env
        { example_area with regionbase := [toggle_hidden_flag example_shown_tools, example_main] } :=
  ⟨by decide, by decide, rfl⟩

/-- C20, amended: `region_toggle_hidden` flips the `RGN_FLAG_HIDDEN` bit of
the region and leaves its other flag bits alone; it defers to the fade
(`region_blend_start`, nothing else done to the area) exactly when fading is
enabled and the region overlaps (`ar->overlap`), and otherwise, that is when
fading is disabled or the region does not overlap, takes the synchronous
path: the area is re-initialised and then every region of it is tagged for
redraw. -/
theorem toggle_hidden_paths (env : UIEnv) (sa : ScrArea) (ar : AreaRegion) (do_fade : Bool) :
    (((toggle_hidden_flag ar).ar.flag &&& RGN_FLAG_HIDDEN = 0 ↔
        ar.ar.flag &&& RGN_FLAG_HIDDEN ≠ 0) ∧
      flag_clear (toggle_hidden_flag ar).ar.flag RGN_FLAG_HIDDEN
        = flag_clear ar.ar.flag RGN_FLAG_HIDDEN) ∧
    ((region_toggle_hidden env sa ar do_fade).blend_started = true ↔
      (do_fade = true ∧ ar.ar.overlap = true)) ∧
    (region_toggle_hidden env sa ar do_fade).area =
      (if do_fade = true ∧ ar.ar.overlap = true then
        { sa with regionbase :=
            sa.regionbase.map fun r => if r.id = ar.id then toggle_hidden_flag ar else r }
      else
        ED_area_tag_redraw ( ED_area_initialize env
          { sa with regionbase :=
              sa.regionbase.map fun r => if r.id = ar.id then toggle_hidden_flag ar else r })) := by
  refine ⟨xor_hidden_and ar.ar.flag, ?_, ?_⟩
  · unfold region_toggle_hidden
    simp only []
    by_cases h : do_fade = true ∧ ar.ar.overlap = true
    · have h2 : do_fade = true ∧ (toggle_hidden_flag ar).ar.overlap = true := h
      rw [if_pos h2]
      exact ⟨fun _ => h, fun _ => rfl⟩
    · have h2 : ¬(do_fade = true ∧ (toggle_hidden_flag ar).ar.overlap = true) := h
      rw [if_neg h2]
      exact ⟨fun hc => Bool.noConfusion hc, fun hc => absurd hc h⟩
  · unfold region_toggle_hidden
    simp only []
    by_cases h : do_fade = true ∧ ar.ar.overlap = true
    · have h2 : do_fade = true ∧ (toggle_hidden_flag ar).ar.overlap = true := h
      rw [if_pos h2, if_pos h]
    · have h2 : ¬(do_fade = true ∧ (toggle_hidden_flag ar).ar.overlap = true) := h
      rw [if_neg h2, if_neg h]
      rfl

/-! ## C21: a slice takes its preferred size or nothing -/

theorem strip_fits_iff (al : Nat) (px py : Int) (w : rcti) :
    strip_fits al px py w ↔ pref_along al px py ≤ rcti_thickness al w := by
  unfold strip_fits pref_along rcti_thickness
  by_cases h : al = RGN_ALIGN_TOP ∨ al = RGN_ALIGN_BOTTOM
  · simp only [if_pos h, rct_fits_v, BLI_rcti_size_y]
    omega
  · simp only [if_neg h, rct_fits_h, BLI_rcti_size_x]
    omega

/-- The strip has the preferred thickness and, for a preferred size between 0
and the extent of the rect, the strip and the rest tile the rect. -/
theorem strip_tiles (al : Nat) (px py : Int) (w : rcti) :
    rcti_thickness al (rcti_strip al px py w) = pref_along al px py ∧
    (0 ≤ pref_along al px py → pref_along al px py ≤ rcti_thickness al w →
      rcti_tiled_by w (rcti_strip al px py w) (rcti_without_strip al px py w)) := by
  unfold rcti_thickness pref_along rcti_strip rcti_without_strip rcti_tiled_by rcti_disjoint
    rcti_mem
  by_cases h1 : al = RGN_ALIGN_TOP
  · subst h1
    simp only [true_or, if_true, BLI_rcti_size_y]
    refine ⟨by omega, fun h0 h => ⟨fun x y => ?_, fun x y => ?_⟩⟩ <;> omega
  by_cases h2 : al = RGN_ALIGN_BOTTOM
  · subst h2
    simp only [h1, or_true, if_true, if_false, BLI_rcti_size_y]
    refine ⟨by omega, fun h0 h => ⟨fun x y => ?_, fun x y => ?_⟩⟩ <;> omega
  by_cases h3 : al = RGN_ALIGN_RIGHT
  · subst h3
    simp only [h1, h2, or_self, if_true, if_false, BLI_rcti_size_x]
    refine ⟨by omega, fun h0 h => ⟨fun x y => ?_, fun x y => ?_⟩⟩ <;> omega
  · simp only [h1, h2, h3, or_self, if_false, BLI_rcti_size_x]
    refine ⟨by omega, fun h0 h => ⟨fun x y => ?_, fun x y => ?_⟩⟩ <;> omega

/-- The alignment chain for a visible region laid out top, bottom, left or
right on a usable remainder: with `w` the rect it draws from
(`overlap_remainder` for an overlapping region, `remainder` otherwise), the
region gets the strip of its preferred size and `w` loses it when the strip
fits; otherwise the region is flagged too-small and both rects stay. -/
theorem region_rect_place_slice (al : Nat) (px py : Int) (ar : ARegion) (next : List LRegion)
    (rm om : rcti) (q : Nat) (hvis : ar.flag &&& RGN_FLAG_HIDDEN = 0)
    (hfit : rm.ymin ≤ rm.ymax ∧ rm.xmin ≤ rm.xmax)
    (hal : al = RGN_ALIGN_TOP ∨ al = RGN_ALIGN_BOTTOM ∨ al = RGN_ALIGN_LEFT ∨
      al = RGN_ALIGN_RIGHT) :
    region_rect_place al px py ar next rm om q =
      if strip_fits al px py (if ar.overlap then om else rm) then
        { ar := { ar with winrct := rcti_strip al px py (if ar.overlap then om else rm) },
          next := next,
          remainder := if ar.overlap then rm else rcti_without_strip al px py rm,
          overlap_remainder := if ar.overlap then rcti_without_strip al px py om else om,
          quad := q }
      else
        { ar := { ar with flag := ar.flag ||| RGN_FLAG_TOO_SMALL }, next := next,
          remainder := rm, overlap_remainder := om, quad := q } := by
  have hfit2 : ¬(rct_fits rm 'v' 1 < 0 ∨ rct_fits rm 'h' 1 < 0) := by
    rw [rct_fits_v, rct_fits_h]; omega
  have hsv : ∀ a : Nat, (a = RGN_ALIGN_TOP ∨ a = RGN_ALIGN_BOTTOM) → ∀ w : rcti,
      (strip_fits a px py w ↔ 0 ≤ rct_fits w 'v' py) := by
    intro a ha w
    simp only [strip_fits, if_pos ha]
  have hsh : ∀ a : Nat, ¬(a = RGN_ALIGN_TOP ∨ a = RGN_ALIGN_BOTTOM) → ∀ w : rcti,
      (strip_fits a px py w ↔ 0 ≤ rct_fits w 'h' px) := by
    intro a ha w
    simp only [strip_fits, if_neg ha]
  rcases hal with h | h | h | h <;> subst h <;> unfold region_rect_place <;>
    rw [if_neg (fun h => h hvis), if_neg (by decide), if_neg hfit2, if_neg (by decide)]
  · rw [if_pos (Or.inl rfl)]
    by_cases hp : 0 ≤ rct_fits (if ar.overlap = true then om else rm) 'v' py
    · rw [if_pos ((hsv _ (Or.inl rfl) _).2 hp)]
      have hp2 : ¬rct_fits (if ar.overlap = true then om else rm) 'v' py < 0 := by omega
      cases hov : ar.overlap <;> simp only [hov, Bool.false_eq_true, if_false, if_true] at hp2 <;>
        simp [place_top_bottom, hov, hp2, store_winrct, rcti_strip, rcti_without_strip]
    · rw [if_neg (fun h => hp ((hsv _ (Or.inl rfl) _).1 h))]
      have hp2 : rct_fits (if ar.overlap = true then om else rm) 'v' py < 0 := by omega
      cases hov : ar.overlap <;> simp only [hov, Bool.false_eq_true, if_false, if_true] at hp2 <;>
        simp [place_top_bottom, hov, hp2]
  · rw [if_pos (Or.inr rfl)]
    by_cases hp : 0 ≤ rct_fits (if ar.overlap = true then om else rm) 'v' py
    · rw [if_pos ((hsv _ (Or.inr rfl) _).2 hp)]
      have hp2 : ¬rct_fits (if ar.overlap = true then om else rm) 'v' py < 0 := by omega
      cases hov : ar.overlap <;> simp only [hov, Bool.false_eq_true, if_false, if_true] at hp2 <;>
        simp [place_top_bottom, hov, hp2, store_winrct, rcti_strip, rcti_without_strip,
          RGN_ALIGN_TOP, RGN_ALIGN_BOTTOM]
    · rw [if_neg (fun h => hp ((hsv _ (Or.inr rfl) _).1 h))]
      have hp2 : rct_fits (if ar.overlap = true then om else rm) 'v' py < 0 := by omega
      cases hov : ar.overlap <;> simp only [hov, Bool.false_eq_true, if_false, if_true] at hp2 <;>
        simp [place_top_bottom, hov, hp2]
  · rw [if_neg (by decide), if_pos (Or.inl rfl)]
    by_cases hp : 0 ≤ rct_fits (if ar.overlap = true then om else rm) 'h' px
    · rw [if_pos ((hsh _ (by decide) _).2 hp)]
      have hp2 : ¬rct_fits (if ar.overlap = true then om else rm) 'h' px < 0 := by omega
      cases hov : ar.overlap <;> simp only [hov, Bool.false_eq_true, if_false, if_true] at hp2 <;>
        simp [place_left_right, hov, hp2, store_winrct, rcti_strip, rcti_without_strip,
          RGN_ALIGN_TOP, RGN_ALIGN_BOTTOM, RGN_ALIGN_LEFT, RGN_ALIGN_RIGHT]
    · rw [if_neg (fun h => hp ((hsh _ (by decide) _).1 h))]
      have hp2 : rct_fits (if ar.overlap = true then om else rm) 'h' px < 0 := by omega
      cases hov : ar.overlap <;> simp only [hov, Bool.false_eq_true, if_false, if_true] at hp2 <;>
        simp [place_left_right, hov, hp2]
  · rw [if_neg (by decide), if_pos (Or.inr rfl)]
    by_cases hp : 0 ≤ rct_fits (if ar.overlap = true then om else rm) 'h' px
    · rw [if_pos ((hsh _ (by decide) _).2 hp)]
      have hp2 : ¬rct_fits (if ar.overlap = true then om else rm) 'h' px < 0 := by omega
      cases hov : ar.overlap <;> simp only [hov, Bool.false_eq_true, if_false, if_true] at hp2 <;>
        simp [place_left_right, hov, hp2, store_winrct, rcti_strip, rcti_without_strip,
          RGN_ALIGN_TOP, RGN_ALIGN_BOTTOM, RGN_ALIGN_LEFT, RGN_ALIGN_RIGHT]
    · rw [if_neg (fun h => hp ((hsh _ (by decide) _).1 h))]
      have hp2 : rct_fits (if ar.overlap = true then om else rm) 'h' px < 0 := by omega
      cases hov : ar.overlap <;> simp only [hov, Bool.false_eq_true, if_false, if_true] at hp2 <;>
        simp [place_left_right, hov, hp2]

theorem region_align_of_tblr (a : ARegion)
    (hal : region_align a = RGN_ALIGN_TOP ∨ region_align a = RGN_ALIGN_BOTTOM ∨
      region_align a = RGN_ALIGN_LEFT ∨ region_align a = RGN_ALIGN_RIGHT) :
    region_align a ≠ RGN_ALIGN_QSPLIT ∧ region_align a ≠ RGN_ALIGN_FLOAT := by
  rcases hal with h | h | h | h <;> rw [h] <;> decide

/-- C24: for a visible region that is not overlap-eligible, carries the
split-from-previous bit, has a predecessor and a successor, and whose
alignment without the bit is top, bottom, left or right, when the rect of the
predecessor is at least one pixel on both axes and the preferred size lies
between 0 and its extent: the slice is cut out of the window rect of the
predecessor (the rect of the region and the shrunken rect of the predecessor
tile the old rect of the predecessor, and `winx`, `winy` of the predecessor
are recomputed from the shrunken rect), and the outer remainder handed to the
next region is the outer remainder the activation started with. -/
theorem split_prev_cuts_predecessor (env : LayoutEnv) (s : LayoutState) (r r2 prev : LRegion)
    (next ps : List LRegion) (hs : s.todo = r :: r2 :: next) (hd : s.done = prev :: ps)
    (hvis : r.ar.flag &&& RGN_FLAG_HIDDEN = 0)
    (hov : ED_region_is_overlap env.user_region_overlap env.spacetype r.ar.regiontype = false)
    (hbit : r.ar.alignment &&& RGN_SPLIT_PREV ≠ 0)
    (hal : region_align r.ar = RGN_ALIGN_TOP ∨ region_align r.ar = RGN_ALIGN_BOTTOM ∨
      region_align r.ar = RGN_ALIGN_LEFT ∨ region_align r.ar = RGN_ALIGN_RIGHT)
    (hfit : prev.ar.winrct.ymin ≤ prev.ar.winrct.ymax ∧ prev.ar.winrct.xmin ≤ prev.ar.winrct.xmax)
    (hpref : 0 ≤ pref_along (region_align r.ar) (region_prefsizex env r) (region_prefsizey env r) ∧
      pref_along (region_align r.ar) (region_prefsizex env r) (region_prefsizey env r)
        ≤ rcti_thickness (region_align r.ar) prev.ar.winrct) :
    ∃ out prev2, (region_rect_body env s).done = out :: prev2 :: ps ∧
      out.ar.winrct = rcti_strip (region_align r.ar) (region_prefsizex env r)
        (region_prefsizey env r) prev.ar.winrct ∧
      prev2 = { prev with ar := { prev.ar with
        winrct := rcti_without_strip (region_align r.ar) (region_prefsizex env r)
          (region_prefsizey env r) prev.ar.winrct
        winx := short_of_int (BLI_rcti_size_x (rcti_without_strip (region_align r.ar)
          (region_prefsizex env r) (region_prefsizey env r) prev.ar.winrct) + 1)
        winy := short_of_int (BLI_rcti_size_y (rcti_without_strip (region_align r.ar)
          (region_prefsizex env r) (region_prefsizey env r) prev.ar.winrct) + 1) } } ∧
      rcti_tiled_by prev.ar.winrct out.ar.winrct prev2.ar.winrct ∧
      (region_rect_body env s).remainder = s.remainder := by
  have hsp : splits_prev r s.done = true := by
    simp [splits_prev, hbit, hd]
  have hal1 : region_alignment r (r2 :: next) = region_align r.ar := region_alignment_inner r r2 next
  have ho : (region_rect_enter env r.ar).overlap = false := hov
  have hvis1 := region_rect_enter_visible env r.ar hvis
  have hclean := region_rect_enter_flag_clean env r.ar hvis
  have hpl := region_rect_place_slice (region_align r.ar) (region_prefsizex env r)
    (region_prefsizey env r) (region_rect_enter env r.ar) (r2 :: next) prev.ar.winrct
    s.overlap_remainder s.quad hvis1 hfit hal
  rw [ho] at hpl
  simp only [Bool.false_eq_true, if_false] at hpl
  rw [if_pos ((strip_fits_iff _ _ _ _).2 hpref.2)] at hpl
  have htile := (strip_tiles (region_align r.ar) (region_prefsizex env r)
    (region_prefsizey env r) prev.ar.winrct).2 hpref.1 hpref.2
  rw [region_rect_body_eq_finish env s r (r2 :: next) hs, hsp, hal1, hd]
  simp only [if_true, prev_winrct]
  rw [hpl]
  unfold region_rect_finish
  simp only [if_true, region_store_size_overlap, ho, Bool.false_eq_true, if_false]
  rw [region_rect_collapse_clean _ _ _ _ (by rw [region_store_size_flag]; exact hclean)]
  exact ⟨_, _, rfl, rfl, rfl, htile, trivial⟩

/-- C24 at a concrete input: the header, a left-aligned split-from-previous
tool region of width 200 and the window region on the area
`(0,0)-(1000,800)`, in the state after the activation for the header. -/
theorem split_prev_cuts_predecessor_witness :
    region_rect_body example_env (layout_start ⟨0, 1000, 0, 800⟩
      [example_header, example_split_tools, example_window]) = example_split_state ∧
    ∃ out prev2, (region_rect_body example_env example_split_state).done = [out, prev2] ∧
      out.ar.winrct = rcti_strip (region_align example_split_tools.ar)
        (region_prefsizex example_env example_split_tools)
        (region_prefsizey example_env example_split_tools) example_placed_header.ar.winrct ∧
      prev2 = { example_placed_header with ar := { example_placed_header.ar with
        winrct := rcti_without_strip (region_align example_split_tools.ar)
          (region_prefsizex example_env example_split_tools)
          (region_prefsizey example_env example_split_tools) example_placed_header.ar.winrct
        winx := short_of_int (BLI_rcti_size_x (rcti_without_strip
          (region_align example_split_tools.ar)
          (region_prefsizex example_env example_split_tools)
          (region_prefsizey example_env example_split_tools)
          example_placed_header.ar.winrct) + 1)
        winy := short_of_int (BLI_rcti_size_y (rcti_without_strip
          (region_align example_split_tools.ar)
          (region_prefsizex example_env example_split_tools)
          (region_prefsizey example_env example_split_tools)
          example_placed_header.ar.winrct) + 1) } } ∧
      rcti_tiled_by example_placed_header.ar.winrct out.ar.winrct prev2.ar.winrct ∧
      (region_rect_body example_env example_split_state).remainder
        = example_split_state.remainder :=
  ⟨by decide,
   split_prev_cuts_predecessor example_env example_split_state example_split_tools
    example_window example_placed_header [] [] rfl rfl (by decide) (by decide) (by decide)
    (by decide) (by decide) (by decide)⟩

/-! ## C25: no left-versus-right conflict is left standing -/

theorem region_overlap_other_side_false (w : rcti) (align : Nat) (prevs : List LRegion)
    (h : region_overlap_other_side w align prevs = false) :
    ∀ r1 ∈ prevs, r1.ar.flag &&& RGN_FLAG_HIDDEN = 0 → r1.ar.overlap = true →
      r1.ar.alignment &&& RGN_SPLIT_PREV = 0 → r1.ar.alignment ≠ align →
      BLI_rcti_isect r1.ar.winrct w = false := by
  induction prevs with
  | nil => intro r1 hr1; exact absurd hr1 (List.not_mem_nil r1)
  | cons p ps ih =>
    intro r1 hr1 hvis hov hbit hal
    unfold region_overlap_other_side at h
    rcases List.mem_cons.mp hr1 with heq | hmem
    · subst heq
      rw [if_neg (not_not.mpr hvis), if_pos ⟨hov, hbit⟩] at h
      cases hi : BLI_rcti_isect r1.ar.winrct w
      · rfl
      · rw [if_pos ⟨hal, hi⟩] at h
        exact Bool.noConfusion h
    · have h2 : region_overlap_other_side w align ps = false := by
        split_ifs at h
        all_goals exact h
      exact ih h2 r1 hmem hvis hov hbit hal

theorem region_overlap_final_clear (prevs : List LRegion) (align : Nat) (ar : ARegion)
    (h : (region_overlap_final prevs align ar).flag &&& RGN_FLAG_TOO_SMALL = 0) :
    region_overlap_other_side ar.winrct align prevs = false := by
  unfold region_overlap_final at h
  cases ho : region_overlap_other_side ar.winrct align prevs
  · rfl
  · rw [ho, if_pos rfl] at h
    exact absurd h (or_too_small_and _)

/-- A region that leaves `region_overlap_fix` without the too-small flag went
through the final check of lines 991-1005 at the rect it ends with. -/
theorem region_overlap_fix_clear (env : LayoutEnv) (prevs : List LRegion) (ar : ARegion)
    (h : (region_overlap_fix env prevs ar).flag &&& RGN_FLAG_TOO_SMALL = 0) :
    region_overlap_other_side (region_overlap_fix env prevs ar).winrct (region_align ar) prevs
      = false := by
  unfold region_overlap_fix at h ⊢
  simp only [] at h ⊢
  split at h
  · exact absurd h (or_too_small_and _)
  · simp only [region_overlap_final_winrct]
    exact region_overlap_final_clear _ _ _ h
  · rename_i ar1 hscan
    by_cases hL : ar1.alignment = RGN_ALIGN_LEFT
    · rw [if_pos hL] at h ⊢
      by_cases hc : ar.winrct.xmax + ar1.winx > env.area_winx - env.widget_unit
      · rw [if_pos hc] at h
        exact absurd h (or_too_small_and _)
      · rw [if_neg hc] at h ⊢
        rw [region_overlap_final_winrct]
        exact region_overlap_final_clear _ _ _ h
    · rw [if_neg hL] at h ⊢
      by_cases hR : ar1.alignment = RGN_ALIGN_RIGHT
      · rw [if_pos hR] at h ⊢
        by_cases hc : ar.winrct.xmin - ar1.winx < env.widget_unit
        · rw [if_pos hc] at h
          exact absurd h (or_too_small_and _)
        · rw [if_neg hc] at h ⊢
          rw [region_overlap_final_winrct]
          exact region_overlap_final_clear _ _ _ h
      · rw [if_neg hR] at h ⊢
        rw [region_overlap_final_winrct]
        exact region_overlap_final_clear _ _ _ h

/-- C25: after `region_overlap_fix`, a region that is not flagged too-small
has a window rect that intersects the window rect of no preceding region
that is not hidden, is overlapping, does not carry the split-from-previous
bit and has an alignment other than its own (its alignment without the
split-from-previous bit). -/
theorem overlap_fix_leaves_no_conflict (env : LayoutEnv) (prevs : List LRegion) (ar : ARegion)
    (h : (region_overlap_fix env prevs ar).flag &&& RGN_FLAG_TOO_SMALL = 0) :
    ∀ r1 ∈ prevs, r1.ar.flag &&& RGN_FLAG_HIDDEN = 0 → r1.ar.overlap = true →
      r1.ar.alignment &&& RGN_SPLIT_PREV = 0 → r1.ar.alignment ≠ region_align ar →
      BLI_rcti_isect r1.ar.winrct (region_overlap_fix env prevs ar).winrct = false :=
  region_overlap_other_side_false _ _ _ (region_overlap_fix_clear env prevs ar h)

/-- C25 at a concrete input: with the area 1001 pixels wide, a left-aligned
overlapping tool region at `(0,0)-(199,800)` behind a left-aligned sibling at
`(0,0)-(149,800)` and a right-aligned one at `(851,0)-(1000,800)` is moved to
`(150,0)-(349,800)`, which does not meet the right-aligned sibling. -/
theorem overlap_fix_leaves_no_conflict_witness :
    (region_overlap_fix example_overlap_env [example_far_right_ui, example_placed_left_ui]
        example_overlapping_tools.ar).winrct = ⟨150, 349, 0, 800⟩ ∧
    ∀ r1 ∈ [example_far_right_ui, example_placed_left_ui],
      r1.ar.flag &&& RGN_FLAG_HIDDEN = 0 → r1.ar.overlap = true →
      r1.ar.alignment &&& RGN_SPLIT_PREV = 0 →
      r1.ar.alignment ≠ region_align example_overlapping_tools.ar →
      BLI_rcti_isect r1.ar.winrct
        (region_overlap_fix example_overlap_env [example_far_right_ui, example_placed_left_ui]
          example_overlapping_tools.ar).winrct = false :=
  ⟨by decide,
   overlap_fix_leaves_no_conflict example_overlap_env
    [example_far_right_ui, example_placed_left_ui] example_overlapping_tools.ar (by decide)⟩

/-! ## C26: the translation of an overlapping region -/

/-- C26 fails for an area away from the left border of the window: the tests
of lines 972 and 981 compare the window coordinates `ar->winrct.xmax` and
`ar->winrct.xmin` with the width `sa->winx` of the area and with
`U.widget_unit`. The area between the vertices `x = 499` and `x = 701` has
the total rect `(500,0)-(700,100)` and `winx = 201`; with region overlap on,
a right-aligned tool region placed at `(521,0)-(700,90)` behind a
right-aligned properties region of width 50 at `(651,0)-(700,100)` is
translated to `(471,0)-(650,90)` and not flagged too-small; the layout pass
over the properties region, a channels region, the tool region and the window
region reaches that call. -/
theorem translated_region_leaves_area :
    (area_calc_totrct example_overlap_ui_env example_offset_area).totrct = ⟨500, 700, 0, 100⟩ ∧
    (area_calc_totrct example_overlap_ui_env example_offset_area).winx = 201 ∧
    rcti_inside example_placed_right_tools.winrct ⟨500, 700, 0, 100⟩ ∧
    region_overlap_scan example_placed_right_tools.winrct RGN_ALIGN_RIGHT
      [example_placed_right_ui] = OverlapScan.same_side example_placed_right_ui.ar ∧
    region_overlap_fix
        (layout_env example_overlap_ui_env
          (area_calc_totrct example_overlap_ui_env example_offset_area))
        [example_placed_right_ui] example_placed_right_tools
      = { example_placed_right_tools with winrct := ⟨471, 650, 0, 90⟩ } ∧
    ¬ rcti_inside ⟨471, 650, 0, 90⟩ ⟨500, 700, 0, 100⟩ ∧
    ((layout_pass
        (layout_env example_overlap_ui_env
          (area_calc_totrct example_overlap_ui_env example_offset_area))
        ⟨500, 700, 0, 100⟩
        [example_thin_right_ui, example_channels, example_right_tools, example_window]).map
        fun x => (x.ar.winrct, x.ar.flag &&& RGN_FLAG_TOO_SMALL))
      = [(⟨651, 700, 0, 100⟩, 0), (⟨500, 700, 91, 100⟩, 0), (⟨471, 650, 0, 90⟩, 0),
         (⟨500, 700, 0, 90⟩, 0)] := by
  refine ⟨by decide, by decide, by decide, by decide, by decide, by decide, ?_⟩
  rw [layout_pass, region_rect_recursive_eq_iterate]
  decide

theorem region_overlap_scan_mem (w : rcti) (align : Nat) (prevs : List LRegion)
    (ar1 : ARegion) (h : region_overlap_scan w align prevs = OverlapScan.same_side ar1) :
    ∃ r1 ∈ prevs, r1.ar = ar1 := by
  induction prevs with
  | nil => simp [region_overlap_scan] at h
  | cons r1 prevs ih =>
    unfold region_overlap_scan at h
    split_ifs at h with h1 h2 h3 h4
    · obtain ⟨x, hx, hxe⟩ := ih h
      exact ⟨x, List.mem_cons_of_mem _ hx, hxe⟩
    · simp only [OverlapScan.same_side.injEq] at h
      exact ⟨r1, List.mem_cons_self _ _, h⟩
    · obtain ⟨x, hx, hxe⟩ := ih h
      exact ⟨x, List.mem_cons_of_mem _ hx, hxe⟩
    · obtain ⟨x, hx, hxe⟩ := ih h
      exact ⟨x, List.mem_cons_of_mem _ hx, hxe⟩

/-- For an area at the left border of the window (`totrct.xmin = 0`) whose
`winx` is the width of its total rect, with `U.widget_unit` at least 1 and
siblings of non-negative `winx`, a region inside the total rect that leaves
`region_overlap_fix` without the too-small flag is still inside it. -/
theorem overlap_fix_inside_at_left_border (env : LayoutEnv) (prevs : List LRegion)
    (ar : ARegion) (totrct : rcti) (hx : totrct.xmin = 0)
    (hw : env.area_winx = BLI_rcti_size_x totrct + 1) (hu : 1 ≤ env.widget_unit)
    (hwin : ∀ r1 ∈ prevs, 0 ≤ r1.ar.winx) (hin : rcti_inside ar.winrct totrct)
    (h : (region_overlap_fix env prevs ar).flag &&& RGN_FLAG_TOO_SMALL = 0) :
    rcti_inside (region_overlap_fix env prevs ar).winrct totrct := by
  unfold region_overlap_fix at h ⊢
  simp only [] at h ⊢
  split at h
  · exact absurd h (or_too_small_and _)
  · rw [region_overlap_final_winrct]; exact hin
  · rename_i ar1 hscan
    obtain ⟨r1, hr1, hr1e⟩ := region_overlap_scan_mem _ _ _ _ hscan
    have hw1 : 0 ≤ ar1.winx := by rw [← hr1e]; exact hwin r1 hr1
    unfold rcti_inside at hin ⊢
    unfold BLI_rcti_size_x at hw
    by_cases hL : ar1.alignment = RGN_ALIGN_LEFT
    · rw [if_pos hL] at h ⊢
      by_cases hc : ar.winrct.xmax + ar1.winx > env.area_winx - env.widget_unit
      · rw [if_pos hc] at h
        exact absurd h (or_too_small_and _)
      · rw [if_neg hc, region_overlap_final_winrct]
        simp only [BLI_rcti_translate]
        omega
    · rw [if_neg hL] at h ⊢
      by_cases hR : ar1.alignment = RGN_ALIGN_RIGHT
      · rw [if_pos hR] at h ⊢
        by_cases hc : ar.winrct.xmin - ar1.winx < env.widget_unit
        · rw [if_pos hc] at h
          exact absurd h (or_too_small_and _)
        · rw [if_neg hc, region_overlap_final_winrct]
          simp only [BLI_rcti_translate]
          omega
      · rw [if_neg hR, region_overlap_final_winrct]
        exact hin

/-! ## C27: the invariant of the redraw tags -/

theorem redraw_tags_ok_redraw (ar : ARegion) (h : redraw_tags_ok ar) :
    redraw_tags_ok (ED_region_tag_redraw ar) := by
  by_cases hidle : ar.do_draw &&& RGN_DRAWING = 0
  · have hc := flag_clear_and_self ar.do_draw (RGN_DRAW_PARTIAL ||| RGN_DRAW_NO_REBUILD)
    rw [and_or_eq_zero_iff] at hc
    have hP : (ED_region_tag_redraw ar).do_draw &&& RGN_DRAW_PARTIAL = 0 := by
      simp only [ED_region_tag_redraw, hidle, if_true]
      rw [or_and_of_disjoint _ _ _ (by decide)]; exact hc.1
    have hN : (ED_region_tag_redraw ar).do_draw &&& RGN_DRAW_NO_REBUILD = 0 := by
      simp only [ED_region_tag_redraw, hidle, if_true]
      rw [or_and_of_disjoint _ _ _ (by decide)]; exact hc.2
    have hR : (ED_region_tag_redraw ar).drawrct = rcti_zero := by
      simp only [ED_region_tag_redraw, hidle, if_true]
    exact ⟨fun hh => hh.2 hN, fun hh => hh.2 hP, fun hh => hh.1 hN, fun _ => hR⟩
  · have : ED_region_tag_redraw ar = ar := by simp [ED_region_tag_redraw, hidle]
    rw [this]; exact h

theorem redraw_tags_ok_no_rebuild (ar : ARegion) (h : redraw_tags_ok ar) :
    redraw_tags_ok (ED_region_tag_redraw_no_rebuild ar) := by
  by_cases hc : ar.do_draw &&& (RGN_DRAWING ||| RGN_DRAW) = 0
  · have hD0 := ((and_or_eq_zero_iff _ _ _).1 hc).2
    have hP : (ED_region_tag_redraw_no_rebuild ar).do_draw &&& RGN_DRAW_PARTIAL = 0 := by
      simp only [ED_region_tag_redraw_no_rebuild, hc, if_true]
      rw [or_and_of_disjoint _ _ _ (by decide)]; exact flag_clear_and_self _ _
    have hD : (ED_region_tag_redraw_no_rebuild ar).do_draw &&& RGN_DRAW = 0 := by
      simp only [ED_region_tag_redraw_no_rebuild, hc, if_true]
      rw [or_and_of_disjoint _ _ _ (by decide),
        flag_clear_and_of_disjoint _ _ _ (by decide)]
      exact hD0
    have hR : (ED_region_tag_redraw_no_rebuild ar).drawrct = rcti_zero := by
      simp only [ED_region_tag_redraw_no_rebuild, hc, if_true]
    exact ⟨fun hh => hh.1 hD, fun hh => hh.1 hD, fun hh => hh.2 hP, fun _ => hR⟩
  · have : ED_region_tag_redraw_no_rebuild ar = ar := by
      simp [ED_region_tag_redraw_no_rebuild, hc]
    rw [this]; exact h

theorem rcti_zero_xmin_xmax : rcti_zero.xmin = rcti_zero.xmax := by decide

theorem redraw_tags_ok_rect (ar : ARegion) (rct : rcti) (h : redraw_tags_ok ar) :
    redraw_tags_ok ( ED_region_tag_redraw_partial ar rct) := by
  unfold ED_region_tag_redraw_partial
  by_cases hidle : ar.do_draw &&& RGN_DRAWING = 0
  · rw [if_pos hidle]
    by_cases hnone : ar.do_draw &&& (RGN_DRAW ||| RGN_DRAW_NO_REBUILD ||| RGN_DRAW_PARTIAL) = 0
    · rw [if_pos hnone]
      have h1 := (and_or_eq_zero_iff _ _ _).1 hnone
      have h2 := (and_or_eq_zero_iff _ _ _).1 h1.1
      have hD : (ar.do_draw ||| RGN_DRAW_PARTIAL) &&& RGN_DRAW = 0 := by
        rw [or_and_of_disjoint _ _ _ (by decide)]; exact h2.1
      have hN : (ar.do_draw ||| RGN_DRAW_PARTIAL) &&& RGN_DRAW_NO_REBUILD = 0 := by
        rw [or_and_of_disjoint _ _ _ (by decide)]; exact h2.2
      exact ⟨fun hh => hh.1 hD, fun hh => hh.1 hD, fun hh => hh.1 hN,
        fun hh => hh.elim (fun x => absurd hD x) (fun x => absurd hN x)⟩
    · rw [if_neg hnone]
      by_cases hx : ar.drawrct.xmin ≠ ar.drawrct.xmax
      · rw [if_pos hx]
        refine ⟨h.1, h.2.1, h.2.2.1, fun hh => ?_⟩
        have hz := h.2.2.2 hh
        rw [hz] at hx
        exact absurd rcti_zero_xmin_xmax hx
      · rw [if_neg hx]; exact h
  · rw [if_neg hidle]; exact h

theorem redraw_tags_ok_refresh_ui (ar : ARegion) (h : redraw_tags_ok ar) :
    redraw_tags_ok (ED_region_tag_refresh_ui ar) := by
  unfold redraw_tags_ok ED_region_tag_refresh_ui
  simp only []
  rw [or_and_of_disjoint _ _ _ (show RGN_DRAW_REFRESH_UI &&& RGN_DRAW = 0 by decide),
    or_and_of_disjoint _ _ _ (show RGN_DRAW_REFRESH_UI &&& RGN_DRAW_NO_REBUILD = 0 by decide),
    or_and_of_disjoint _ _ _ (show RGN_DRAW_REFRESH_UI &&& RGN_DRAW_PARTIAL = 0 by decide)]
  exact h

theorem redraw_tags_ok_call (ar : ARegion) (c : TagCall) (h : redraw_tags_ok ar) :
    redraw_tags_ok (tag_call ar c) := by
  cases c with
  | redraw => exact redraw_tags_ok_redraw ar h
  | no_rebuild => exact redraw_tags_ok_no_rebuild ar h
  | rect rct => exact redraw_tags_ok_rect ar rct h
  | refresh_ui => exact redraw_tags_ok_refresh_ui ar h

theorem redraw_tags_ok_calls (calls : List TagCall) :
    ∀ ar : ARegion, redraw_tags_ok ar → redraw_tags_ok (tag_calls ar calls) := by
  induction calls with
  | nil => intro ar h; exact h
  | cons c cs ih => intro ar h; exact ih (tag_call ar c) (redraw_tags_ok_call ar c h)

/-- C27: starting from a clean region (`do_draw = 0`, draw rect all zeros),
after any sequence of calls of `ED_region_tag_redraw`,
`ED_region_tag_redraw_no_rebuild`, ` ED_region_tag_redraw_partial` (with any
rects) and `ED_region_tag_refresh_ui`, at most one of `RGN_DRAW`,
`RGN_DRAW_NO_REBUILD` and `RGN_DRAW_PARTIAL` is set, and the draw rect is all
zeros whenever `RGN_DRAW` or `RGN_DRAW_NO_REBUILD` is set. -/
theorem redraw_tags_invariant (ar : ARegion) (calls : List TagCall)
    (hdraw : ar.do_draw = 0) (hrect : ar.drawrct = rcti_zero) :
    ¬((tag_calls ar calls).do_draw &&& RGN_DRAW ≠ 0 ∧
      (tag_calls ar calls).do_draw &&& RGN_DRAW_NO_REBUILD ≠ 0) ∧
    ¬((tag_calls ar calls).do_draw &&& RGN_DRAW ≠ 0 ∧
      (tag_calls ar calls).do_draw &&& RGN_DRAW_PARTIAL ≠ 0) ∧
    ¬((tag_calls ar calls).do_draw &&& RGN_DRAW_NO_REBUILD ≠ 0 ∧
      (tag_calls ar calls).do_draw &&& RGN_DRAW_PARTIAL ≠ 0) ∧
    ((tag_calls ar calls).do_draw &&& RGN_DRAW ≠ 0 ∨
      (tag_calls ar calls).do_draw &&& RGN_DRAW_NO_REBUILD ≠ 0 →
      (tag_calls ar calls).drawrct = rcti_zero) := by
  have h0 : redraw_tags_ok ar := by
    unfold redraw_tags_ok
    rw [hdraw]
    exact ⟨fun hh => hh.1 (by decide), fun hh => hh.1 (by decide), fun hh => hh.1 (by decide),
      fun _ => hrect⟩
  exact redraw_tags_ok_calls calls ar h0

/-- C27 at a concrete input: a partial tag, a refresh tag, a no-rebuild tag,
a partial tag and a full tag on the clean region. -/
theorem redraw_tags_invariant_witness :
    (tag_calls clean_region [TagCall.rect ⟨1, 5, 2, 7⟩, TagCall.refresh_ui, TagCall.no_rebuild,
        TagCall.rect ⟨0, 9, 0, 9⟩, TagCall.redraw]).do_draw
      = RGN_DRAW ||| RGN_DRAW_REFRESH_UI ∧
    ((tag_calls clean_region [TagCall.rect ⟨1, 5, 2, 7⟩, TagCall.refresh_ui,
        TagCall.no_rebuild, TagCall.rect ⟨0, 9, 0, 9⟩, TagCall.redraw]).do_draw &&& RGN_DRAW ≠ 0 ∨
      (tag_calls clean_region [TagCall.rect ⟨1, 5, 2, 7⟩, TagCall.refresh_ui,
        TagCall.no_rebuild, TagCall.rect ⟨0, 9, 0, 9⟩, TagCall.redraw]).do_draw
          &&& RGN_DRAW_NO_REBUILD ≠ 0 →
      (tag_calls clean_region [TagCall.rect ⟨1, 5, 2, 7⟩, TagCall.refresh_ui,
        TagCall.no_rebuild, TagCall.rect ⟨0, 9, 0, 9⟩, TagCall.redraw]).drawrct = rcti_zero) :=
  ⟨by decide, (redraw_tags_invariant clean_region
    [TagCall.rect ⟨1, 5, 2, 7⟩, TagCall.refresh_ui, TagCall.no_rebuild,
      TagCall.rect ⟨0, 9, 0, 9⟩, TagCall.redraw] rfl rfl).2.2.2⟩

/-! ## C28: the assertions of the partial tag -/

/-- In every state reached from a clean region by the tagging calls, the
assertion of the union branch of ` ED_region_tag_redraw_partial` (line 591)
holds: when a redraw is pending and the draw rect has `xmin != xmax`,
`RGN_DRAW_PARTIAL` is set. -/
theorem tag_redraw_partial_union_assert (ar : ARegion) (calls : List TagCall)
    (hdraw : ar.do_draw = 0) (hrect : ar.drawrct = rcti_zero)
    (hpending : (tag_calls ar calls).do_draw
      &&& (RGN_DRAW ||| RGN_DRAW_NO_REBUILD ||| RGN_DRAW_PARTIAL) ≠ 0)
    (hx : (tag_calls ar calls).drawrct.xmin ≠ (tag_calls ar calls).drawrct.xmax) :
    (tag_calls ar calls).do_draw &&& RGN_DRAW_PARTIAL ≠ 0 := by
  have h0 : redraw_tags_ok ar := by
    unfold redraw_tags_ok
    rw [hdraw]
    exact ⟨fun hh => hh.1 (by decide), fun hh => hh.1 (by decide), fun hh => hh.1 (by decide),
      fun _ => hrect⟩
  have hok := redraw_tags_ok_calls calls ar h0
  intro hP
  by_cases hDN : (tag_calls ar calls).do_draw &&& RGN_DRAW ≠ 0 ∨
      (tag_calls ar calls).do_draw &&& RGN_DRAW_NO_REBUILD ≠ 0
  · have hz := hok.2.2.2 hDN
    rw [hz] at hx
    exact hx rcti_zero_xmin_xmax
  · have hD : (tag_calls ar calls).do_draw &&& RGN_DRAW = 0 := by
      by_contra hne; exact hDN (Or.inl hne)
    have hN : (tag_calls ar calls).do_draw &&& RGN_DRAW_NO_REBUILD = 0 := by
      by_contra hne; exact hDN (Or.inr hne)
    exact hpending ((and_or_eq_zero_iff _ _ _).2 ⟨(and_or_eq_zero_iff _ _ _).2 ⟨hD, hN⟩, hP⟩)

/-- C28 fails on the code: after ` ED_region_tag_redraw_partial` with the rect
`xmin = 5, xmax = 5, ymin = 0, ymax = 10` on the clean region, the region is
not drawing, has `RGN_DRAW_PARTIAL` alone set and a draw rect with
`xmin = xmax`; the next call of ` ED_region_tag_redraw_partial` takes the
final branch, where `BLI_assert((ar->do_draw & (RGN_DRAW |
RGN_DRAW_NO_REBUILD)) != 0)` is false. -/
theorem tag_redraw_partial_assert_fails :
    clean_region.do_draw = 0 ∧ clean_region.drawrct = rcti_zero ∧
    (tag_calls clean_region [TagCall.rect ⟨5, 5, 0, 10⟩]).do_draw = RGN_DRAW_PARTIAL ∧
    (tag_calls clean_region [TagCall.rect ⟨5, 5, 0, 10⟩]).drawrct = ⟨5, 5, 0, 10⟩ ∧
    ¬ tag_redraw_partial_asserts (tag_calls clean_region [TagCall.rect ⟨5, 5, 0, 10⟩]) ∧
    (tag_calls clean_region [TagCall.rect ⟨5, 5, 0, 10⟩]).do_draw
      &&& (RGN_DRAW ||| RGN_DRAW_NO_REBUILD) = 0 := by
  decide

/-! ## C29: the zones after a mouse move outside of them -/

/-- C29 fails on the code: the loop of `ED_area_azones_update` is left at the
first fullscreen zone that the mouse does not hover (`break`, under the
comment `can break since currently only this is handled here`), so the zones
after it are not visited. On a fullscreen screen `region_azones_add` makes
the fullscreen zone of a window region before its scroll zones; with both
zones at non-zero alpha, a mouse position outside both rects resets the alpha
of the fullscreen zone and leaves the alpha of the scroll zone and of the
scrollbar non-zero. -/
theorem azones_update_skips_zones_after_fullscreen :
    (example_zone_area.actionzones.map fun az => (az.type, az.rect, az.alpha_nonzero))
      = [(AZONE_FULLSCREEN, ⟨871, 1000, 671, 800⟩, true),
         (AZONE_REGION_SCROLL, ⟨880, 1100, -100, 900⟩, true)] ∧
    (∀ az ∈ example_zone_area.actionzones, BLI_rcti_isect_pt_v az.rect 10 10 = false) ∧
    ((ED_area_azones_update example_zone_area 10 10).map fun sa =>
        sa.actionzones.map fun az => (az.type, az.alpha_nonzero))
      = some [(AZONE_FULLSCREEN, false), (AZONE_REGION_SCROLL, true)] ∧
    ((ED_area_azones_update example_zone_area 10 10).map fun sa =>
        sa.regionbase.map fun r => r.v2d.alpha_vert) = some [255] ∧
    ((ED_area_azones_update example_zone_area 10 10).map fun sa =>
        (sa.flag &&& AREA_FLAG_ACTIONZONES_UPDATE,
          sa.regionbase.map fun r => r.ar.do_draw)) = some (0, [RGN_DRAW_NO_REBUILD]) := by
  decide

theorem azones_update_loop_scroll (mouse_x mouse_y : Int) (zones : List AZone) :
    ∀ (regions : List AreaRegion) (changed : Bool),
      (∀ az ∈ zones, az.type ≠ AZONE_FULLSCREEN) →
      (∀ az ∈ zones, BLI_rcti_isect_pt_v az.rect mouse_x mouse_y = false) →
      (∀ az ∈ zones, az.type = AZONE_REGION_SCROLL →
        az.ar ≠ none ∧ (az.edge = AZ_SCROLL_VERT ∨ az.edge = AZ_SCROLL_HOR)) →
      ∃ zs rs ch, azones_update_loop mouse_x mouse_y zones regions changed = some (zs, rs, ch) ∧
        (∀ az ∈ zs, az.type = AZONE_REGION_SCROLL → az.alpha_nonzero = false) ∧
        ((changed = true ∨ ∃ az ∈ zones, az.type = AZONE_REGION_SCROLL) → ch = true) := by
  induction zones with
  | nil =>
    intro regions changed _ _ _
    refine ⟨[], regions, changed, rfl, fun az haz => absurd haz (List.not_mem_nil az), ?_⟩
    intro h
    rcases h with h | ⟨az, haz, _⟩
    · exact h
    · exact absurd haz (List.not_mem_nil az)
  | cons az rest ih =>
    intro regions changed hno hout hscroll
    have hno1 : ∀ a ∈ rest, a.type ≠ AZONE_FULLSCREEN :=
      fun a ha => hno a (List.mem_cons_of_mem _ ha)
    have hout1 : ∀ a ∈ rest, BLI_rcti_isect_pt_v a.rect mouse_x mouse_y = false :=
      fun a ha => hout a (List.mem_cons_of_mem _ ha)
    have hscroll1 : ∀ a ∈ rest, a.type = AZONE_REGION_SCROLL →
        a.ar ≠ none ∧ (a.edge = AZ_SCROLL_VERT ∨ a.edge = AZ_SCROLL_HOR) :=
      fun a ha => hscroll a (List.mem_cons_of_mem _ ha)
    have hf : az.type ≠ AZONE_FULLSCREEN := hno az (List.mem_cons_self _ _)
    have ho : BLI_rcti_isect_pt_v az.rect mouse_x mouse_y = false :=
      hout az (List.mem_cons_self _ _)
    unfold azones_update_loop
    rw [if_neg hf]
    by_cases hs : az.type = AZONE_REGION_SCROLL
    · obtain ⟨hown, hdir⟩ := hscroll az (List.mem_cons_self _ _) hs
      obtain ⟨id, hid⟩ : ∃ id, az.ar = some id := by
        cases h : az.ar with
        | none => exact absurd h hown
        | some id => exact ⟨id, rfl⟩
      rw [if_pos hs, if_pos ho]
      have key : ∀ vert : Bool,
          ∃ zs rs ch,
            (match azone_v2d_alpha_clear az.ar vert regions with
              | none => none
              | some regions1 =>
                (azones_update_loop mouse_x mouse_y rest regions1 true).map
                  fun out => ({ az with alpha_nonzero := false } :: out.1, out.2.1, out.2.2))
              = some (zs, rs, ch) ∧
            (∀ a ∈ zs, a.type = AZONE_REGION_SCROLL → a.alpha_nonzero = false) ∧
            ch = true := by
        intro vert
        have hclear : azone_v2d_alpha_clear az.ar vert regions = some (regions.map fun r =>
            if r.id = id then
              if vert then { r with v2d := { r.v2d with alpha_vert := 0 } }
              else { r with v2d := { r.v2d with alpha_hor := 0 } }
            else r) := by
          rw [hid]; rfl
        rw [hclear]
        simp only []
        obtain ⟨zs, rs, ch, hl, hz, hc⟩ := ih (regions.map fun r =>
          if r.id = id then
            if vert then { r with v2d := { r.v2d with alpha_vert := 0 } }
            else { r with v2d := { r.v2d with alpha_hor := 0 } }
          else r) true hno1 hout1 hscroll1
        refine ⟨{ az with alpha_nonzero := false } :: zs, rs, ch, ?_, ?_, hc (Or.inl rfl)⟩
        · rw [hl]; rfl
        · intro a ha hta
          rcases List.mem_cons.mp ha with h | h
          · rw [h]
          · exact hz a h hta
      by_cases hv : az.edge = AZ_SCROLL_VERT
      · rw [if_pos hv]
        obtain ⟨zs, rs, ch, h1, h2, h3⟩ := key true
        exact ⟨zs, rs, ch, h1, h2, fun _ => h3⟩
      · rw [if_neg hv, if_pos (hdir.resolve_left hv)]
        obtain ⟨zs, rs, ch, h1, h2, h3⟩ := key false
        exact ⟨zs, rs, ch, h1, h2, fun _ => h3⟩
    · rw [if_neg hs]
      obtain ⟨zs, rs, ch, hl, hz, hc⟩ := ih regions changed hno1 hout1 hscroll1
      refine ⟨az :: zs, rs, ch, ?_, ?_, ?_⟩
      · rw [hl]; rfl
      · intro a ha hta
        rcases List.mem_cons.mp ha with h | h
        · rw [h] at hta; exact absurd hta hs
        · exact hz a h hta
      · intro h
        apply hc
        rcases h with h | ⟨a, ha, hta⟩
        · exact Or.inl h
        · rcases List.mem_cons.mp ha with h | h
          · rw [h] at hta; exact absurd hta hs
          · exact Or.inr ⟨a, h, hta⟩

/-- Without a fullscreen zone in the list the loop of `ED_area_azones_update`
visits every zone: with the mouse outside the rect of every zone, and every
scroll zone owned by a region and vertical or horizontal, every scroll zone
has alpha 0 afterwards and, if there is a scroll zone,
`AREA_FLAG_ACTIONZONES_UPDATE` is cleared and every region not drawing and
without a full redraw pending is tagged for a redraw without rebuild. -/
theorem azones_update_without_fullscreen (sa : ScrArea) (mouse_x mouse_y : Int)
    (hno : ∀ az ∈ sa.actionzones, az.type ≠ AZONE_FULLSCREEN)
    (hout : ∀ az ∈ sa.actionzones, BLI_rcti_isect_pt_v az.rect mouse_x mouse_y = false)
    (hscroll : ∀ az ∈ sa.actionzones, az.type = AZONE_REGION_SCROLL →
      az.ar ≠ none ∧ (az.edge = AZ_SCROLL_VERT ∨ az.edge = AZ_SCROLL_HOR)) :
    ∃ sa2, ED_area_azones_update sa mouse_x mouse_y = some sa2 ∧
      (∀ az ∈ sa2.actionzones, az.type = AZONE_REGION_SCROLL → az.alpha_nonzero = false) ∧
      ((∃ az ∈ sa.actionzones, az.type = AZONE_REGION_SCROLL) →
        sa2.flag &&& AREA_FLAG_ACTIONZONES_UPDATE = 0 ∧
        ∀ r ∈ sa2.regionbase, r.ar.do_draw &&& (RGN_DRAWING ||| RGN_DRAW) = 0 →
          r.ar.do_draw &&& RGN_DRAW_NO_REBUILD ≠ 0) := by
  obtain ⟨zs, rs, ch, hl, hz, hc⟩ :=
    azones_update_loop_scroll mouse_x mouse_y sa.actionzones sa.regionbase false hno hout hscroll
  unfold ED_area_azones_update
  rw [hl]
  simp only []
  cases hch : ch
  · refine ⟨_, rfl, hz, ?_⟩
    intro hex
    rw [hc (Or.inr hex)] at hch
    exact Bool.noConfusion hch
  · refine ⟨_, rfl, hz, ?_⟩
    intro _
    refine ⟨flag_clear_and_self _ _, ?_⟩
    intro r hr hidle
    simp only [ED_area_tag_redraw_no_rebuild, List.mem_map] at hr
    obtain ⟨r0, _, hr0⟩ := hr
    rw [← hr0] at hidle ⊢
    simp only [] at hidle ⊢
    by_cases hc0 : r0.ar.do_draw &&& (RGN_DRAWING ||| RGN_DRAW) = 0
    · simp only [ED_region_tag_redraw_no_rebuild, hc0, if_true]
      rw [or_and_self]; decide
    · have hsame : ED_region_tag_redraw_no_rebuild r0.ar = r0.ar := by
        simp [ED_region_tag_redraw_no_rebuild, hc0]
      rw [hsame] at hidle
      exact absurd hidle hc0

/-! ## C30: what a too-small region takes from the remainder -/

/-- When the alignment chain sets the too-small flag it leaves `remainder`
and `overlap_remainder` as they are. -/
theorem region_rect_place_flagged_frame (al : Nat) (px py : Int) (ar : ARegion)
    (next : List LRegion) (rm om : rcti) (q : Nat)
    (hclean : ar.flag &&& RGN_FLAG_TOO_SMALL = 0)
    (hflag : (region_rect_place al px py ar next rm om q).ar.flag &&& RGN_FLAG_TOO_SMALL ≠ 0) :
    (region_rect_place al px py ar next rm om q).remainder = rm ∧
      (region_rect_place al px py ar next rm om q).overlap_remainder = om := by
  unfold region_rect_place at hflag ⊢
  by_cases h1 : ar.flag &&& RGN_FLAG_HIDDEN ≠ 0
  · rw [if_pos h1]; exact ⟨rfl, rfl⟩
  rw [if_neg h1] at hflag ⊢
  by_cases h2 : al = RGN_ALIGN_FLOAT
  · rw [if_pos h2]; exact ⟨rfl, rfl⟩
  rw [if_neg h2] at hflag ⊢
  by_cases h3 : rct_fits rm 'v' 1 < 0 ∨ rct_fits rm 'h' 1 < 0
  · rw [if_pos h3]; exact ⟨rfl, rfl⟩
  rw [if_neg h3] at hflag ⊢
  by_cases h4 : al = RGN_ALIGN_NONE
  · rw [if_pos h4] at hflag; exact absurd hclean hflag
  rw [if_neg h4] at hflag ⊢
  by_cases h5 : al = RGN_ALIGN_TOP ∨ al = RGN_ALIGN_BOTTOM
  · rw [if_pos h5] at hflag ⊢
    unfold place_top_bottom at hflag ⊢
    simp only [] at hflag ⊢
    by_cases hf : rct_fits (if ar.overlap = true then om else rm) 'v' py < 0
    · rw [if_pos hf]; exact ⟨rfl, rfl⟩
    · rw [if_neg hf] at hflag
      simp only [apply_ite Placed.ar, apply_ite ARegion.flag, ite_self] at hflag
      exact absurd hclean hflag
  rw [if_neg h5] at hflag ⊢
  by_cases h6 : al = RGN_ALIGN_LEFT ∨ al = RGN_ALIGN_RIGHT
  · rw [if_pos h6] at hflag ⊢
    unfold place_left_right at hflag ⊢
    simp only [] at hflag ⊢
    by_cases hf : rct_fits (if ar.overlap = true then om else rm) 'h' px < 0
    · rw [if_pos hf]; exact ⟨rfl, rfl⟩
    · rw [if_neg hf] at hflag
      simp only [apply_ite Placed.ar, apply_ite ARegion.flag, ite_self] at hflag
      exact absurd hclean hflag
  rw [if_neg h6] at hflag ⊢
  by_cases h7 : al = RGN_ALIGN_VSPLIT ∨ al = RGN_ALIGN_HSPLIT
  · rw [if_pos h7] at hflag
    simp only [place_split, apply_ite Placed.ar, apply_ite ARegion.flag, ite_self] at hflag
    exact absurd hclean hflag
  rw [if_neg h7] at hflag ⊢
  by_cases h8 : al = RGN_ALIGN_QSPLIT
  · rw [if_pos h8] at hflag
    simp only [place_qsplit, apply_ite Placed.ar, apply_ite ARegion.flag, ite_self] at hflag
    exact absurd hclean hflag
  rw [if_neg h8]; exact ⟨rfl, rfl⟩

/-- C30 (amended): a region that ends its activation flagged too-small, the
flag being set by the alignment chain when the region is overlap-eligible
(not by `region_overlap_fix`), has claimed no space: `remainder` is the same
when the next region is processed as it was before, and so is
`overlap_remainder` for an overlap-eligible region. -/
theorem too_small_region_claims_nothing (env : LayoutEnv) (s : LayoutState) (r : LRegion)
    (next : List LRegion) (hs : s.todo = r :: next)
    (hflag : ∃ out d, (region_rect_body env s).done = out :: d ∧
      out.ar.flag &&& RGN_FLAG_TOO_SMALL ≠ 0)
    (hfix : ED_region_is_overlap env.user_region_overlap env.spacetype r.ar.regiontype = true →
      flagged_by_chain env s r next) :
    (region_rect_body env s).remainder = s.remainder ∧
      (ED_region_is_overlap env.user_region_overlap env.spacetype r.ar.regiontype = true →
        (region_rect_body env s).overlap_remainder = s.overlap_remainder) := by
  have hov : (region_rect_place (region_alignment r next) (region_prefsizex env r)
      (region_prefsizey env r) (region_rect_enter env r.ar) next
      (if splits_prev r s.done then prev_winrct s.remainder s.done else s.remainder)
      s.overlap_remainder s.quad).ar.overlap
        = ED_region_is_overlap env.user_region_overlap env.spacetype r.ar.regiontype := by
    rw [region_rect_place_overlap]; rfl
  have hchain : flagged_by_chain env s r next := by
    cases ho : ED_region_is_overlap env.user_region_overlap env.spacetype r.ar.regiontype
    · obtain ⟨out, d, hd, hf⟩ := hflag
      rw [region_rect_body_eq_finish env s r next hs] at hd
      unfold region_rect_finish at hd
      simp only [region_store_size_overlap, hov, ho, Bool.false_eq_true, if_false] at hd
      injection hd with h1 h2
      rw [← h1] at hf
      simp only [region_rect_collapse_flag, region_store_size_flag] at hf
      exact hf
    · exact hfix ho
  obtain ⟨hrm, hom⟩ := region_rect_place_flagged_frame _ _ _ _ _ _ _ _
    (flag_clear_and_self _ _) hchain
  rw [region_rect_body_eq_finish env s r next hs]
  unfold region_rect_finish
  simp only [region_rect_collapse_overlap, region_store_size_overlap, hrm, hom]
  constructor
  · cases splits_prev r s.done <;> simp
  · intro ho
    simp only [hov, ho, if_true, region_overlap_fix_overlap, region_store_size_overlap]

/-- C30 fails for a region that `region_overlap_fix` flags: with region
overlap on, on the area `(0,0)-(200,100)`, a right-aligned properties region
of width 150, a top-aligned channels region, a left-aligned tool region of
width 150 and the window region. The tool region takes the columns 0..149 of
the overlap remainder `(0,0)-(200,90)`, is then flagged too-small because it
meets the properties region, and hands the overlap remainder
`(150,0)-(200,90)` on. -/
theorem too_small_by_overlap_fix_claims_space :
    (layout_state_at example_narrow_overlap_env ⟨0, 200, 0, 100⟩
      [example_right_ui, example_channels, example_left_tools, example_window] 2).todo
        = [example_left_tools, example_window] ∧
    ED_region_is_overlap example_narrow_overlap_env.user_region_overlap
      example_narrow_overlap_env.spacetype example_left_tools.ar.regiontype = true ∧
    (layout_state_at example_narrow_overlap_env ⟨0, 200, 0, 100⟩
      [example_right_ui, example_channels, example_left_tools, example_window] 2).overlap_remainder
        = ⟨0, 200, 0, 90⟩ ∧
    (layout_state_at example_narrow_overlap_env ⟨0, 200, 0, 100⟩
      [example_right_ui, example_channels, example_left_tools, example_window] 3).overlap_remainder
        = ⟨150, 200, 0, 90⟩ ∧
    ((layout_pass example_narrow_overlap_env ⟨0, 200, 0, 100⟩
      [example_right_ui, example_channels, example_left_tools, example_window]).map
        fun x => (x.ar.winrct, x.ar.flag &&& RGN_FLAG_TOO_SMALL))
      = [(⟨51, 200, 0, 100⟩, 0), (⟨0, 200, 91, 100⟩, 0), (⟨150, 150, 0, 90⟩, RGN_FLAG_TOO_SMALL),
         (⟨0, 200, 0, 90⟩, 0)] := by
  refine ⟨by decide, by decide, by decide, by decide, ?_⟩
  rw [layout_pass, region_rect_recursive_eq_iterate]
  decide

/-- C30 (amended) at a concrete input: with region overlap on, a left-aligned
tool region of preferred width 200 on the area `(0,0)-(100,100)`, followed by
the window region; the region does not fit and is flagged by the alignment
chain. -/
theorem too_small_region_claims_nothing_witness :
    (region_rect_body example_overlap_env
        (layout_start ⟨0, 100, 0, 100⟩ [example_tools, example_window])).remainder
      = (layout_start ⟨0, 100, 0, 100⟩ [example_tools, example_window]).remainder ∧
    (ED_region_is_overlap example_overlap_env.user_region_overlap example_overlap_env.spacetype
        example_tools.ar.regiontype = true →
      (region_rect_body example_overlap_env
          (layout_start ⟨0, 100, 0, 100⟩ [example_tools, example_window])).overlap_remainder
        = (layout_start ⟨0, 100, 0, 100⟩ [example_tools, example_window]).overlap_remainder) :=
  too_small_region_claims_nothing example_overlap_env
    (layout_start ⟨0, 100, 0, 100⟩ [example_tools, example_window]) example_tools
    [example_window] rfl ⟨_, _, rfl, by decide⟩ (fun _ => by decide)

end ScreenArea
